import Mathlib

/-!
Battleship-GA: placement chromosome, constrained generator, repair and GA engine.

A shallow embedding of the placement side of the repository
(`src/models/ship.cpp`, `src/models/fleet.cpp`, `src/ga/placement_chromosome.cpp`,
`src/ga/placement_generator.cpp`, `src/ga/placement_ga.cpp`), of the operators of the
weight GA (`src/ga/decision_chromosome.cpp`, `src/ga/decision_ga.cpp`), of the fitness
formulas (`src/ga/fitness.cpp`), of the placement pool (`src/ga/placement_pool.cpp`), of
the saved state of the weight GA (`src/utils/logger.cpp`), of the board
(`src/models/board.cpp`), of the text format of a fleet (`src/models/fleet.cpp`) and of the
feature-based shooter (`src/strategies/features.cpp`,
`src/strategies/feature_based_strategy.cpp`).

Conventions of the embedding.

* C++ `int` is `Int`.  Every arithmetic expression of the embedded code is evaluated
  on values that the preceding guards keep small (board coordinates), except the
  jitter `genes[s*3] + uniformInt(-2,2)` and the cell walk of `markShip` in `repair`,
  which on a genome holding a gene next to `INT_MAX` would overflow (undefined in
  C++); there the embedding computes in `Int`.
* C++ `double` statistics of a placement chromosome (fitness, mean shots, ...) are values
  of `Int`: only copying and comparing them is modelled.  In the weight GA and the
  fitness formulas `double` is `Rat`, the arithmetic being exact: rounding, infinities
  and NaN of floating point are not modelled.
* The random source is a stream of raw draws `Nat → Nat` with a read position.
  `uniformInt(lo, hi)` maps the next draw into `[lo, hi]`; `uniformReal(0.0, 1.0)` reads
  the next draw as a number of thousandths in `[0, 1000)`, and every probability
  (`0.7`, `0.75`, the crossover and mutation rates, ...) is given in thousandths.
* The average fitness of a population is a `Rat`, the integer fitness values being cast.
  A binary file is the list of the typed fields written to it.
* In the shooting features `std::sqrt` and `std::exp` are parameters of the embedding
  (`MathLib`), and a quotient whose divisor is zero is `none`.  Text is a list of
  characters.
* A function that may not complete (unbounded restart recursion of `generate`, a thrown
  exception, an out-of-range vector access) returns `Option`; the restart recursion takes a
  `fuel` argument bounding the recursion depth.
-/

namespace Battleship

/-! ## Random source (`src/utils/rng.h`) -/

/-- The random source: an infinite stream of raw draws and the read position. -/
structure RNG where
  draws : Nat → Nat
  pos : Nat

/-- Consume one raw draw. -/
def RNG.next (r : RNG) : Nat × RNG :=
  (r.draws r.pos, { r with pos := r.pos + 1 })

/-- Embeds `RNG::uniformInt(lo, hi)`: one draw, mapped into the closed range `[lo, hi]`. -/
def RNG.uniformInt (r : RNG) (lo hi : Int) : Int × RNG :=
  let (d, r1) := r.next
  (lo + (d : Int) % (hi - lo + 1), r1)

/-- Embeds `RNG::uniformReal(0.0, 1.0)`: one draw, read as a number of thousandths in
`[0, 1000)`. -/
def RNG.uniformReal01 (r : RNG) : Int × RNG :=
  let (d, r1) := r.next
  (((d % 1000 : Nat) : Int), r1)

/-- The comparison `rng.uniformReal(0.0, 1.0) < p`, the probability `p` given in
thousandths. -/
def RNG.chance (r : RNG) (p : Int) : Bool × RNG :=
  let (u, r1) := r.uniformReal01
  (decide (u < p), r1)

/-- Embeds `RNG::getBool(p)`, a Bernoulli draw that is true with probability `p` (thousandths). -/
def RNG.getBool (r : RNG) (p : Int) : Bool × RNG :=
  let (u, r1) := r.uniformReal01
  (decide (u < p), r1)

/-! ## Cells and ships (`src/models/cell.h`, `src/models/ship.cpp`) -/

/-- Embeds `struct Cell`. -/
structure Cell where
  x : Int
  y : Int
deriving DecidableEq, Repr

/-- Embeds `class Ship`: start position, length, orientation. -/
structure Ship where
  position : Cell
  length : Int
  horizontal : Bool
deriving DecidableEq, Repr

/-- Embeds `Ship::getEndPosition`. -/
def Ship.getEndPosition (s : Ship) : Cell :=
  if s.horizontal then ⟨s.position.x + s.length - 1, s.position.y⟩
  else ⟨s.position.x, s.position.y + s.length - 1⟩

/-- Embeds `Ship::getAllCells`: the loop `for (i = 0; i < length; ++i)`. -/
def Ship.getAllCells (s : Ship) : List Cell :=
  (List.range s.length.toNat).map fun (i : Nat) =>
    if !s.horizontal then ⟨s.position.x, s.position.y + (i : Int)⟩
    else ⟨s.position.x + (i : Int), s.position.y⟩

/-- Embeds `Ship::intersects`: some cell of `s` equals some cell of `other`. -/
def Ship.intersects (s other : Ship) : Bool :=
  s.getAllCells.any fun cell1 => other.getAllCells.any fun cell2 => decide (cell1 = cell2)

/-- The Chebyshev distance `max(|x1 - x2|, |y1 - y2|)` computed in `Ship::touches`. -/
def chebyshevDist (cell1 cell2 : Cell) : Int :=
  max (Int.natAbs (cell1.x - cell2.x) : Int) (Int.natAbs (cell1.y - cell2.y) : Int)

/-- Embeds `Ship::touches`: two different cells at Chebyshev distance at most 1. -/
def Ship.touches (s other : Ship) : Bool :=
  s.getAllCells.any fun cell1 => other.getAllCells.any fun cell2 =>
    decide (chebyshevDist cell1 cell2 ≤ 1) && decide (cell1 ≠ cell2)

/-- Embeds `Ship::isWithinBounds(boardSize)`. -/
def Ship.isWithinBounds (s : Ship) (boardSize : Int) : Bool :=
  if s.position.x < 0 ∨ s.position.y < 0 ∨ s.position.x ≥ boardSize ∨ s.position.y ≥ boardSize
  then false
  else
    let endPos := s.getEndPosition
    decide (endPos.x < boardSize) && decide (endPos.y < boardSize)

/-! ## Fleet (`src/models/fleet.cpp`) -/

/-- Embeds `Fleet::standardShipLengths` (the same table as `PlacementChromosome::SHIP_LENGTHS`). -/
def standardShipLengths : List Int := [4, 3, 3, 2, 2, 2, 1, 1, 1, 1]

/-- The nested loop of `Fleet::isValid` over all index pairs `i < j`:
no pair intersects and no pair touches. -/
def noConflicts : List Ship → Bool
  | [] => true
  | s :: rest => rest.all (fun o => !s.intersects o && !s.touches o) && noConflicts rest

/-- Embeds `Fleet::isValid(boardSize)` on the vector `m_ships`. -/
def Fleet.isValid (ships : List Ship) (boardSize : Int) : Bool :=
  if ships.isEmpty then true
  else if !ships.all (fun s => s.isWithinBounds boardSize) then false
  else noConflicts ships

/-! ## Placement chromosome (`src/ga/placement_chromosome.cpp`) -/

/-- Embeds `class PlacementChromosome`: the gene vector and the statistics fields. -/
structure PlacementChromosome where
  genes : List Int
  fitness : Int := 0
  meanShots : Int := 0
  stdDevShots : Int := 0
  meanShotsRandom : Int := 0
  meanShotsCheckerboard : Int := 0
  meanShotsMC : Int := 0
deriving DecidableEq, Repr

/-- Embeds `PlacementChromosome::SHIP_COUNT`. -/
def SHIP_COUNT : Nat := 10

/-- Embeds `PlacementChromosome::GENES_COUNT` (`PLACEMENT_GENES` of `constants.h`). -/
def GENES_COUNT : Nat := 30

/-- The loop of `PlacementChromosome::decodeFleet`: one ship per entry of the length
table, reading three genes at `geneIndex`; `none` is the `nullptr` returned when the
genes run out. -/
def decodeLoop (genes : List Int) : List Int → Nat → List Ship → Option (List Ship)
  | [], _, fleet => some fleet
  | size :: sizes, geneIndex, fleet =>
    if geneIndex + 2 ≥ genes.length then none
    else
      let x := genes.getD geneIndex 0
      let y := genes.getD (geneIndex + 1) 0
      let isHorizontal := genes.getD (geneIndex + 2) 0 == 1
      decodeLoop genes sizes (geneIndex + 3) (fleet ++ [⟨⟨x, y⟩, size, isHorizontal⟩])

/-- Embeds `PlacementChromosome::decodeFleet`. -/
def decodeFleet (genes : List Int) : Option (List Ship) :=
  decodeLoop genes standardShipLengths 0 []

/-- The gene range loop of `PlacementChromosome::isValid` (`genesValid`): the body for
ship `i`; the loop breaks with `false` at the first ship that fails. -/
def geneOk (genes : List Int) (i : Nat) : Bool :=
  let x := genes.getD (i * 3) 0
  let y := genes.getD (i * 3 + 1) 0
  let o := genes.getD (i * 3 + 2) 0
  let length := standardShipLengths.getD i 0
  if x < 0 ∨ x > 9 ∨ y < 0 ∨ y > 9 then false
  else if o ≠ 0 ∧ o ≠ 1 then false
  else if (o = 0 ∧ y + length - 1 > 9) ∨ (o = 1 ∧ x + length - 1 > 9) then false
  else true

/-- Embeds `PlacementChromosome::isValid` as a function of the gene vector. -/
def isValidGenes (genes : List Int) : Bool :=
  match decodeFleet genes with
  | none => false
  | some fleet =>
    if fleet.length ≠ SHIP_COUNT then false
    else
      let fleetValid := Fleet.isValid fleet 10
      let genesValid := (List.range SHIP_COUNT).all (geneOk genes)
      fleetValid && genesValid

/-- Embeds `PlacementChromosome::isValid`. -/
def PlacementChromosome.isValid (c : PlacementChromosome) : Bool :=
  isValidGenes c.genes

/-- The example genome of the specification: ten horizontal ships with origins
`(0,0),(2,0),(4,0),(0,2),(2,2),(4,2),(0,4),(2,4),(0,6),(2,6)`. -/
def specExampleGenes : List Int :=
  [0,0,1, 2,0,1, 4,0,1, 0,2,1, 2,2,1, 4,2,1, 0,4,1, 2,4,1, 0,6,1, 2,6,1]

/-- A genome with ten horizontal ships that keep one free cell between them. -/
def spacedExampleGenes : List Int :=
  [0,0,1, 5,0,1, 0,2,1, 4,2,1, 7,2,1, 0,4,1, 3,4,1, 5,4,1, 7,4,1, 9,4,1]

/-! ## Constrained generator (`src/ga/placement_generator.cpp`) -/

/-- Embeds `enum class Bias`. -/
inductive Bias where
  | EDGE
  | CORNER
  | CENTER
  | RANDOM
deriving DecidableEq, Repr

/-- The occupancy grid `std::vector<std::vector<int>> grid(10, std::vector<int>(10,0))`,
read as `g.cell y x` for `g[y][x]`.  Every read and write of the embedded code is preceded by
a range check of both indices. -/
structure Grid where
  cell : Int → Int → Int

/-- The all-zero grid. -/
def Grid.empty : Grid := ⟨fun _ _ => 0⟩

/-- The assignment `g[y][x] = v`. -/
def Grid.set (g : Grid) (y x v : Int) : Grid :=
  ⟨fun y1 x1 => if y1 = y ∧ x1 = x then v else g.cell y1 x1⟩

/-- Embeds `randomXY(len, vert, rng, bias, shipIdx)`: a candidate origin for the bias. -/
def randomXY (len : Int) (vert : Bool) (rng : RNG) (bias : Bias) (shipIdx : Int) :
    (Int × Int) × RNG :=
  match bias with
  | Bias.EDGE =>
    let (edge, rng1) := rng.uniformInt 0 3
    if edge = 0 then
      let (x, rng2) := rng1.uniformInt 0 (10 - (if vert then 0 else len))
      ((x, 0), rng2)
    else if edge = 1 then
      let x := 10 - (if vert then 0 else len)
      let (y, rng2) := rng1.uniformInt 0 (10 - (if vert then len else 0))
      ((x, y), rng2)
    else if edge = 2 then
      let y := 10 - (if vert then len else 0)
      let (x, rng2) := rng1.uniformInt 0 (10 - (if vert then 0 else len))
      ((x, y), rng2)
    else
      let (y, rng2) := rng1.uniformInt 0 (10 - (if vert then len else 0))
      ((0, y), rng2)
  | Bias.CORNER =>
    let (corner, rng1) := rng.uniformInt 0 3
    let ((x, y), rng3) : (Int × Int) × RNG :=
      if corner = 0 then
        let (x, rng2) := rng1.uniformInt 0 1
        let (y, rng3) := rng2.uniformInt 0 1
        ((x, y), rng3)
      else if corner = 1 then
        let (x, rng2) := rng1.uniformInt 8 9
        let (y, rng3) := rng2.uniformInt 0 1
        ((x, y), rng3)
      else if corner = 2 then
        let (x, rng2) := rng1.uniformInt 8 9
        let (y, rng3) := rng2.uniformInt 8 9
        ((x, y), rng3)
      else
        let (x, rng2) := rng1.uniformInt 0 1
        let (y, rng3) := rng2.uniformInt 8 9
        ((x, y), rng3)
    let y1 := if vert ∧ y + len > 10 then 10 - len else y
    let x1 := if ¬ vert ∧ x + len > 10 then 10 - len else x
    ((x1, y1), rng3)
  | Bias.CENTER =>
    if shipIdx < 3 then
      let (x, rng1) := rng.uniformInt 3 (6 - (if vert then 0 else len - 1))
      let (y, rng2) := rng1.uniformInt 3 (6 - (if vert then len - 1 else 0))
      ((x, y), rng2)
    else
      let (x, rng1) := rng.uniformInt 2 (7 - (if vert then 0 else len - 1))
      let (y, rng2) := rng1.uniformInt 2 (7 - (if vert then len - 1 else 0))
      ((x, y), rng2)
  | Bias.RANDOM =>
    let (x, rng1) := rng.uniformInt 0 (if vert then 9 else 10 - len)
    let (y, rng2) := rng1.uniformInt 0 (if vert then 10 - len else 9)
    ((x, y), rng2)

/-- The body of the cell loop of `PlacementGenerator::fits` for the cell `(xi, yi)`:
the cell is free and so is every neighbour of it that lies on the board. -/
def fitsCell (g : Grid) (xi yi : Int) : Bool :=
  decide (g.cell yi xi = 0) &&
  [(-1 : Int), 0, 1].all fun dy => [(-1 : Int), 0, 1].all fun dx =>
    let xx := xi + dx
    let yy := yi + dy
    !(decide (xx ≥ 0) && decide (xx < 10) && decide (yy ≥ 0) && decide (yy < 10)
      && decide (g.cell yy xx ≠ 0))

/-- Embeds `PlacementGenerator::fits(x, y, len, vert, g)`. -/
def fits (x y len : Int) (vert : Bool) (g : Grid) : Bool :=
  if x < 0 ∨ (if vert then x > 9 else x + len - 1 > 9) ∨
     y < 0 ∨ (if vert then y + len - 1 > 9 else y > 9) then false
  else
    (List.range len.toNat).all fun (i : Nat) =>
      let xi := x + (if !vert then (i : Int) else 0)
      let yi := y + (if vert then (i : Int) else 0)
      fitsCell g xi yi

/-- The marking loop of `placeShip`: `g[y+(vert?i:0)][x+(!vert?i:0)] = 1` for `i < len`. -/
def markCells (g : Grid) (x y len : Int) (vert : Bool) : Grid :=
  (List.range len.toNat).foldl
    (fun g1 (i : Nat) => g1.set (y + (if vert then (i : Int) else 0))
      (x + (if !vert then (i : Int) else 0)) 1) g

/-- The retry loop of `PlacementGenerator::placeShip`; the first argument counts the
remaining iterations, `t` is the loop counter.  `none` is the `false` result. -/
def placeShipLoop (maxTries len : Int) (vert : Bool) (shipIdx : Int) :
    Nat → Int → Grid → RNG → Bias → Option (Grid × Int × Int) × RNG
  | 0, _, _, rng, _ => (none, rng)
  | n + 1, t, g, rng, bias =>
    let ((x, y), rng1) := randomXY len vert rng bias shipIdx
    if fits x y len vert g then (some (markCells g x y len vert, x, y), rng1)
    else
      placeShipLoop maxTries len vert shipIdx n (t + 1) g rng1
        (if t > Int.tdiv maxTries 2 then Bias.RANDOM else bias)

/-- Embeds `PlacementGenerator::placeShip`. -/
def placeShip (maxTries len : Int) (vert : Bool) (g : Grid) (rng : RNG) (bias : Bias)
    (shipIdx : Int) : Option (Grid × Int × Int) × RNG :=
  placeShipLoop maxTries len vert shipIdx maxTries.toNat 0 g rng bias

/-- The ship loop of `PlacementGenerator::generate` over the remaining entries of
`lens`, `s` being the loop counter.  The genes written so far are `genes` (the code
writes them at `geneIdx = 3 s`, here they are appended).  `none` is the failure of
`placeShip`, on which `generate` restarts. -/
def generateShips (maxTries : Int) :
    List Int → Int → Grid → List Int → RNG → Bias → Option (List Int) × RNG
  | [], _, _, genes, rng, _ => (some genes, rng)
  | len :: rest, s, grid, genes, rng, bias =>
    let (vert, rng1) := rng.getBool 500
    match placeShip maxTries len vert grid rng1 bias s with
    | (none, rng2) => (none, rng2)
    | (some (grid1, x, y), rng2) =>
      let genes1 := genes ++ [x, y, if vert then 0 else 1]
      let (relax, rng3) := rng2.chance (100 + s * 50)
      generateShips maxTries rest (s + 1) grid1 genes1 rng3
        (if relax then Bias.RANDOM else bias)

/-- Embeds `PlacementGenerator::generate(bias, rng)`.  The restart
`return generate(Bias::RANDOM, rng)` is a recursive call; `fuel` bounds the depth of
that recursion and `none` means the bound was reached. -/
def generate (maxTries : Int) : Nat → Bias → RNG → Option (PlacementChromosome × RNG)
  | 0, _, _ => none
  | fuel + 1, bias, rng =>
    match generateShips maxTries standardShipLengths 0 Grid.empty [] rng bias with
    | (some genes, rng1) => some ({ genes := genes }, rng1)
    | (none, rng1) => generate maxTries fuel Bias.RANDOM rng1

/-- A stream of draws given by a finite table, zero afterwards. -/
def tableDraws (t : List Nat) : Nat → Nat := fun i => t.getD i 0

/-- Draws that place the ten ships of `spacedExampleGenes` at the first try under the
RANDOM bias: per ship the orientation draw (500: horizontal), the x draw, the y draw and
the relax draw (999: keep the bias). -/
def spacedDraws : List Nat :=
  [500,0,0,999, 500,5,0,999, 500,0,2,999, 500,4,2,999, 500,7,2,999,
   500,0,4,999, 500,3,4,999, 500,5,4,999, 500,7,4,999, 500,9,4,999]

/-- Embeds `static_cast<Bias>(n)` for the enumerators in declaration order. -/
def biasOfInt (n : Int) : Bias :=
  if n = 0 then Bias.EDGE else if n = 1 then Bias.CORNER
  else if n = 2 then Bias.CENTER else Bias.RANDOM

/-- Embeds `PlacementChromosome::generateValidRandomGenes(rng)`: a default generator
(`maxTries = 50`), a random bias, and the genes of the generated chromosome.  The
constructor `PlacementChromosome(RNG&)` runs the same function. -/
def generateValidRandomGenes (fuel : Nat) (rng : RNG) : Option (List Int × RNG) :=
  let (b, rng1) := rng.uniformInt 0 3
  match generate 50 fuel (biasOfInt b) rng1 with
  | none => none
  | some (chrom, rng2) => some (chrom.genes, rng2)

/-- The first loop of `generatePopulation`: `while (pop.size() < n && attempts < maxAttempts)`;
the first argument counts the attempts that remain.  The set `seen` of string keys is a
list of gene vectors (the key of a chromosome lists its genes). -/
def generatePopulationLoop1 (maxTries : Int) (fuel n : Nat) :
    Nat → List (List Int) → List PlacementChromosome → RNG →
      Option (List (List Int) × List PlacementChromosome × RNG)
  | 0, seen, pop, rng => some (seen, pop, rng)
  | k + 1, seen, pop, rng =>
    if pop.length < n then
      let (bi, rng1) := rng.uniformInt 0 3
      match generate maxTries fuel (biasOfInt bi) rng1 with
      | none => none
      | some (chrom, rng2) =>
        if !chrom.isValid then generatePopulationLoop1 maxTries fuel n k seen pop rng2
        else if chrom.genes ∉ seen then
          generatePopulationLoop1 maxTries fuel n k (chrom.genes :: seen) (pop ++ [chrom]) rng2
        else generatePopulationLoop1 maxTries fuel n k seen pop rng2
    else some (seen, pop, rng)

/-- The second loop of `generatePopulation`:
`while (pop.size() < n && additionalAttempts < maxAdditionalAttempts)`. -/
def generatePopulationLoop2 (fuel n : Nat) :
    Nat → List (List Int) → List PlacementChromosome → RNG →
      Option (List PlacementChromosome × RNG)
  | 0, _, pop, rng => some (pop, rng)
  | k + 1, seen, pop, rng =>
    if pop.length < n then
      match generateValidRandomGenes fuel rng with
      | none => none
      | some (genes, rng1) =>
        if genes ∉ seen then
          generatePopulationLoop2 fuel n k (genes :: seen) (pop ++ [{ genes := genes }]) rng1
        else generatePopulationLoop2 fuel n k seen pop rng1
    else some (pop, rng)

/-- Embeds `PlacementGenerator::generatePopulation(n, rng)`; when fewer than `n` unique
chromosomes were found the code prints a warning and returns what it has. -/
def generatePopulation (maxTries : Int) (fuel n : Nat) (rng : RNG) :
    Option (List PlacementChromosome × RNG) :=
  match generatePopulationLoop1 maxTries fuel n (n * 10) [] [] rng with
  | none => none
  | some (seen, pop, rng1) => generatePopulationLoop2 fuel n (n * 10) seen pop rng1

/-! ## Repair (`PlacementGA::repair`, `src/ga/placement_ga.cpp`) -/

/-- The lambda `markShip(idx, v)` of `repair`: add `v` to every board cell in the
3x3 neighbourhood of every on-board cell of ship `idx` of the current `genes`. -/
def markShip (genes : List Int) (field : Grid) (idx : Nat) (v : Int) : Grid :=
  let len := standardShipLengths.getD idx 0
  let x := genes.getD (idx * 3) 0
  let y := genes.getD (idx * 3 + 1) 0
  let hor := genes.getD (idx * 3 + 2) 0 == 1
  (List.range len.toNat).foldl (fun f (i : Nat) =>
    let xx := x + (if hor then (i : Int) else 0)
    let yy := y + (if hor then 0 else (i : Int))
    if xx < 0 ∨ xx ≥ 10 ∨ yy < 0 ∨ yy ≥ 10 then f
    else
      [(-1 : Int), 0, 1].foldl (fun f1 dy =>
        [(-1 : Int), 0, 1].foldl (fun f2 dx =>
          let nx := xx + dx
          let ny := yy + dy
          if nx ≥ 0 ∧ nx < 10 ∧ ny ≥ 0 ∧ ny < 10 then f2.set ny nx (f2.cell ny nx + v) else f2)
          f1) f) field

/-- The test loop of `repair`: `ok` stays true when `field[yy][xx]` is zero for every
cell of the candidate. -/
def cellsFree (field : Grid) (x y len : Int) (hor : Bool) : Bool :=
  (List.range len.toNat).all fun (i : Nat) =>
    decide (field.cell (y + (if hor then 0 else (i : Int)))
      (x + (if hor then (i : Int) else 0)) = 0)

/-- Embeds `std::clamp(v, lo, hi)`. -/
def clamp (v lo hi : Int) : Int :=
  if v < lo then lo else if hi < v then hi else v

/-- The three assignments `genes[s*3]=x; genes[s*3+1]=y; genes[s*3+2]=hor?1:0`. -/
def setShipGenes (genes : List Int) (s : Nat) (x y : Int) (hor : Bool) : List Int :=
  ((genes.set (s * 3) x).set (s * 3 + 1) y).set (s * 3 + 2) (if hor then 1 else 0)

/-- Step 3.3 of `repair`: `for (local = 0; local < 30 && !placed; ++local)`, the first
argument counting the iterations that remain; the Boolean result is `placed`. -/
def repairLocalLoop (s : Nat) :
    Nat → List Int → Grid → RNG → Bool × List Int × Grid × RNG
  | 0, genes, field, rng => (false, genes, field, rng)
  | n + 1, genes, field, rng =>
    let len := standardShipLengths.getD s 0
    let (h, rng1) := rng.uniformInt 0 1
    let hor := decide (h ≠ 0)
    let (jx, rng2) := rng1.uniformInt (-2) 2
    let x0 := clamp (genes.getD (s * 3) 0 + jx) 0 9
    let (jy, rng3) := rng2.uniformInt (-2) 2
    let y0 := clamp (genes.getD (s * 3 + 1) 0 + jy) 0 9
    let x := if hor = true ∧ x0 + len - 1 > 9 then 10 - len else x0
    let y := if hor = false ∧ y0 + len - 1 > 9 then 10 - len else y0
    if cellsFree field x y len hor then
      let genes1 := setShipGenes genes s x y hor
      (true, genes1, markShip genes1 field s 1, rng3)
    else repairLocalLoop s n genes field rng3

/-- Step 3.4 of `repair`: `for (bool done = false; !done && attempt < 30; )`, the first
argument counting the iterations that remain (`30 - attempt`); returns the new value
of `attempt`. -/
def repairRandomLoop (s : Nat) :
    Nat → Int → List Int → Grid → RNG → Int × List Int × Grid × RNG
  | 0, attempt, genes, field, rng => (attempt, genes, field, rng)
  | n + 1, attempt, genes, field, rng =>
    let attempt1 := attempt + 1
    let (h, rng1) := rng.uniformInt 0 1
    let hor := decide (h ≠ 0)
    let len := standardShipLengths.getD s 0
    let (x, rng2) := rng1.uniformInt 0 (if hor then 10 - len else 9)
    let (y, rng3) := rng2.uniformInt 0 (if hor then 9 else 10 - len)
    if cellsFree field x y len hor then
      let genes1 := setShipGenes genes s x y hor
      (attempt1, genes1, markShip genes1 field s 1, rng3)
    else repairRandomLoop s n attempt1 genes field rng3

/-- Step 3 of `repair`: `for (attempt = 0; attempt < 50 && !chromosome.isValid(); ++attempt)`.
The chromosome tested by the loop condition is the argument of `repair`, whose genes
are only replaced after the loop.  The first argument bounds the number of iterations;
`attempt` grows in every iteration, so 50 is enough. -/
def repairLoop (chromosome : PlacementChromosome) :
    Nat → Int → List Int → Grid → RNG → List Int × RNG
  | 0, _, genes, _, rng => (genes, rng)
  | n + 1, attempt, genes, field, rng =>
    if attempt < 50 ∧ chromosome.isValid = false then
      let (si, rng1) := rng.uniformInt 0 9
      let s := si.toNat
      let field1 := markShip genes field s (-1)
      let (placed, genes1, field2, rng2) := repairLocalLoop s 30 genes field1 rng1
      if placed then repairLoop chromosome n (attempt + 1) genes1 field2 rng2
      else
        let (attempt1, genes2, field3, rng3) :=
          repairRandomLoop s (30 - attempt).toNat attempt genes1 field2 rng2
        repairLoop chromosome n (attempt1 + 1) genes2 field3 rng3
    else (genes, rng)

/-- Embeds `PlacementGA::repair(chromosome)`: the Boolean result, the chromosome left in
place, the random source and the counter `m_regeneratedCount`.  `none` when a call of
`generate` does not return within `fuel` restarts. -/
def repair (fuel : Nat) (chromosome : PlacementChromosome) (rng : RNG) (regenerated : Int) :
    Option (Bool × PlacementChromosome × RNG × Int) :=
  if chromosome.isValid then some (true, chromosome, rng, regenerated)
  else
    let (genes, rng1) := repairLoop chromosome 50 0 chromosome.genes Grid.empty rng
    let chromosome1 := { chromosome with genes := genes }
    if !chromosome1.isValid then
      let (b, rng2) := rng1.uniformInt 0 3
      match generate 50 fuel (biasOfInt b) rng2 with
      | none => none
      | some (newChromosome, rng3) =>
        let chromosome2 := { chromosome1 with genes := newChromosome.genes }
        if !chromosome2.isValid then
          match generate 50 fuel Bias.RANDOM rng3 with
          | none => none
          | some (fallbackChromosome, rng4) =>
            some (true, { chromosome2 with genes := fallbackChromosome.genes }, rng4,
              regenerated + 1)
        else some (true, chromosome2, rng3, regenerated + 1)
    else some (chromosome1.isValid, chromosome1, rng1, regenerated)

/-- Draws for `repair` on the example genome of the specification: 1910 zero draws, on
which the relocation loop leaves the genome as it is, then the bias draw 3 (RANDOM) and
`spacedDraws` for the regeneration. -/
def repairDraws : Nat → Nat :=
  fun i => if i < 1910 then 0 else (3 :: spacedDraws).getD (i - 1910) 0

/-! ## The GA engine (`src/ga/placement_ga.cpp`) -/

/-- Embeds `class PlacementGA`: the population, the configured sizes, the rates in
thousandths, the random source and the counters.  The constructor rejects
`populationSize <= 0`, a tournament size outside `[1, populationSize]` and an elite
count outside `[0, populationSize]`, so the three sizes are natural numbers here. -/
structure PlacementGA where
  population : List PlacementChromosome
  populationSize : Nat
  crossoverRate : Int
  mutationRate : Int
  tournamentSize : Nat
  eliteCount : Nat
  rng : RNG
  regeneratedCount : Int
  currentGeneration : Int

/-- The fitness callback `std::function<double(PlacementChromosome&)>`: it receives the
chromosome by reference and may use the global random source; its return value is
discarded by the engine. -/
abbrev FitnessFunction := PlacementChromosome → RNG → PlacementChromosome × RNG

/-- The draw loop of `selectParent`: `tournamentSize` times an index
`uniformInt(0, size - 1)` and a copy of `m_population[index]`; `none` for an index
outside the vector. -/
def drawTournament (population : List PlacementChromosome) :
    Nat → RNG → Option (List PlacementChromosome × RNG)
  | 0, rng => some ([], rng)
  | n + 1, rng =>
    let (index, rng1) := rng.uniformInt 0 ((population.length : Int) - 1)
    match population.get? index.toNat with
    | none => none
    | some c =>
      match drawTournament population n rng1 with
      | none => none
      | some (rest, rng2) => some (c :: rest, rng2)

/-- The scan of `std::max_element` with the comparison
`a.getFitness() < b.getFitness()`: `largest` moves to an element only when that
element compares greater. -/
def maxElementLoop (largest : PlacementChromosome) :
    List PlacementChromosome → PlacementChromosome
  | [] => largest
  | c :: rest =>
    if largest.fitness < c.fitness then maxElementLoop c rest
    else maxElementLoop largest rest

/-- Embeds `*std::max_element(begin, end, comp)`; `none` for an empty range, where the
iterator returned is `end`. -/
def maxElement : List PlacementChromosome → Option PlacementChromosome
  | [] => none
  | c :: rest => some (maxElementLoop c rest)

/-- Embeds `PlacementGA::selectParent`: the selected copy and the random source; `none` for
the exception on an empty population. -/
def selectParent (population : List PlacementChromosome) (tournamentSize : Nat) (rng : RNG) :
    Option (PlacementChromosome × RNG) :=
  if population.isEmpty then none
  else
    match drawTournament population tournamentSize rng with
    | none => none
    | some (tournament, rng1) =>
      match maxElement tournament with
      | none => none
      | some c => some (c, rng1)

/-- The swap loop of `crossover`: `swapCount` times a ship index `uniformInt(0, 9)`
whose three genes are overwritten by those of parent 2. -/
def swapShips (parent2Genes : List Int) : Nat → List Int → RNG → List Int × RNG
  | 0, offspringGenes, rng => (offspringGenes, rng)
  | n + 1, offspringGenes, rng =>
    let (shipIndex, rng1) := rng.uniformInt 0 9
    let geneIndex := (shipIndex * 3).toNat
    let g1 := offspringGenes.set geneIndex (parent2Genes.getD geneIndex 0)
    let g2 := g1.set (geneIndex + 1) (parent2Genes.getD (geneIndex + 1) 0)
    let g3 := g2.set (geneIndex + 2) (parent2Genes.getD (geneIndex + 2) 0)
    swapShips parent2Genes n g3 rng1

/-- Embeds `PlacementGA::crossover(parent1, parent2)`: ship-swap crossover; the statistics of
the offspring are copied from parent 1. -/
def crossover (parent1 parent2 : PlacementChromosome) (rng : RNG) :
    PlacementChromosome × RNG :=
  let (swapCount, rng1) := rng.uniformInt 1 4
  let (offspringGenes, rng2) := swapShips parent2.genes swapCount.toNat parent1.genes rng1
  ({ parent1 with genes := offspringGenes }, rng2)

/-- Embeds `PlacementGA::mutate(chromosome)`: micro-shift (75%), orientation flip (20%) or
teleport (5%) of one random ship. -/
def mutate (chromosome : PlacementChromosome) (rng : RNG) : PlacementChromosome × RNG :=
  let genes := chromosome.genes
  let (shipIndex, rng1) := rng.uniformInt 0 9
  let geneIndex := (shipIndex * 3).toNat
  let length := standardShipLengths.getD shipIndex.toNat 0
  let (mutationType, rng2) := rng1.uniformReal01
  if mutationType < 750 then
    let (dx, rng3) := rng2.uniformInt (-1) 1
    let (dy, rng4) := rng3.uniformInt (-1) 1
    let genes1 := genes.set geneIndex (max 0 (min 9 (genes.getD geneIndex 0 + dx)))
    let genes2 := genes1.set (geneIndex + 1) (max 0 (min 9 (genes1.getD (geneIndex + 1) 0 + dy)))
    ({ chromosome with genes := genes2 }, rng4)
  else if mutationType < 950 then
    ({ chromosome with
        genes := genes.set (geneIndex + 2) (1 - genes.getD (geneIndex + 2) 0) }, rng2)
  else
    let (v, rng3) := rng2.uniformInt 0 1
    let isVertical := decide (v = 0)
    let maxX := if isVertical then 9 else 10 - length
    let maxY := if isVertical then 10 - length else 9
    let (x, rng4) := rng3.uniformInt 0 maxX
    let (y, rng5) := rng4.uniformInt 0 maxY
    let genes1 := ((genes.set geneIndex x).set (geneIndex + 1) y).set (geneIndex + 2)
      (if isVertical then 0 else 1)
    ({ chromosome with genes := genes1 }, rng5)

/-- The validity block that `initializePopulation` (twice) and `evolvePopulation` run
before scoring: if the chromosome is not valid it is repaired, and if it is still
not valid it is replaced by `PlacementChromosome(generateValidRandomGenes(m_rng))` and
the counter is incremented.  Returns chromosome, random source and counter. -/
def ensureValid (fuel : Nat) (chromosome : PlacementChromosome) (rng : RNG)
    (regenerated : Int) : Option (PlacementChromosome × RNG × Int) :=
  if !chromosome.isValid then
    match repair fuel chromosome rng regenerated with
    | none => none
    | some (_, chromosome1, rng1, regenerated1) =>
      if !chromosome1.isValid then
        match generateValidRandomGenes fuel rng1 with
        | none => none
        | some (validGenes, rng2) => some ({ genes := validGenes }, rng2, regenerated1 + 1)
      else some (chromosome1, rng1, regenerated1)
  else some (chromosome, rng, regenerated)

/-- One pass of the offspring loop of `evolvePopulation` up to the comment "offspring
is valid at this point": selection of two parents, crossover with probability
`crossoverRate`, mutation with probability `mutationRate`, the validity block. -/
def produceOffspring (fuel : Nat) (ga : PlacementGA) : Option (PlacementChromosome × PlacementGA) :=
  match selectParent ga.population ga.tournamentSize ga.rng with
  | none => none
  | some (parent1, rng1) =>
    match selectParent ga.population ga.tournamentSize rng1 with
    | none => none
    | some (parent2, rng2) =>
      let (doCross, rng3) := rng2.chance ga.crossoverRate
      let (offspring, rng4) := if doCross then crossover parent1 parent2 rng3 else (parent1, rng3)
      let (doMutate, rng5) := rng4.chance ga.mutationRate
      let (offspring1, rng6) := if doMutate then mutate offspring rng5 else (offspring, rng5)
      match ensureValid fuel offspring1 rng6 ga.regeneratedCount with
      | none => none
      | some (offspring2, rng7, regenerated) =>
        some (offspring2, { ga with rng := rng7, regeneratedCount := regenerated })

/-- The loop `while (newPopulation.size() < m_populationSize)` of `evolvePopulation`,
the first argument counting the offspring still to be made: each offspring is
produced, scored by the fitness function and appended. -/
def breed (fitnessFunction : FitnessFunction) (fuel : Nat) :
    Nat → List PlacementChromosome → PlacementGA →
      Option (List PlacementChromosome × PlacementGA)
  | 0, newPopulation, ga => some (newPopulation, ga)
  | n + 1, newPopulation, ga =>
    match produceOffspring fuel ga with
    | none => none
    | some (offspring, ga1) =>
      let (scored, rng1) := fitnessFunction offspring ga1.rng
      breed fitnessFunction fuel n (newPopulation ++ [scored]) { ga1 with rng := rng1 }

/-- The order used by `std::sort` in `evolvePopulation`: `a` may stand before `b` when
`a.getFitness() >= b.getFitness()`. -/
def fitnessGe (a b : PlacementChromosome) : Prop := a.fitness ≥ b.fitness

instance : DecidableRel fitnessGe := fun a b => by unfold fitnessGe; infer_instance

instance : IsTotal PlacementChromosome fitnessGe :=
  ⟨fun a b => by unfold fitnessGe; omega⟩

instance : IsTrans PlacementChromosome fitnessGe :=
  ⟨fun a b c => by unfold fitnessGe; omega⟩

/-- Embeds `std::sort(begin, end, [](a, b) { return a.getFitness() > b.getFitness(); })`.
The standard library is not part of the repository; the sort is embedded as an
insertion sort, which like every sort returns an ordered permutation (the order of
chromosomes of equal fitness is not fixed by `std::sort`). -/
def sortByFitness (population : List PlacementChromosome) : List PlacementChromosome :=
  population.insertionSort fitnessGe

/-- Embeds `PlacementGA::evolvePopulation(fitnessFunction)`: the best chromosome and the new
engine state.  `none` when the elite copy reads `m_population[i]` outside the vector,
when selection throws, or when a regeneration does not return. -/
def evolvePopulation (fitnessFunction : FitnessFunction) (fuel : Nat) (ga : PlacementGA) :
    Option (PlacementChromosome × PlacementGA) :=
  if ga.population.length < ga.eliteCount then none
  else
    let newPopulation := ga.population.take ga.eliteCount
    match breed fitnessFunction fuel (ga.populationSize - newPopulation.length)
        newPopulation ga with
    | none => none
    | some (newPopulation1, ga1) =>
      match sortByFitness newPopulation1 with
      | [] => none
      | best :: rest => some (best, { ga1 with population := best :: rest })

/-- The loop of the generator branch of `initializePopulation` over
`initialPopulation`: validity block, then the fitness function, for each chromosome. -/
def scoreInitial (fitnessFunction : FitnessFunction) (fuel : Nat) :
    List PlacementChromosome → RNG → Int → Option (List PlacementChromosome × RNG × Int)
  | [], rng, regenerated => some ([], rng, regenerated)
  | chromosome :: rest, rng, regenerated =>
    match ensureValid fuel chromosome rng regenerated with
    | none => none
    | some (chromosome1, rng1, regenerated1) =>
      let (scored, rng2) := fitnessFunction chromosome1 rng1
      match scoreInitial fitnessFunction fuel rest rng2 regenerated1 with
      | none => none
      | some (rest1, rng3, regenerated2) => some (scored :: rest1, rng3, regenerated2)

/-- The loop `for (i = 0; i < m_populationSize; ++i)` of the second branch of
`initializePopulation`, the first argument counting the remaining iterations.  Both
arms of the inner 70% choice run `generateValidRandomGenes`. -/
def legacyInitial (fitnessFunction : FitnessFunction) (fuel : Nat) :
    Nat → List PlacementChromosome → RNG → Int →
      Option (List PlacementChromosome × RNG × Int)
  | 0, population, rng, regenerated => some (population, rng, regenerated)
  | n + 1, population, rng, regenerated =>
    let (_, rng1) := rng.chance 700
    match generateValidRandomGenes fuel rng1 with
    | none => none
    | some (validGenes, rng2) =>
      match ensureValid fuel { genes := validGenes } rng2 regenerated with
      | none => none
      | some (chromosome1, rng3, regenerated1) =>
        let (scored, rng4) := fitnessFunction chromosome1 rng3
        legacyInitial fitnessFunction fuel n (population ++ [scored]) rng4 regenerated1

/-- Embeds `PlacementGA::verifyPopulationValidity`. -/
def verifyPopulationValidity (population : List PlacementChromosome) : Bool :=
  population.all fun c => c.isValid

/-- Embeds `PlacementGA::initializePopulation(fitnessFunction)`; `none` for the exception
thrown when the final check fails and when a generation does not return. -/
def initializePopulation (fitnessFunction : FitnessFunction) (fuel : Nat) (ga : PlacementGA) :
    Option PlacementGA :=
  let (useGenerator, rng1) := ga.rng.chance 700
  let built : Option (List PlacementChromosome × RNG × Int) :=
    if useGenerator then
      match generatePopulation 50 fuel ga.populationSize rng1 with
      | none => none
      | some (initialPopulation, rng2) =>
        scoreInitial fitnessFunction fuel initialPopulation rng2 ga.regeneratedCount
    else legacyInitial fitnessFunction fuel ga.populationSize [] rng1 ga.regeneratedCount
  match built with
  | none => none
  | some (population, rng3, regenerated) =>
    if !verifyPopulationValidity population then none
    else
      some { ga with population := population, rng := rng3, regeneratedCount := regenerated,
                     currentGeneration := 0 }

/-- The outcome of the first draw of `initializePopulation`,
`m_rng.uniformReal(0.0, 1.0) < 0.7`: true when the generator branch is taken. -/
def takesGeneratorBranch (ga : PlacementGA) : Bool := (ga.rng.chance 700).1

/-- Runs `n` successive calls of `evolvePopulation`. -/
def evolveTimes (fitnessFunction : FitnessFunction) (fuel : Nat) :
    Nat → PlacementGA → Option PlacementGA
  | 0, ga => some ga
  | n + 1, ga =>
    match evolvePopulation fitnessFunction fuel ga with
    | none => none
    | some (_, ga1) => evolveTimes fitnessFunction fuel n ga1

/-! ## Concrete inputs used by the witnesses -/

/-- A second valid genome: the ships of `spacedExampleGenes` one row lower. -/
def shiftedExampleGenes : List Int :=
  [0,1,1, 5,1,1, 0,3,1, 4,3,1, 7,3,1, 0,5,1, 3,5,1, 5,5,1, 7,5,1, 9,5,1]

/-- Draws that make `generate` place the ships of `shiftedExampleGenes`. -/
def shiftedDraws : List Nat :=
  [500,0,1,999, 500,5,1,999, 500,0,3,999, 500,4,3,999, 500,7,3,999,
   500,0,5,999, 500,3,5,999, 500,5,5,999, 500,7,5,999, 500,9,5,999]

/-- A fitness function in the shape of the lambdas of `main.cpp`: nothing is written for
a chromosome that is not valid, otherwise the fitness is set, here to the row of the
first ship. -/
def rowFitness : FitnessFunction := fun c rng =>
  if !c.isValid then (c, rng) else ({ c with fitness := c.genes.getD 1 0 }, rng)

/-- A fitness function that sets the fitness to the row of the first ship without a
validity test. -/
def plainRowFitness : FitnessFunction := fun c rng =>
  ({ c with fitness := c.genes.getD 1 0 }, rng)

/-- An engine as built by `PlacementGA(2, 0.8, 0.04, 1, 1)` with the given draws. -/
def exampleGA (draws : Nat → Nat) : PlacementGA :=
  { population := [], populationSize := 2, crossoverRate := 800, mutationRate := 40,
    tournamentSize := 1, eliteCount := 1, rng := ⟨draws, 0⟩, regeneratedCount := 0,
    currentGeneration := 0 }

/-- Draws for a run of `initializePopulation` through its second branch (first draw
999), which generates `spacedExampleGenes` and then `shiftedExampleGenes` (each: the
inner 70% draw, the bias draw 3, the placement draws), followed by the draws of one
generation: both tournaments pick index 0, no crossover (999), no mutation (999). -/
def legacyDraws : List Nat :=
  [999] ++ [0, 3] ++ spacedDraws ++ [0, 3] ++ shiftedDraws ++ [0, 0, 999, 999]

/-- Draws for a run of `initializePopulation` through the generator branch (first draw
0) in which every call of `generate` receives the bias draw 3 and `spacedDraws`, so
that every generated chromosome is the same. -/
def repeatingDraws : Nat → Nat :=
  fun i => if i = 0 then 0 else (3 :: spacedDraws).getD ((i - 1) % 41) 0

/-- The population `[spaced (fitness 0), shifted (fitness 1)]`. -/
def examplePopulation : List PlacementChromosome :=
  [{ genes := spacedExampleGenes, fitness := 0 }, { genes := shiftedExampleGenes, fitness := 1 }]

/-! ## Reference definition of validity (from the specification) -/

/-- The canonical length table of the specification. -/
def specLengths : List Int := [4, 3, 3, 2, 2, 2, 1, 1, 1, 1]

/-- The cells of ship `i` of genome `g` according to the specification: origin
`(g[3i], g[3i+1])`, length from the table, horizontal iff `g[3i+2] = 1`. -/
def specShipCells (g : List Int) (i : Nat) : List (Int × Int) :=
  (List.range (specLengths.getD i 0).toNat).map fun (k : Nat) =>
    if g.getD (3 * i + 2) 0 = 1 then (g.getD (3 * i) 0 + (k : Int), g.getD (3 * i + 1) 0)
    else (g.getD (3 * i) 0, g.getD (3 * i + 1) 0 + (k : Int))

/-- Chebyshev distance of two cells given as pairs. -/
def specDist (c d : Int × Int) : Int :=
  max (Int.natAbs (c.1 - d.1) : Int) (Int.natAbs (c.2 - d.2) : Int)

/-- The reference validity predicate in the words of the specification: every
orientation gene is 0 or 1, every ship lies inside the 10x10 grid, and no cell of one
ship is equal to or at Chebyshev distance 1 from a cell of a different ship. -/
def ValidSpec (g : List Int) : Prop :=
  (∀ i ∈ List.range 10, g.getD (3 * i + 2) 0 = 0 ∨ g.getD (3 * i + 2) 0 = 1) ∧
  (∀ i ∈ List.range 10, ∀ c ∈ specShipCells g i,
      0 ≤ c.1 ∧ c.1 < 10 ∧ 0 ≤ c.2 ∧ c.2 < 10) ∧
  (∀ i ∈ List.range 10, ∀ j ∈ List.range 10, i ≠ j →
      ∀ c ∈ specShipCells g i, ∀ d ∈ specShipCells g j, c ≠ d ∧ specDist c d ≠ 1)

instance (g : List Int) : Decidable (ValidSpec g) := by
  unfold ValidSpec; infer_instance

/-! ## Auxiliary definitions used in the proofs -/

/-- Two ships are apart when all their cells are at Chebyshev distance above 1. -/
def Ship.apart (a b : Ship) : Prop :=
  ∀ c ∈ a.getAllCells, ∀ d ∈ b.getAllCells, 1 < chebyshevDist c d

/-- The ship that `decodeFleet` builds for index `i`. -/
def shipAt (g : List Int) (i : Nat) : Ship :=
  ⟨⟨g.getD (i * 3) 0, g.getD (i * 3 + 1) 0⟩, standardShipLengths.getD i 0,
    g.getD (i * 3 + 2) 0 == 1⟩

/-- The ships read from `geneIndex` on, one per entry of the length list. -/
def shipsFrom (genes : List Int) : List Int → Nat → List Ship
  | [], _ => []
  | size :: sizes, k =>
    ⟨⟨genes.getD k 0, genes.getD (k + 1) 0⟩, size, genes.getD (k + 2) 0 == 1⟩ ::
      shipsFrom genes sizes (k + 3)


/-- The gene triples of a list of ships: `x`, `y` and the orientation bit
(1 = horizontal, 0 = vertical). -/
def encodeShips : List Ship → List Int
  | [] => []
  | s :: rest =>
    [s.position.x, s.position.y, if s.horizontal then 1 else 0] ++ encodeShips rest

/-- The state kept by the ship loop of `generate`: the ships placed so far are on the
board, their cells are marked in the grid, and they are pairwise apart. -/
structure GenInv (grid : Grid) (placed : List Ship) : Prop where
  bounds : ∀ s ∈ placed, s.isWithinBounds 10 = true
  marked : ∀ s ∈ placed, ∀ c ∈ s.getAllCells, grid.cell c.y c.x ≠ 0
  apart : placed.Pairwise Ship.apart

/-- The gene triple `(x, y, orientation)` of ship `i`. -/
def triple (g : List Int) (i : Nat) : Int × Int × Int :=
  (g.getD (3 * i) 0, g.getD (3 * i + 1) 0, g.getD (3 * i + 2) 0)

/-- The ship indices at which the child does not carry the triple of parent 1. -/
def changedShips (child parent1 : List Int) : List Nat :=
  (List.range 10).filter fun i => decide (triple child i ≠ triple parent1 i)

/-! ## Weight genomes (`src/ga/decision_chromosome.h`, `src/ga/decision_chromosome.cpp`)

C++ `double` is `Rat` in this part: the arithmetic of the embedded code is exact. -/

/-- The constant `DECISION_GENES` of `constants.h`. -/
def DECISION_GENES : Nat := 20

/-- The class `DecisionChromosome`: the public members `weights` (a `std::array` of 20
doubles), `fitness`, `meanShots`, `stdDevShots`, and the private members `m_genes` (a
`std::vector`), `m_fitness`, `m_meanShots`, `m_stdDevShots`. -/
structure DecisionChromosome where
  weights : List Rat
  fitness : Rat
  meanShots : Rat
  stdDevShots : Rat
  m_genes : List Rat
  m_fitness : Rat
  m_meanShots : Rat
  m_stdDevShots : Rat
deriving DecidableEq

/-- The default member initialisers: `weights{}` is twenty zeros, the statistics are
`0.0`, `m_genes` is empty. -/
def DecisionChromosome.fresh : DecisionChromosome :=
  { weights := List.replicate DECISION_GENES 0, fitness := 0, meanShots := 0, stdDevShots := 0,
    m_genes := [], m_fitness := 0, m_meanShots := 0, m_stdDevShots := 0 }

/-- The constructor `DecisionChromosome(const std::vector<double>& genes)`: `none` for
the exception on a wrong size; otherwise only `m_genes` is assigned. -/
def DecisionChromosome.ofGenes (genes : List Rat) : Option DecisionChromosome :=
  if genes.length ≠ DECISION_GENES then none
  else some { DecisionChromosome.fresh with m_genes := genes }

/-- The copy constructor: the four private members are copied, the public members
get their default initialisers. -/
def DecisionChromosome.copy (other : DecisionChromosome) : DecisionChromosome :=
  { DecisionChromosome.fresh with
    m_genes := other.m_genes, m_fitness := other.m_fitness,
    m_meanShots := other.m_meanShots, m_stdDevShots := other.m_stdDevShots }

/-- The accessor `getGenes()`. -/
def DecisionChromosome.getGenes (c : DecisionChromosome) : List Rat := c.m_genes

/-- The accessor `getMeanShots()`. -/
def DecisionChromosome.getMeanShots (c : DecisionChromosome) : Rat := c.m_meanShots

/-- The accessor `getStdDevShots()`. -/
def DecisionChromosome.getStdDevShots (c : DecisionChromosome) : Rat := c.m_stdDevShots

/-! ## The weight GA (`src/ga/decision_ga.cpp`) -/

/-- The configuration members of `class DecisionGA`. -/
structure DecisionGA where
  populationSize : Int
  crossoverRate : Rat
  mutationRate : Rat
  tournamentSize : Int
  eliteCount : Int
  initialSigma : Rat
  finalSigma : Rat
  weightBound : Rat
  currentGeneration : Int
  population : List DecisionChromosome

/-- The constructor `DecisionGA::DecisionGA` with its parameter checks; `none` for
`std::invalid_argument`. -/
def DecisionGA.create (populationSize : Int) (crossoverRate mutationRate : Rat)
    (tournamentSize eliteCount : Int) (initialSigma finalSigma weightBound : Rat) :
    Option DecisionGA :=
  if populationSize ≤ 0 ∨ tournamentSize ≤ 0 then none
  else if crossoverRate < 0 ∨ crossoverRate > 1 ∨ mutationRate < 0 ∨ mutationRate > 1 then none
  else if eliteCount < 0 ∨ eliteCount > populationSize then none
  else if initialSigma < 0 ∨ finalSigma < 0 then none
  else
    some { populationSize := populationSize, crossoverRate := crossoverRate,
           mutationRate := mutationRate, tournamentSize := tournamentSize,
           eliteCount := eliteCount, initialSigma := initialSigma, finalSigma := finalSigma,
           weightBound := weightBound, currentGeneration := 0, population := [] }

/-- The method `DecisionGA::calculateMutationSigma(generation)`. -/
def DecisionGA.calculateMutationSigma (ga : DecisionGA) (generation : Int) : Rat :=
  let maxGenerations : Int := 100
  let progress : Rat := (generation : Rat) / (maxGenerations : Rat)
  let progress1 : Rat := min 1 (max 0 progress)
  ga.initialSigma - (ga.initialSigma - ga.finalSigma) * progress1

/-- The body of `DecisionGA::crossover` after the draw
`alpha = m_rng.uniformReal(0.0, 1.0)`: the size check on the `weights` arrays, the blend
loop over `parent.weights[i]`, and the vector constructor for the child. -/
def DecisionGA.crossoverWith (alpha : Rat) (parent1 parent2 : DecisionChromosome) :
    Option DecisionChromosome :=
  if parent1.weights.length ≠ DECISION_GENES ∨ parent2.weights.length ≠ DECISION_GENES then none
  else
    let childWeights := (List.range DECISION_GENES).map fun (i : Nat) =>
      alpha * parent1.weights.getD i 0 + (1 - alpha) * parent2.weights.getD i 0
    DecisionChromosome.ofGenes childWeights

/-- The method `DecisionGA::crossover(parent1, parent2)`, the coefficient read from the
random source in thousandths. -/
def DecisionGA.crossover (parent1 parent2 : DecisionChromosome) (rng : RNG) :
    Option DecisionChromosome × RNG :=
  let (u, rng1) := rng.uniformReal01
  (DecisionGA.crossoverWith ((u : Rat) / 1000) parent1 parent2, rng1)

/-- The rational `std::clamp(v, lo, hi)`. -/
def clampRat (v lo hi : Rat) : Rat :=
  if v < lo then lo else if hi < v then hi else v

/-- The method `DecisionGA::mutate(chromosome)`, the Gaussian draws
`m_rng.normalReal(0.0, sigma)` of the loop given as `noise 0 .. noise 19`: each
`chromosome.weights[i]` receives its noise and is clamped to the weight bound. -/
def DecisionGA.mutateWith (ga : DecisionGA) (noise : Nat → Rat) (chromosome : DecisionChromosome) :
    Option DecisionChromosome :=
  if chromosome.weights.length ≠ DECISION_GENES then none
  else
    some { chromosome with
      weights := (List.range DECISION_GENES).map fun (i : Nat) =>
        clampRat (chromosome.weights.getD i 0 + noise i) (-ga.weightBound) ga.weightBound }

/-! ## Fitness formulas (`src/ga/fitness.cpp`) -/

/-- The function `Fitness::calculatePlacementFitness`. -/
def calculatePlacementFitness (chromosome : PlacementChromosome)
    (meanShotsRandom meanShotsChecker meanShotsMC : Rat) : Rat :=
  if !chromosome.isValid then -1000
  else
    let w1 : Rat := 20 / 100
    let w2 : Rat := 40 / 100
    let w3 : Rat := 40 / 100
    let weightedAverageShots := w1 * meanShotsRandom + w2 * meanShotsChecker + w3 * meanShotsMC
    weightedAverageShots

/-- The overload `Fitness::calculateDecisionFitness(double meanShots, double stdDevShots)`. -/
def calculateDecisionFitness (meanShots stdDevShots : Rat) : Rat :=
  -meanShots + (1 / 10) * stdDevShots

/-- The overload `Fitness::calculateDecisionFitness(chromosome, meanShots, stdDevShots)`:
an argument equal to `0.0` is replaced by the value stored in the chromosome. -/
def calculateDecisionFitnessOf (chromosome : DecisionChromosome) (meanShots stdDevShots : Rat) :
    Rat :=
  let meanShots1 := if meanShots = 0 then chromosome.getMeanShots else meanShots
  let stdDevShots1 := if stdDevShots = 0 then chromosome.getStdDevShots else stdDevShots;
  -meanShots1 + (1 / 10) * stdDevShots1

/-! ## Reference formulas of the specification and concrete inputs for this part -/

/-- The clamp of the specification, `clamp(x, lo, hi)`: `x` limited to `[lo, hi]`. -/
def specClamp (x lo hi : Rat) : Rat := max lo (min x hi)

/-- The annealing formula of the specification with horizon `G = 100`:
`σ(g) = σ₀ − (σ₀ − σ_min) · clamp(g / G, 0, 1)`. -/
def specSigma (s0 smin : Rat) (g : Int) : Rat :=
  s0 - (s0 - smin) * specClamp ((g : Rat) / 100) 0 1

/-- The placement fitness documented in `fitness.h`: `F_p = 0.40 μ₁ + 0.30 μ₂ + 0.30 μ₃`. -/
def documentedPlacementFitness (m1 m2 m3 : Rat) : Rat :=
  (40 / 100) * m1 + (30 / 100) * m2 + (30 / 100) * m3

/-- The genome `spacedExampleGenes` with the triple of ship 1 taken from
`shiftedExampleGenes`: ship 1 at `(5..7, 1)` touches ship 3 at `(4..5, 2)`. -/
def crossedExampleGenes : List Int :=
  [0,0,1, 5,1,1, 0,2,1, 4,2,1, 7,2,1, 0,4,1, 3,4,1, 5,4,1, 7,4,1, 9,4,1]

/-- A weight genome built by the vector constructor from twenty equal weights. -/
def constantWeights (w : Rat) : Option DecisionChromosome :=
  DecisionChromosome.ofGenes (List.replicate 20 w)

/-- An engine as built by the default arguments `DecisionGA(150, 0.8, 0.3, 3, 2, 0.2, 0.01, 5.0)`. -/
def defaultDecisionGA : Option DecisionGA :=
  DecisionGA.create 150 (8 / 10) (3 / 10) 3 2 (2 / 10) (1 / 100) 5

/-- An engine whose final sigma exceeds its initial sigma:
`DecisionGA(150, 0.8, 0.3, 3, 2, 0.0, 1.0, 5.0)`. -/
def risingSigmaGA : Option DecisionGA :=
  DecisionGA.create 150 (8 / 10) (3 / 10) 3 2 0 1 5

/-! ## Construction and queries of the engine (`src/ga/placement_ga.cpp`) -/

/-- Embeds the constructor `PlacementGA::PlacementGA(populationSize, crossoverRate,
mutationRate, tournamentSize, eliteCount)`: the call `RNG::getInt(0, 1)`, then the
argument checks in source order; `none` for `std::invalid_argument`.  The two rates
are given in thousandths. -/
def PlacementGA.create (populationSize : Int) (crossoverRate mutationRate : Int)
    (tournamentSize eliteCount : Int) (rng : RNG) : Option PlacementGA :=
  let (_, rng1) := rng.uniformInt 0 1
  if populationSize ≤ 0 then none
  else if crossoverRate < 0 ∨ crossoverRate > 1000 then none
  else if mutationRate < 0 ∨ mutationRate > 1000 then none
  else if tournamentSize ≤ 0 ∨ tournamentSize > populationSize then none
  else if eliteCount < 0 ∨ eliteCount > populationSize then none
  else
    some { population := [], populationSize := populationSize.toNat,
           crossoverRate := crossoverRate, mutationRate := mutationRate,
           tournamentSize := tournamentSize.toNat, eliteCount := eliteCount.toNat,
           rng := rng1, regeneratedCount := 0, currentGeneration := 0 }

/-- Embeds `PlacementGA::getBestChromosome`: `none` for the exception on an empty
population, otherwise the element found by `std::max_element`. -/
def getBestChromosome (population : List PlacementChromosome) : Option PlacementChromosome :=
  if population.isEmpty then none else maxElement population

/-- Embeds `PlacementGA::getBestFitness`: `none` for the exception on an empty
population, otherwise `m_population.front().getFitness()`. -/
def getBestFitness (population : List PlacementChromosome) : Option Int :=
  match population with
  | [] => none
  | front :: _ => some front.fitness

/-- Embeds `PlacementGA::getAverageFitness`: `none` for the exception on an empty
population, otherwise the `std::accumulate` sum from `0.0` divided by the size. -/
def getAverageFitness (population : List PlacementChromosome) : Option Rat :=
  if population.isEmpty then none
  else
    let sum := population.foldl (fun sum chromosome => sum + (chromosome.fitness : Rat)) 0
    some (sum / (population.length : Rat))

/-- The members of `class PlacementPool`: the two buckets, their configured sizes and the
probability (in thousandths) of drawing from the bucket of best placements. -/
structure PlacementPool where
  bestPlacements : List PlacementChromosome
  randomPlacements : List PlacementChromosome
  bestPoolSize : Nat
  randPoolSize : Nat
  bestProb : Int
deriving DecidableEq

/-- Embeds the constructor `PlacementPool(bestPoolSize, randPoolSize, bestProb)`; `none`
for `std::invalid_argument`. -/
def PlacementPool.create (bestPoolSize randPoolSize : Nat) (bestProb : Int) :
    Option PlacementPool :=
  if bestProb < 0 ∨ bestProb > 1000 then none
  else
    some { bestPlacements := [], randomPlacements := [], bestPoolSize := bestPoolSize,
           randPoolSize := randPoolSize, bestProb := bestProb }

/-- Embeds `PlacementPool::setBestPlacements`; `none` for `std::invalid_argument`. -/
def PlacementPool.setBestPlacements (pool : PlacementPool)
    (placements : List PlacementChromosome) : Option PlacementPool :=
  if placements.length ≠ pool.bestPoolSize then none
  else some { pool with bestPlacements := placements }

/-- Embeds `PlacementPool::setRandomPlacements`; `none` for `std::invalid_argument`. -/
def PlacementPool.setRandomPlacements (pool : PlacementPool)
    (placements : List PlacementChromosome) : Option PlacementPool :=
  if placements.length ≠ pool.randPoolSize then none
  else some { pool with randomPlacements := placements }

/-- Embeds `PlacementPool::addPlacement`: when the bucket of random placements holds
`randPoolSize` or more and is not empty its first element is erased, then the placement
is pushed to the back. -/
def PlacementPool.addPlacement (pool : PlacementPool) (placement : PlacementChromosome) :
    PlacementPool :=
  let randomPlacements :=
    if pool.randomPlacements.length ≥ pool.randPoolSize ∧ pool.randomPlacements.length > 0 then
      pool.randomPlacements.tail
    else pool.randomPlacements
  { pool with randomPlacements := randomPlacements ++ [placement] }

/-- Embeds `PlacementPool::getRandomPlacement`: `none` for the `std::runtime_error` thrown
when a bucket is empty (and for an index outside the vector). -/
def PlacementPool.getRandomPlacement (pool : PlacementPool) (rng : RNG) :
    Option (PlacementChromosome × RNG) :=
  if pool.bestPlacements.isEmpty ∨ pool.randomPlacements.isEmpty then none
  else
    let (roll, rng1) := rng.uniformReal01
    if roll < pool.bestProb then
      let (idx, rng2) := rng1.uniformInt 0 ((pool.bestPlacements.length : Int) - 1)
      match pool.bestPlacements.get? idx.toNat with
      | none => none
      | some c => some (c, rng2)
    else
      let (idx, rng2) := rng1.uniformInt 0 ((pool.randomPlacements.length : Int) - 1)
      match pool.randomPlacements.get? idx.toNat with
      | none => none
      | some c => some (c, rng2)

/-- A sequence of `addPlacement` calls. -/
def PlacementPool.addPlacements (pool : PlacementPool)
    (placements : List PlacementChromosome) : PlacementPool :=
  placements.foldl PlacementPool.addPlacement pool

/-! ## The deduplication key (`generateChromosomeKey`, `src/ga/placement_generator.cpp`) -/

/-- The character of a decimal digit. -/
def digitChar (d : Nat) : Char :=
  match d with
  | 0 => '0' | 1 => '1' | 2 => '2' | 3 => '3' | 4 => '4'
  | 5 => '5' | 6 => '6' | 7 => '7' | 8 => '8' | _ => '9'

/-- The decimal numeral of a natural number, most significant digit first. -/
def toStringNat (n : Nat) : List Char :=
  if n = 0 then ['0'] else (Nat.digits 10 n).reverse.map digitChar

/-- Embeds `std::to_string(int)`: the decimal numeral, with a leading minus sign for a
negative number. -/
def toStringInt (i : Int) : List Char :=
  if i < 0 then '-' :: toStringNat i.natAbs else toStringNat i.natAbs

/-- Embeds `generateChromosomeKey`: for each gene its numeral followed by a comma. -/
def generateChromosomeKey (genes : List Int) : List Char :=
  genes.foldl (fun key gene => key ++ (toStringInt gene ++ [','])) []

/-! ## Saved state of the weight GA (`src/utils/logger.cpp`) -/

/-- One field of the binary state file, as written by `file.write` from an `int`, a
`double` or a `size_t`. -/
inductive StateField where
  | int (v : Int)
  | double (v : Rat)
  | size (v : Nat)
deriving DecidableEq

/-- The conversion `static_cast<int>(gene)` of a `double`: the fractional part is
discarded. -/
def castToInt (gene : Rat) : Int := gene.num.tdiv gene.den

/-- The fields written for one chromosome by the specialisation of `saveGAState` for
`DecisionChromosome`: the number of genes, every gene converted to `int`, the fitness. -/
def saveChromosome (chrom : DecisionChromosome) : List StateField :=
  [StateField.size chrom.getGenes.length] ++
    chrom.getGenes.map (fun gene => StateField.int (castToInt gene)) ++
    [StateField.double chrom.m_fitness]

/-- Embeds `Logger::saveGAState<std::vector<DecisionChromosome>>(gen, population,
mutationRate, filename)`: the content of the file written. -/
def saveGAState (gen : Int) (population : List DecisionChromosome) (mutationRate : Rat) :
    List StateField :=
  [StateField.int gen, StateField.double mutationRate, StateField.size population.length] ++
    (population.map saveChromosome).flatten

/-- The loop `for (j = 0; j < genesSize; ++j)` of `loadGAState`: each gene is read as an
`int` and converted to `double`. -/
def loadGenes : Nat → List StateField → Option (List Rat × List StateField)
  | 0, file => some ([], file)
  | n + 1, StateField.int geneAsInt :: file =>
    match loadGenes n file with
    | none => none
    | some (genes, file1) => some ((geneAsInt : Rat) :: genes, file1)
  | _ + 1, _ => none

/-- The loop `for (i = 0; i < popSize && file.good(); ++i)` of `loadGAState`. -/
def loadChromosomes : Nat → List StateField → Option (List DecisionChromosome)
  | 0, _ => some []
  | n + 1, StateField.size genesSize :: file =>
    match loadGenes genesSize file with
    | some (genes, StateField.double fitness :: file1) =>
      match DecisionChromosome.ofGenes genes with
      | none => none
      | some chrom =>
        match loadChromosomes n file1 with
        | none => none
        | some population =>
          some (DecisionChromosome.copy { chrom with m_fitness := fitness } :: population)
    | _ => none
  | _ + 1, _ => none

/-- Embeds `Logger::loadGAState<std::vector<DecisionChromosome>>(gen, population,
mutationRate, filename)` on the content of the file: the generation, the mutation rate
and the population read; `none` when the content does not have the layout read. -/
def loadGAState (file : List StateField) : Option (Int × Rat × List DecisionChromosome) :=
  match file with
  | StateField.int gen :: StateField.double mutationRate :: StateField.size popSize :: rest =>
    match loadChromosomes popSize rest with
    | none => none
    | some population => some (gen, mutationRate, population)
  | _ => none

/-! ## Concrete inputs for the engine queries, the pool and the saved state -/

/-- The chromosome `spacedExampleGenes` with fitness 0. -/
def spacedChromosome : PlacementChromosome := { genes := spacedExampleGenes, fitness := 0 }

/-- The chromosome `shiftedExampleGenes` with fitness 1. -/
def shiftedChromosome : PlacementChromosome := { genes := shiftedExampleGenes, fitness := 1 }

/-- A pool configured for one best and two random placements, filled through
`setBestPlacements` and a single `addPlacement`. -/
def partlyFilledPool : Option PlacementPool :=
  ((PlacementPool.create 1 2 700).bind
    (fun pool => pool.setBestPlacements [spacedChromosome])).map
    (fun pool => pool.addPlacement shiftedChromosome)

/-- A pool configured with `randPoolSize = 0`. -/
def zeroRandomPool : Option PlacementPool := PlacementPool.create 1 0 700

/-- A weight genome of twenty weights `1/2` with fitness `-40`. -/
def halfWeights : Option DecisionChromosome :=
  (constantWeights (1 / 2)).map (fun c => { c with m_fitness := -40 })

/-! ## Copying a weight genome (`src/ga/decision_chromosome.cpp`) -/

/-- Embeds `DecisionChromosome::operator=`: the four private members are assigned from
`other`, the public members of the target keep their values. -/
def DecisionChromosome.assign (self other : DecisionChromosome) : DecisionChromosome :=
  { self with
    m_genes := other.m_genes, m_fitness := other.m_fitness,
    m_meanShots := other.m_meanShots, m_stdDevShots := other.m_stdDevShots }

/-- A weight genome as `DecisionGA` leaves it after `initializePopulation` and an
evaluation: twenty weights 1 in the public array, public fitness `-40`, public mean 45
and deviation 3, the private members untouched. -/
def evaluatedWeights : DecisionChromosome :=
  { DecisionChromosome.fresh with
    weights := List.replicate 20 1, fitness := -40, meanShots := 45, stdDevShots := 3 }

/-! ## The fitness callback with its return value (`src/ga/placement_ga.cpp`) -/

/-- The callback `std::function<double(PlacementChromosome&)>` with the scalar it
returns: the score, the chromosome as the callback leaves it, the random source. -/
abbrev ScoringFunction := PlacementChromosome → RNG → Int × PlacementChromosome × RNG

/-- The call statement `fitnessFunction(chromosome);` of `initializePopulation`,
`evolvePopulation` and `evolveWithParams`: the value returned is not used. -/
def discardScore (f : ScoringFunction) : FitnessFunction :=
  fun chromosome rng => ((f chromosome rng).2.1, (f chromosome rng).2.2)

/-- The fitness lambda of `testPlacementDiversity` (`main.cpp`): `-100` for a chromosome
that is not valid, otherwise `50.0 + RNG::uniformReal(-10.0, 10.0)` (here an integer draw
in `[-10, 9]`); nothing is written to the chromosome. -/
def diversityFitness : ScoringFunction := fun chromosome rng =>
  if !chromosome.isValid then (-100, chromosome, rng)
  else
    let (noise, rng1) := rng.uniformInt (-10) 9
    (50 + noise, chromosome, rng1)

/-! ## `PlacementGA::evolveWithParams` (`src/ga/placement_ga.cpp`) -/

/-- Embeds `struct GAParams`; the two probabilities in thousandths. -/
structure GAParams where
  popSize : Int := 300
  crossoverP : Int := 900
  mutationP : Int := 40
  tournamentK : Int := 3
  eliteCount : Int := 8
deriving DecidableEq

/-- Embeds `PlacementGA::tournamentSelection(k)`: `none` for the exception on an empty
population; `k` is first limited to the population size and then raised to at least 1. -/
def tournamentSelection (population : List PlacementChromosome) (k : Int) (rng : RNG) :
    Option (PlacementChromosome × RNG) :=
  if population.isEmpty then none
  else
    let k1 := min k (population.length : Int)
    let k2 := max 1 k1
    match drawTournament population k2.toNat rng with
    | none => none
    | some (tournament, rng1) =>
      match maxElement tournament with
      | none => none
      | some c => some (c, rng1)

/-- The five assignments at the head of `evolveWithParams`.  The engine record keeps
its three sizes as natural numbers: a negative `tournamentK` is stored as 0, which
`tournamentSelection` treats like any value below 1; negative `popSize` and `eliteCount`
are excluded by `evolveWithParams` below. -/
def assignParams (params : GAParams) (ga : PlacementGA) : PlacementGA :=
  { ga with populationSize := params.popSize.toNat, crossoverRate := params.crossoverP,
            mutationRate := params.mutationP, tournamentSize := params.tournamentK.toNat,
            eliteCount := params.eliteCount.toNat }

/-- The loop `while (nextPopulation.size() < m_populationSize)` of `evolveWithParams`.
An offspring that is not valid after `repair` is dropped by `continue`, so the number of
passes is not bounded by the code; the first argument bounds it here, `none` when the
bound is reached. -/
def breedWithParams (fitnessFunction : FitnessFunction) (fuel : Nat) :
    Nat → List PlacementChromosome → PlacementGA →
      Option (List PlacementChromosome × PlacementGA)
  | 0, nextPopulation, ga =>
    if nextPopulation.length < ga.populationSize then none else some (nextPopulation, ga)
  | n + 1, nextPopulation, ga =>
    if nextPopulation.length < ga.populationSize then
      match tournamentSelection ga.population ga.tournamentSize ga.rng with
      | none => none
      | some (parent1, rng1) =>
        match tournamentSelection ga.population ga.tournamentSize rng1 with
        | none => none
        | some (parent2, rng2) =>
          let (doCross, rng3) := rng2.chance ga.crossoverRate
          let (offspring, rng4) :=
            if doCross then crossover parent1 parent2 rng3 else (parent1, rng3)
          let (doMutate, rng5) := rng4.chance ga.mutationRate
          let (offspring1, rng6) := if doMutate then mutate offspring rng5 else (offspring, rng5)
          if !offspring1.isValid then
            match repair fuel offspring1 rng6 ga.regeneratedCount with
            | none => none
            | some (_, offspring2, rng7, regenerated) =>
              if !offspring2.isValid then
                breedWithParams fitnessFunction fuel n nextPopulation
                  { ga with rng := rng7, regeneratedCount := regenerated }
              else
                let (scored, rng8) := fitnessFunction offspring2 rng7
                breedWithParams fitnessFunction fuel n (nextPopulation ++ [scored])
                  { ga with rng := rng8, regeneratedCount := regenerated }
          else
            let (scored, rng7) := fitnessFunction offspring1 rng6
            breedWithParams fitnessFunction fuel n (nextPopulation ++ [scored])
              { ga with rng := rng7 }
    else some (nextPopulation, ga)

/-- The generation loop of `evolveWithParams`, the first argument counting the
generations that remain.  `std::partial_sort` orders the first `m_eliteCount` elements
and leaves the others in an unspecified order; it is embedded as the full sort.
`none` when `begin() + m_eliteCount` lies behind the end of the population, when the new
population is empty (`m_population[0]`), and when a pass does not return. -/
def evolveWithParamsLoop (fitnessFunction : FitnessFunction) (fuel passes : Nat)
    (targetFitness : Rat) :
    Nat → PlacementChromosome → PlacementGA → Option (PlacementChromosome × PlacementGA)
  | 0, bestChromosome, ga => some (bestChromosome, ga)
  | n + 1, bestChromosome, ga =>
    if ga.population.length < ga.eliteCount then none
    else
      let sorted := sortByFitness ga.population
      let nextPopulation := sorted.take ga.eliteCount
      match breedWithParams fitnessFunction fuel passes nextPopulation
          { ga with population := sorted } with
      | none => none
      | some (nextPopulation1, ga1) =>
        match sortByFitness nextPopulation1 with
        | [] => none
        | currentBest :: rest =>
          let ga2 := { ga1 with population := currentBest :: rest }
          let bestChromosome1 :=
            if currentBest.fitness > bestChromosome.fitness then currentBest
            else bestChromosome
          if (bestChromosome1.fitness : Rat) ≥ targetFitness then some (bestChromosome1, ga2)
          else
            evolveWithParamsLoop fitnessFunction fuel passes targetFitness n bestChromosome1
              { ga2 with currentGeneration := ga2.currentGeneration + 1 }

/-- Embeds `PlacementGA::evolveWithParams(params, fitnessFunction, maxGenerations,
targetFitness)`: the chromosome returned and the engine state.  `none` for a negative
`popSize` (`reserve` throws) or `eliteCount`, and when initialisation, the query or a
generation throws or does not return. -/
def evolveWithParams (params : GAParams) (fitnessFunction : FitnessFunction)
    (fuel passes : Nat) (maxGenerations : Int) (targetFitness : Rat) (ga : PlacementGA) :
    Option (PlacementChromosome × PlacementGA) :=
  if params.popSize < 0 ∨ params.eliteCount < 0 then none
  else
    match initializePopulation fitnessFunction fuel (assignParams params ga) with
    | none => none
    | some ga0 =>
      match getBestChromosome ga0.population with
      | none => none
      | some bestChromosome =>
        evolveWithParamsLoop fitnessFunction fuel passes targetFitness maxGenerations.toNat
          bestChromosome { ga0 with currentGeneration := 1 }

/-- The configuration that the constructor of `PlacementGA` checks: a positive
population size, a tournament size of at least 1, both probabilities in `[0, 1]`, an
elite count of at most the population size. -/
def consistentConfig (ga : PlacementGA) : Bool :=
  decide (0 < ga.populationSize) && decide (1 ≤ ga.tournamentSize) &&
  decide (0 ≤ ga.crossoverRate) && decide (ga.crossoverRate ≤ 1000) &&
  decide (0 ≤ ga.mutationRate) && decide (ga.mutationRate ≤ 1000) &&
  decide (ga.eliteCount ≤ ga.populationSize)

/-! ## The board (`src/models/board.h`, `src/models/board.cpp`) -/

/-- Embeds `enum class CellState`. -/
inductive CellState where
  | SEA
  | SHIP
  | HIT
  | MISS
  | SUNK
deriving DecidableEq, Repr

/-- Embeds `Board::BOARD_SIZE`. -/
def BOARD_SIZE : Int := 10

/-- The array `m_grid`, read as `m_grid[y][x]`. -/
structure CellGrid where
  state : Int → Int → CellState

/-- The assignment `m_grid[y][x] = v`. -/
def CellGrid.set (g : CellGrid) (y x : Int) (v : CellState) : CellGrid :=
  ⟨fun yy xx => if yy = y ∧ xx = x then v else g.state yy xx⟩

/-- The members of `class Board`. -/
structure Board where
  grid : CellGrid
  ships : List Ship
  sunkShipCells : Int
  totalShipCells : Int

/-- The board after `Board::clear()`, which is also the board built by `Board()`. -/
def Board.empty : Board :=
  { grid := ⟨fun _ _ => CellState.SEA⟩, ships := [], sunkShipCells := 0, totalShipCells := 0 }

/-- Embeds `Board::clear()`. -/
def Board.clear (_ : Board) : Board := Board.empty

/-- Embeds the one-cell `Board::placeShip(int x, int y)`: the cell becomes `SHIP`;
`m_ships` and `m_totalShipCells` are not updated. -/
def Board.placeShipCell (b : Board) (x y : Int) : Bool × Board :=
  if x < 0 ∨ x ≥ BOARD_SIZE ∨ y < 0 ∨ y ≥ BOARD_SIZE then (false, b)
  else if b.grid.state y x ≠ CellState.SEA then (false, b)
  else (true, { b with grid := b.grid.set y x CellState.SHIP })

/-- Step 2 of `Board::placeShip(const Ship&)` for one cell of the ship: some cell of
its 3x3 neighbourhood lies on the board, is not a cell of the ship itself and is not
`SEA`. -/
def Board.neighbourConflict (b : Board) (ship : Ship) (cell : Cell) : Bool :=
  [(-1 : Int), 0, 1].any fun dy => [(-1 : Int), 0, 1].any fun dx =>
    let curX := cell.x + dx
    let curY := cell.y + dy
    if curX ≥ 0 ∧ curX < BOARD_SIZE ∧ curY ≥ 0 ∧ curY < BOARD_SIZE then
      let isPartOfCurrentShip :=
        ship.getAllCells.any fun ownCell => decide (ownCell.x = curX ∧ ownCell.y = curY)
      !isPartOfCurrentShip && decide (b.grid.state curY curX ≠ CellState.SEA)
    else false

/-- Embeds `Board::placeShip(const Ship& ship)`; `Ship::getCells()` lists the cells of
`getAllCells()` as pairs. -/
def Board.placeShip (b : Board) (ship : Ship) : Bool × Board :=
  if !ship.isWithinBounds BOARD_SIZE then (false, b)
  else if ship.getAllCells.any (b.neighbourConflict ship) then (false, b)
  else
    (true,
      { b with
        grid := ship.getAllCells.foldl (fun g cell => g.set cell.y cell.x CellState.SHIP) b.grid,
        ships := b.ships ++ [ship],
        totalShipCells := b.totalShipCells + ship.length })

/-- The loop of `Board::placeFleet` over the ships of the fleet. -/
def Board.placeFleetLoop : List Ship → Board → Bool × Board
  | [], b => (true, b)
  | ship :: rest, b =>
    if (b.placeShip ship).1 then Board.placeFleetLoop rest (b.placeShip ship).2
    else (false, (b.placeShip ship).2.clear)

/-- Embeds `Board::placeFleet(fleet)`. -/
def Board.placeFleet (b : Board) (fleet : List Ship) : Bool × Board :=
  Board.placeFleetLoop fleet b.clear

/-- Embeds `Board::isShipSunk(ship)`: no cell of the ship is in state `SHIP`. -/
def Board.isShipSunk (b : Board) (ship : Ship) : Bool :=
  ship.getAllCells.all fun cell => decide (b.grid.state cell.y cell.x ≠ CellState.SHIP)

/-- Embeds `Board::markShipAsSunk(ship)`. -/
def Board.markShipAsSunk (b : Board) (ship : Ship) : Board :=
  { b with
    grid := ship.getAllCells.foldl (fun g cell => g.set cell.y cell.x CellState.SUNK) b.grid }

/-- The loop of `Board::shoot` over `m_ships`: the first ship that has the cell
`(x, y)` is marked as sunk when none of its cells is `SHIP`; then the loop breaks. -/
def Board.sinkCheck (x y : Int) : List Ship → Board → Board
  | [], b => b
  | ship :: rest, b =>
    if ship.getAllCells.any (fun shipCell => decide (shipCell.x = x ∧ shipCell.y = y)) then
      if b.isShipSunk ship then b.markShipAsSunk ship else b
    else Board.sinkCheck x y rest b

/-- Embeds `Board::shoot(x, y)`. -/
def Board.shoot (b : Board) (x y : Int) : Bool × Board :=
  if x < 0 ∨ x ≥ BOARD_SIZE ∨ y < 0 ∨ y ≥ BOARD_SIZE then (false, b)
  else
    match b.grid.state y x with
    | CellState.HIT => (false, b)
    | CellState.MISS => (false, b)
    | CellState.SUNK => (false, b)
    | CellState.SHIP =>
      let b1 := { b with grid := b.grid.set y x CellState.HIT,
                         sunkShipCells := b.sunkShipCells + 1 }
      (true, Board.sinkCheck x y b1.ships b1)
    | CellState.SEA => (false, { b with grid := b.grid.set y x CellState.MISS })

/-- Embeds `Board::getCell(x, y)`. -/
def Board.getCell (b : Board) (x y : Int) : CellState :=
  if x < 0 ∨ x ≥ BOARD_SIZE ∨ y < 0 ∨ y ≥ BOARD_SIZE then CellState.SEA
  else b.grid.state y x

/-- Embeds `Board::isShot(x, y)`. -/
def Board.isShot (b : Board) (x y : Int) : Bool :=
  if x < 0 ∨ x ≥ BOARD_SIZE ∨ y < 0 ∨ y ≥ BOARD_SIZE then false
  else
    decide (b.grid.state y x = CellState.HIT ∨ b.grid.state y x = CellState.MISS ∨
      b.grid.state y x = CellState.SUNK)

/-- Embeds `Board::allShipsSunk()`. -/
def Board.allShipsSunk (b : Board) : Bool :=
  if b.totalShipCells = 0 ∧ b.ships.isEmpty then false
  else decide (b.sunkShipCells ≥ b.totalShipCells)

/-- The cells visited by the loops `for (y = 0; y < BOARD_SIZE; ++y) for (x = 0; x <
BOARD_SIZE; ++x)`, as pairs `(x, y)` in the order visited. -/
def boardCells : List (Int × Int) :=
  (List.range 10).flatMap fun (y : Nat) => (List.range 10).map fun (x : Nat) => ((x : Int), (y : Int))

/-- Embeds `Board::getRemainingShipCells()`. -/
def Board.getRemainingShipCells (b : Board) : List (Int × Int) :=
  boardCells.filter fun cell => decide (b.getCell cell.1 cell.2 = CellState.SHIP)

/-- Embeds `Board::isCellFree(x, y)`. -/
def Board.isCellFree (b : Board) (x y : Int) : Bool :=
  if x < 0 ∨ x ≥ BOARD_SIZE ∨ y < 0 ∨ y ≥ BOARD_SIZE then false
  else decide (b.grid.state y x = CellState.SEA)

/-- A sequence of `placeShip(x, y)` calls, the results dropped. -/
def Board.placeShipCells (b : Board) (cells : List (Int × Int)) : Board :=
  cells.foldl (fun b1 cell => (b1.placeShipCell cell.1 cell.2).2) b

/-- A sequence of `shoot` calls, the results dropped. -/
def Board.shootAll (b : Board) (shots : List (Int × Int)) : Board :=
  shots.foldl (fun b1 shot => (b1.shoot shot.1 shot.2).2) b

/-- The board of `testBoard` (`main.cpp`): ship cells `(2,3)`, `(3,3)`, `(4,3)` placed
one by one, then the seven shots of the test in their order. -/
def testBoardFinal : Board :=
  (Board.empty.placeShipCells [(2, 3), (3, 3), (4, 3)]).shootAll
    [(2, 3), (5, 5), (3, 3), (4, 5), (5, 5), (6, 5), (4, 3)]

/-- A fleet of two one-cell ships on the same cell. -/
def stackedFleet : List Ship := [⟨⟨0, 0⟩, 1, true⟩, ⟨⟨0, 0⟩, 1, true⟩]

/-! ## Fleet text format (`Fleet::serialize`, `Fleet::deserialize`, `src/models/fleet.cpp`) -/

/-- Embeds `Ship::getIsVertical()`. -/
def Ship.getIsVertical (s : Ship) : Bool := !s.horizontal

/-- The text written for one ship: `x,y,length,v` with `v` the bit
`getIsVertical() ? 1 : 0`; integers are written as by `toStringInt`. -/
def serializeShip (ship : Ship) : List Char :=
  toStringInt ship.position.x ++ [','] ++ toStringInt ship.position.y ++ [','] ++
    toStringInt ship.length ++ [','] ++ toStringInt (if ship.getIsVertical then 1 else 0)

/-- Embeds `Fleet::serialize()`: the ships separated by `;`. -/
def Fleet.serialize : List Ship → List Char
  | [] => []
  | [ship] => serializeShip ship
  | ship :: rest => serializeShip ship ++ [';'] ++ Fleet.serialize rest

/-- The pieces read by `while (std::getline(stream, piece, sep))`: the text is cut at
every separator, and nothing is read once the end of the text is reached; the second
argument is the piece being read. -/
def getlineAll (sep : Char) : List Char → List Char → List (List Char)
  | [], piece => if piece = [] then [] else [piece]
  | c :: rest, piece =>
    if c = sep then piece :: getlineAll sep rest [] else getlineAll sep rest (piece ++ [c])

/-- The value of a decimal digit. -/
def digitValue (c : Char) : Option Nat :=
  if c = '0' then some 0 else if c = '1' then some 1 else if c = '2' then some 2
  else if c = '3' then some 3 else if c = '4' then some 4 else if c = '5' then some 5
  else if c = '6' then some 6 else if c = '7' then some 7 else if c = '8' then some 8
  else if c = '9' then some 9 else none

/-- The characters skipped by `std::stoi` at the start: space, tab, line feed, vertical
tab, form feed, carriage return. -/
def isSpaceChar (c : Char) : Bool :=
  c.toNat = 32 || (9 ≤ c.toNat && c.toNat ≤ 13)

/-- Embeds `std::stoi(part)`: leading white space, an optional sign, then the longest run
of digits; `none` for `std::invalid_argument` (no digit) and `std::out_of_range` (outside
the range of `int`). -/
def stoi (part : List Char) : Option Int :=
  let trimmed := part.dropWhile isSpaceChar
  let signed : Bool × List Char :=
    match trimmed with
    | '-' :: rest => (true, rest)
    | '+' :: rest => (false, rest)
    | rest => (false, rest)
  let digits := signed.2.takeWhile fun c => (digitValue c).isSome
  if digits = [] then none
  else
    let magnitude := digits.foldl (fun acc c => acc * 10 + (digitValue c).getD 0) 0
    let value : Int := if signed.1 then -(magnitude : Int) else (magnitude : Int)
    if value < -2147483648 ∨ value > 2147483647 then none else some value

/-- The inner loop of `Fleet::deserialize`: every part of a segment is converted by
`std::stoi`; `none` when a conversion throws. -/
def parseCoords : List (List Char) → Option (List Int)
  | [] => some []
  | part :: rest =>
    match stoi part with
    | none => none
    | some v =>
      match parseCoords rest with
      | none => none
      | some coords => some (v :: coords)

/-- The outer loop of `Fleet::deserialize` over the segments: a segment of four numbers
adds `Ship(coords[0], coords[1], coords[2], coords[3] == 1)`, whose fourth argument is
the constructor parameter `horizontal`. -/
def deserializeLoop : List (List Char) → List Ship → Option (List Ship)
  | [], ships => some ships
  | segment :: rest, ships =>
    match parseCoords (getlineAll ',' segment []) with
    | none => none
    | some coords =>
      if coords.length = 4 then
        deserializeLoop rest
          (ships ++ [⟨⟨coords.getD 0 0, coords.getD 1 0⟩, coords.getD 2 0,
            coords.getD 3 0 == 1⟩])
      else none

/-- Embeds `Fleet::deserialize(data)`: the ships read, `none` when it returns false. -/
def Fleet.deserialize (data : List Char) : Option (List Ship) :=
  deserializeLoop (getlineAll ';' data []) []

/-- A fleet of one horizontal ship of length 4 at `(0, 0)` and one vertical ship of
length 2 at `(5, 5)`. -/
def twoShipFleet : List Ship := [⟨⟨0, 0⟩, 4, true⟩, ⟨⟨5, 5⟩, 2, false⟩]

/-! ## Shooting features (`src/strategies/features.cpp`) -/

/-- Embeds `enum class ShotResult`. -/
inductive ShotResult where
  | MISS
  | HIT
  | KILL
deriving DecidableEq, Repr

/-- The functions `std::sqrt` and `std::exp` of the C++ library, which the embedding
takes as parameters; `std::pow(v, 2)` is the exact square. -/
structure MathLib where
  sqrt : Rat → Rat
  exp : Rat → Rat

/-- The members of `class Features`. -/
structure Features where
  board : Board
  history : List (Cell × ShotResult)
  pool : PlacementPool
  currentIteration : Int

/-- A quotient of two `double` values; `none` stands for the result of a division by
zero, which is not a number or infinite. -/
def divide (a b : Rat) : Option Rat := if b = 0 then none else some (a / b)

/-- Embeds `Ship::occupies(x, y)`. -/
def Ship.occupies (s : Ship) (x y : Int) : Bool :=
  if s.horizontal then
    decide (y = s.position.y ∧ x ≥ s.position.x ∧ x < s.position.x + s.length)
  else decide (x = s.position.x ∧ y ≥ s.position.y ∧ y < s.position.y + s.length)

/-- Embeds `Fleet::hasShipAt(x, y)`. -/
def Fleet.hasShipAt (ships : List Ship) (x y : Int) : Bool :=
  ships.any fun ship => ship.occupies x y

/-- Embeds `Features::isValidCell`. -/
def Features.isValidCell (x y : Int) : Bool :=
  decide (x ≥ 0 ∧ x < 10 ∧ y ≥ 0 ∧ y < 10)

/-- Embeds `Features::distance`. -/
def Features.distance (m : MathLib) (a b : Cell) : Rat :=
  m.sqrt ((((a.x - b.x : Int) : Rat)) ^ 2 + (((a.y - b.y : Int) : Rat)) ^ 2)

/-- Embeds `Features::isHit`. -/
def Features.isHit (result : ShotResult) : Bool :=
  decide (result = ShotResult.HIT ∨ result = ShotResult.KILL)

/-- Embeds `Features::isMiss`. -/
def Features.isMiss (result : ShotResult) : Bool := decide (result = ShotResult.MISS)

/-- The divisor of `Features::calculateHeat`: `validPlacements.size()`, the number of
best placements of the pool. -/
def Features.heatDivisor (f : Features) : Nat := f.pool.bestPlacements.length

/-- Embeds `Features::calculateHeat(cell)`. -/
def Features.calculateHeat (f : Features) (cell : Cell) : Option Rat :=
  if f.history.isEmpty then some (1 / 2)
  else
    let count := f.pool.bestPlacements.countP fun placement =>
      match decodeFleet placement.genes with
      | none => false
      | some fleet => Fleet.hasShipAt fleet cell.x cell.y
    divide (count : Rat) (f.heatDivisor : Rat)

/-- The loop shared by `hasHitNeighbor` and `hasDiagHitNeighbor` over a table of
offsets. -/
def Features.hitAtOffsets (f : Features) (cell : Cell) (offsets : List (Int × Int)) : Rat :=
  if offsets.any (fun d =>
      Features.isValidCell (cell.x + d.1) (cell.y + d.2) &&
      f.history.any fun h =>
        decide (h.1.x = cell.x + d.1 ∧ h.1.y = cell.y + d.2) && Features.isHit h.2)
  then 1 else 0

/-- Embeds `Features::hasHitNeighbor(cell)`. -/
def Features.hasHitNeighbor (f : Features) (cell : Cell) : Rat :=
  f.hitAtOffsets cell [(-1, 0), (1, 0), (0, -1), (0, 1)]

/-- Embeds `Features::hasDiagHitNeighbor(cell)`. -/
def Features.hasDiagHitNeighbor (f : Features) (cell : Cell) : Rat :=
  f.hitAtOffsets cell [(-1, -1), (-1, 1), (1, -1), (1, 1)]

/-- Embeds `Features::getParity(cell)`; `%` is the remainder of C++. -/
def Features.getParity (cell : Cell) : Rat := ((Int.tmod (cell.x + cell.y) 2 : Int) : Rat)

/-- Embeds `Features::getDistLastHit(cell)`; `std::sqrt` is not negative, so the
divisor is at least 1. -/
def Features.getDistLastHit (m : MathLib) (f : Features) (cell : Cell) : Rat :=
  let minDist := f.history.foldl (fun minDist h =>
    if Features.isHit h.2 then min minDist (Features.distance m cell h.1) else minDist) 100
  1 / (1 + minDist)

/-- Embeds `Features::getMissCluster(cell)`. -/
def Features.getMissCluster (f : Features) (cell : Cell) : Option Rat :=
  let offsets : List (Int × Int) :=
    [(-2 : Int), -1, 0, 1, 2].flatMap fun dx => [(-2 : Int), -1, 0, 1, 2].map fun dy => (dx, dy)
  let valid := offsets.filter fun d => Features.isValidCell (cell.x + d.1) (cell.y + d.2)
  let missCount := valid.countP fun d =>
    f.history.any fun h =>
      decide (h.1.x = cell.x + d.1 ∧ h.1.y = cell.y + d.2) && Features.isMiss h.2
  divide (missCount : Rat) (valid.length : Rat)

/-- Embeds `Features::getRowFree(cell)`. -/
def Features.getRowFree (f : Features) (cell : Cell) : Rat :=
  (((List.range 10).countP fun (x : Nat) => f.board.isCellFree x cell.y : Nat) : Rat) / 10

/-- Embeds `Features::getColFree(cell)`. -/
def Features.getColFree (f : Features) (cell : Cell) : Rat :=
  (((List.range 10).countP fun (y : Nat) => f.board.isCellFree cell.x y : Nat) : Rat) / 10

/-- Embeds `Features::getCenterBias(cell)`. -/
def Features.getCenterBias (m : MathLib) (cell : Cell) : Rat :=
  let dist := m.sqrt (((cell.x : Rat) - 9 / 2) ^ 2 + ((cell.y : Rat) - 9 / 2) ^ 2)
  1 - dist / (707 / 100)

/-- Embeds `Features::getEdgeBias(cell)`. -/
def Features.getEdgeBias (cell : Cell) : Rat :=
  if cell.x = 0 ∨ cell.x = 9 ∨ cell.y = 0 ∨ cell.y = 9 then 1 else 0

/-- Embeds `Features::isCorner(cell)`. -/
def Features.isCorner (cell : Cell) : Rat :=
  if (cell.x = 0 ∨ cell.x = 9) ∧ (cell.y = 0 ∨ cell.y = 9) then 1 else 0

/-- Embeds `Features::canFitShip(cell, size)`. -/
def Features.canFitShip (f : Features) (cell : Cell) (size : Int) : Rat :=
  let canFitHorizontal := (List.range size.toNat).all fun (dx : Nat) =>
    Features.isValidCell (cell.x + dx) cell.y && f.board.isCellFree (cell.x + dx) cell.y
  let canFitVertical := (List.range size.toNat).all fun (dy : Nat) =>
    Features.isValidCell cell.x (cell.y + dy) && f.board.isCellFree cell.x (cell.y + dy)
  if canFitHorizontal ∨ canFitVertical then 1 else 0

/-- Embeds `Features::getRecentMissPenalty(cell)`: the last five entries of the
history. -/
def Features.getRecentMissPenalty (m : MathLib) (f : Features) (cell : Cell) : Rat :=
  if f.history.isEmpty then 0
  else
    let recentHistorySize := min 5 f.history.length
    let recentHistory := f.history.drop (f.history.length - recentHistorySize)
    if recentHistory.any fun h =>
        Features.isMiss h.2 && decide (Features.distance m cell h.1 ≤ 2)
    then 1 else 0

/-- The loop shared by `getTimeDecayHit` and `getTimeDecayMiss` over the history with its
index `i`. -/
def Features.timeDecay (m : MathLib) (f : Features) (cell : Cell)
    (select : ShotResult → Bool) : Rat :=
  if f.history.isEmpty then 0
  else
    (List.range f.history.length).foldl (fun maxInfluence (i : Nat) =>
      match f.history.get? i with
      | none => maxInfluence
      | some h =>
        if select h.2 then
          let dist := Features.distance m cell h.1
          let timeDecay := (i : Rat) / (f.history.length : Rat)
          let influence := m.exp (-dist) * (1 - timeDecay)
          max maxInfluence influence
        else maxInfluence) 0

/-- Embeds `Features::getTimeDecayHit(cell)`. -/
def Features.getTimeDecayHit (m : MathLib) (f : Features) (cell : Cell) : Rat :=
  f.timeDecay m cell Features.isHit

/-- Embeds `Features::getTimeDecayMiss(cell)`. -/
def Features.getTimeDecayMiss (m : MathLib) (f : Features) (cell : Cell) : Rat :=
  f.timeDecay m cell Features.isMiss

/-- Embeds `Features::getIterParityFlip(cell)`. -/
def Features.getIterParityFlip (f : Features) (cell : Cell) : Rat :=
  if Int.tmod (cell.x + cell.y + f.currentIteration) 2 ≠ 0 then 1 else 0

/-- Embeds `Features::getFeatures(cell)`: the twenty components in the order of the
array; `noise` is the value drawn by `getRandNoise()`. -/
def Features.getFeatures (m : MathLib) (noise : Rat) (f : Features) (cell : Cell) :
    List (Option Rat) :=
  [f.calculateHeat cell,
   some (f.hasHitNeighbor cell),
   some (f.hasDiagHitNeighbor cell),
   some (Features.getParity cell),
   some (f.getDistLastHit m cell),
   f.getMissCluster cell,
   some (f.getRowFree cell),
   some (f.getColFree cell),
   some (Features.getCenterBias m cell),
   some (Features.getEdgeBias cell),
   some (Features.isCorner cell),
   some (f.canFitShip cell 4),
   some (f.canFitShip cell 3),
   some (f.canFitShip cell 2),
   some (f.canFitShip cell 1),
   some (f.getRecentMissPenalty m cell),
   some (f.getTimeDecayHit m cell),
   some (f.getTimeDecayMiss m cell),
   some noise,
   some (f.getIterParityFlip cell)]

/-- The components of `getFeatures` with the random-noise component (index 18)
left out. -/
def withoutNoise (features : List (Option Rat)) : List (Option Rat) :=
  features.take 18 ++ features.drop 19

/-- Two boards show the same shots: every cell of the board is `HIT` on both or on
neither, and likewise `MISS` and `SUNK`. -/
def sameShots (b1 b2 : Board) : Prop :=
  ∀ x y : Int, (0 ≤ x ∧ x < 10 ∧ 0 ≤ y ∧ y < 10) →
    (b1.grid.state y x = CellState.HIT ↔ b2.grid.state y x = CellState.HIT) ∧
    (b1.grid.state y x = CellState.MISS ↔ b2.grid.state y x = CellState.MISS) ∧
    (b1.grid.state y x = CellState.SUNK ↔ b2.grid.state y x = CellState.SUNK)

/-- Two boards have the same cells in state `SEA`. -/
def sameSea (b1 b2 : Board) : Prop :=
  ∀ x y : Int, (0 ≤ x ∧ x < 10 ∧ 0 ≤ y ∧ y < 10) →
    (b1.grid.state y x = CellState.SEA ↔ b2.grid.state y x = CellState.SEA)

/-- Library functions that return `0`, for the evaluation of components that do not
use them. -/
def zeroMath : MathLib := ⟨fun _ => 0, fun _ => 0⟩

/-- A board with one ship cell at `(0, 0)` that has not been shot. -/
def hiddenShipBoard : Board := (Board.empty.placeShipCell 0 0).2

/-! ## The feature-based shooter (`src/strategies/feature_based_strategy.cpp`) -/

/-- The pool built by the default constructor `PlacementPool()`: both buckets empty. -/
def PlacementPool.default : PlacementPool :=
  { bestPlacements := [], randomPlacements := [], bestPoolSize := 50, randPoolSize := 50,
    bestProb := 700 }

/-- The members of `class FeatureBasedStrategy`. -/
structure FeatureBasedStrategy where
  weights : List Rat
  shotHistory : List (Cell × ShotResult)
  iteration : Int
  pool : PlacementPool

/-- Embeds the constructor `FeatureBasedStrategy(weights)`: `none` for
`std::invalid_argument`; `m_pool` is default-constructed. -/
def FeatureBasedStrategy.create (weights : List Rat) : Option FeatureBasedStrategy :=
  if weights.length ≠ 20 then none
  else some { weights := weights, shotHistory := [], iteration := 0,
              pool := PlacementPool.default }

/-- Embeds `FeatureBasedStrategy::notifyShotResult(x, y, hit, sunk, board)`. -/
def FeatureBasedStrategy.notifyShotResult (s : FeatureBasedStrategy) (x y : Int)
    (hit sunk : Bool) : FeatureBasedStrategy :=
  let result :=
    if hit then (if sunk then ShotResult.KILL else ShotResult.HIT) else ShotResult.MISS
  { s with shotHistory := s.shotHistory ++ [(⟨x, y⟩, result)] }

/-- Embeds `FeatureBasedStrategy::reset()`. -/
def FeatureBasedStrategy.reset (s : FeatureBasedStrategy) : FeatureBasedStrategy :=
  { s with shotHistory := [], iteration := 0 }

/-- The object `Features features(board, m_shotHistory, m_pool, m_iteration)` built by
`scoreCell`. -/
def FeatureBasedStrategy.features (s : FeatureBasedStrategy) (board : Board) : Features :=
  { board := board, history := s.shotHistory, pool := s.pool, currentIteration := s.iteration }

/-- Embeds `FeatureBasedStrategy::scoreCell(cell, board)`: the weighted sum of the
features; `none` when a feature is the result of a division by zero. -/
def FeatureBasedStrategy.scoreCell (m : MathLib) (noise : Rat) (s : FeatureBasedStrategy)
    (cell : Cell) (board : Board) : Option Rat :=
  (((s.features board).getFeatures m noise cell).zip s.weights).foldl
    (fun score fw =>
      match score, fw.1 with
      | some sc, some v => some (sc + v * fw.2)
      | _, _ => none) (some 0)

/-- Embeds `FeatureBasedStrategy::getNextShot(board)`: the unshot cell of highest score
in the order of the scan; a score that is not a number never exceeds `maxScore`.  When
no cell was found both coordinates are drawn from `[0, 9]`.  `noise` gives the value of
the noise feature drawn for each cell. -/
def FeatureBasedStrategy.getNextShot (m : MathLib) (noise : Cell → Rat)
    (s : FeatureBasedStrategy) (board : Board) (rng : RNG) :
    (Int × Int) × FeatureBasedStrategy × RNG :=
  let found : Option (Rat × Cell) := boardCells.foldl (fun best xy =>
    if board.isShot xy.1 xy.2 then best
    else
      match s.scoreCell m (noise ⟨xy.1, xy.2⟩) ⟨xy.1, xy.2⟩ board, best with
      | some score, none => some (score, ⟨xy.1, xy.2⟩)
      | some score, some (maxScore, bestCell) =>
        if score > maxScore then some (score, ⟨xy.1, xy.2⟩) else some (maxScore, bestCell)
      | none, _ => best) none
  match found with
  | none =>
    let (x, rng1) := rng.uniformInt 0 9
    let (y, rng2) := rng1.uniformInt 0 9
    ((x, y), s, rng2)
  | some (_, bestCell) => ((bestCell.x, bestCell.y), { s with iteration := s.iteration + 1 }, rng)

/-- The calls a game makes on a shooter. -/
inductive StrategyCall where
  | notify (x y : Int) (hit sunk : Bool)
  | reset
  | nextShot (board : Board) (noise : Cell → Rat) (rng : RNG)

/-- The state of the shooter after one call. -/
def FeatureBasedStrategy.step (m : MathLib) (s : FeatureBasedStrategy) :
    StrategyCall → FeatureBasedStrategy
  | StrategyCall.notify x y hit sunk => s.notifyShotResult x y hit sunk
  | StrategyCall.reset => s.reset
  | StrategyCall.nextShot board noise rng => (s.getNextShot m noise board rng).2.1

/-- The state of the shooter after a sequence of calls. -/
def FeatureBasedStrategy.run (m : MathLib) (s : FeatureBasedStrategy)
    (calls : List StrategyCall) : FeatureBasedStrategy :=
  calls.foldl (FeatureBasedStrategy.step m) s

/-- The shots of a complete game on the fleet of `spacedExampleGenes`: a miss at
`(9, 9)`, then every cell of every ship, then `(0, 0)` once more. -/
def spacedGameShots : List (Int × Int) :=
  [(9, 9)] ++
    (((List.range 10).map (shipAt spacedExampleGenes)).flatMap fun s =>
      s.getAllCells.map fun c => (c.x, c.y)) ++ [(0, 0)]

/-! ## Auxiliary definitions for the proofs about the board -/

/-- The state of a board while `placeFleet` places ships that are on the board and
pairwise apart: the ships placed so far are recorded, exactly their cells are `SHIP`, all
other cells are `SEA`, nothing is sunk, and `m_totalShipCells` counts the `SHIP` cells. -/
structure PlacedInv (placed : List Ship) (b : Board) : Prop where
  ships : b.ships = placed
  cells : ∀ x y : Int, (0 ≤ x ∧ x < 10 ∧ 0 ≤ y ∧ y < 10) →
    (b.grid.state y x = CellState.SHIP ↔ ∃ s ∈ placed, (⟨x, y⟩ : Cell) ∈ s.getAllCells)
  sea : ∀ x y : Int, b.grid.state y x = CellState.SHIP ∨ b.grid.state y x = CellState.SEA
  sunk : b.sunkShipCells = 0
  count : ((boardCells.countP
    (fun cell => decide (b.grid.state cell.2 cell.1 = CellState.SHIP)) : Nat) : Int)
      = b.totalShipCells
  total : b.totalShipCells = (placed.map Ship.length).sum

/-- The state of a board during the shots at a fleet placed by `placeFleet`: the cells
of the fleet are the cells in state `SHIP`, `HIT` or `SUNK`, and the hits counted
together with the cells still in state `SHIP` make up `m_totalShipCells`. -/
structure BoardInv (fleet : List Ship) (total : Int) (b : Board) : Prop where
  ships : b.ships = fleet
  cells : ∀ x y : Int, (0 ≤ x ∧ x < 10 ∧ 0 ≤ y ∧ y < 10) →
    ((∃ s ∈ fleet, (⟨x, y⟩ : Cell) ∈ s.getAllCells) ↔
      (b.grid.state y x = CellState.SHIP ∨ b.grid.state y x = CellState.HIT ∨
        b.grid.state y x = CellState.SUNK))
  count : b.sunkShipCells + ((boardCells.countP
    (fun cell => decide (b.grid.state cell.2 cell.1 = CellState.SHIP)) : Nat) : Int)
      = b.totalShipCells
  total : b.totalShipCells = total

/-! ## Lemmas on ships and fleets -/

theorem mem_getAllCells (s : Ship) (c : Cell) :
    c ∈ s.getAllCells ↔ ∃ k : Nat, (k : Int) < s.length ∧
      c = if s.horizontal then ⟨s.position.x + (k : Int), s.position.y⟩
          else ⟨s.position.x, s.position.y + (k : Int)⟩ := by
  unfold Ship.getAllCells
  simp only [List.mem_map, List.mem_range]
  constructor
  · rintro ⟨k, hk, rfl⟩
    refine ⟨k, by omega, ?_⟩
    cases s.horizontal <;> simp
  · rintro ⟨k, hk, rfl⟩
    refine ⟨k, by omega, ?_⟩
    cases s.horizontal <;> simp

theorem chebyshevDist_eq_zero (c d : Cell) : chebyshevDist c d = 0 ↔ c = d := by
  cases c; cases d
  simp only [chebyshevDist, Cell.mk.injEq]
  omega

theorem chebyshevDist_nonneg (c d : Cell) : 0 ≤ chebyshevDist c d := by
  simp only [chebyshevDist]; omega

theorem pair_ok_iff (a b : Ship) :
    (!a.intersects b && !a.touches b) = true ↔ a.apart b := by
  simp only [Ship.intersects, Ship.touches, Ship.apart, Bool.and_eq_true, Bool.not_eq_true',
    List.any_eq_false, List.any_eq_true, decide_eq_true_eq, not_exists, not_and]
  constructor
  · rintro ⟨h1, h2⟩ c hc d hd
    have hne : c ≠ d := fun h => by
      have := h1 c hc d hd
      simp [h] at this
    have h0 := chebyshevDist_nonneg c d
    have hz := chebyshevDist_eq_zero c d
    have := h2 c hc d hd
    simp only [Bool.and_eq_true, decide_eq_true_eq, not_and, not_not] at this
    by_contra hle
    exact hne (this (by omega))
  · intro h
    refine ⟨fun c hc d hd => ?_, fun c hc d hd => ?_⟩
    · have := h c hc d hd
      have hz := chebyshevDist_eq_zero c d
      intro hcd
      have := hz.2 hcd
      omega
    · have := h c hc d hd
      intro hle
      omega

theorem noConflicts_iff (l : List Ship) :
    noConflicts l = true ↔ l.Pairwise Ship.apart := by
  induction l with
  | nil => simp [noConflicts]
  | cons s rest ih =>
    simp only [noConflicts, Bool.and_eq_true, List.all_eq_true, List.pairwise_cons, ih]
    constructor
    · rintro ⟨h1, h2⟩
      exact ⟨fun o ho => (pair_ok_iff s o).1 (by simpa using h1 o ho), h2⟩
    · rintro ⟨h1, h2⟩
      exact ⟨fun o ho => by simpa using (pair_ok_iff s o).2 (h1 o ho), h2⟩

theorem decodeLoop_eq (genes : List Int) :
    ∀ (sizes : List Int) (k : Nat) (fleet : List Ship),
      k + 3 * sizes.length ≤ genes.length →
      decodeLoop genes sizes k fleet = some (fleet ++ shipsFrom genes sizes k) := by
  intro sizes
  induction sizes with
  | nil => intro k fleet _; simp [decodeLoop, shipsFrom]
  | cons size sizes ih =>
    intro k fleet h
    simp only [List.length_cons] at h
    have hk : ¬ (k + 2 ≥ genes.length) := by omega
    simp only [decodeLoop, hk, if_false]
    rw [ih (k + 3) _ (by omega)]
    simp [shipsFrom]

theorem decodeFleet_eq (g : List Int) (h : g.length = 30) :
    decodeFleet g = some ((List.range 10).map (shipAt g)) := by
  unfold decodeFleet
  rw [decodeLoop_eq g standardShipLengths 0 [] (by simp [standardShipLengths, h])]
  rfl

theorem mem_specShipCells (g : List Int) (i : Nat) (c : Int × Int) :
    c ∈ specShipCells g i ↔ ∃ k : Nat, (k : Int) < specLengths.getD i 0 ∧
      c = if g.getD (3 * i + 2) 0 = 1 then (g.getD (3 * i) 0 + (k : Int), g.getD (3 * i + 1) 0)
          else (g.getD (3 * i) 0, g.getD (3 * i + 1) 0 + (k : Int)) := by
  unfold specShipCells
  simp only [List.mem_map, List.mem_range]
  constructor
  · rintro ⟨k, hk, rfl⟩
    exact ⟨k, by omega, rfl⟩
  · rintro ⟨k, hk, rfl⟩
    exact ⟨k, by omega, rfl⟩

theorem specLengths_pos (i : Nat) (hi : i < 10) :
    1 ≤ specLengths.getD i 0 ∧ specLengths.getD i 0 = standardShipLengths.getD i 0 := by
  interval_cases i <;> simp [specLengths, standardShipLengths]

theorem geneOk_iff (g : List Int) (i : Nat) :
    geneOk g i = true ↔
      (0 ≤ g.getD (i * 3) 0 ∧ g.getD (i * 3) 0 ≤ 9 ∧
       0 ≤ g.getD (i * 3 + 1) 0 ∧ g.getD (i * 3 + 1) 0 ≤ 9 ∧
       (g.getD (i * 3 + 2) 0 = 0 ∨ g.getD (i * 3 + 2) 0 = 1) ∧
       (g.getD (i * 3 + 2) 0 = 0 →
          g.getD (i * 3 + 1) 0 + standardShipLengths.getD i 0 - 1 ≤ 9) ∧
       (g.getD (i * 3 + 2) 0 = 1 →
          g.getD (i * 3) 0 + standardShipLengths.getD i 0 - 1 ≤ 9)) := by
  simp only [geneOk]
  generalize g.getD (i * 3) 0 = x
  generalize g.getD (i * 3 + 1) 0 = y
  generalize g.getD (i * 3 + 2) 0 = o
  generalize standardShipLengths.getD i 0 = len
  split_ifs with h1 h2 h3 <;> simp <;> omega

theorem isWithinBounds_iff (s : Ship) :
    s.isWithinBounds 10 = true ↔
      (0 ≤ s.position.x ∧ s.position.x ≤ 9 ∧ 0 ≤ s.position.y ∧ s.position.y ≤ 9 ∧
       (if s.horizontal then s.position.x + s.length - 1 ≤ 9
        else s.position.y + s.length - 1 ≤ 9)) := by
  rcases s with ⟨⟨x, y⟩, len, hor⟩
  simp only [Ship.isWithinBounds, Ship.getEndPosition]
  cases hor <;> split_ifs with h1 <;> simp <;> omega

/-- Per ship: the bounds test of `Fleet::isValid` together with the gene test of
`PlacementChromosome::isValid` says that the orientation gene is a bit and that all
cells of the ship are on the board. -/
theorem ship_ok_iff (g : List Int) (i : Nat) (hi : i < 10) :
    ((shipAt g i).isWithinBounds 10 = true ∧ geneOk g i = true) ↔
      ((g.getD (3 * i + 2) 0 = 0 ∨ g.getD (3 * i + 2) 0 = 1) ∧
        ∀ c ∈ specShipCells g i, 0 ≤ c.1 ∧ c.1 < 10 ∧ 0 ≤ c.2 ∧ c.2 < 10) := by
  obtain ⟨hpos, hlen⟩ := specLengths_pos i hi
  have e0 : 3 * i = i * 3 := by omega
  simp only [mem_specShipCells, e0, hlen, geneOk_iff, isWithinBounds_iff, shipAt]
  rw [hlen] at hpos
  generalize standardShipLengths.getD i 0 = len at hpos
  generalize g.getD (i * 3) 0 = x
  generalize g.getD (i * 3 + 1) 0 = y
  generalize g.getD (i * 3 + 2) 0 = o
  have hlast : (((len - 1).toNat : Nat) : Int) = len - 1 := by omega
  constructor
  · rintro ⟨hb, hg⟩
    refine ⟨hg.2.2.2.2.1, ?_⟩
    rintro c ⟨k, hk, rfl⟩
    by_cases ho : o = 1
    · simp only [ho, if_true]
      simp only [ho, beq_self_eq_true, if_true] at hb
      omega
    · simp only [ho, if_false]
      have : (o == 1) = false := by simpa using ho
      simp only [this] at hb
      simp at hb
      omega
  · rintro ⟨ho1, hc⟩
    have c0 := hc _ ⟨0, by omega, rfl⟩
    have c1 := hc _ ⟨(len - 1).toNat, by omega, rfl⟩
    by_cases ho : o = 1
    · simp only [ho, if_true] at c0 c1
      simp only [ho, beq_self_eq_true, if_true]
      simp
      omega
    · simp only [ho, if_false] at c0 c1
      have : (o == 1) = false := by simpa using ho
      simp only [this]
      simp
      omega

theorem pairwise_range_map {α : Type} (R : α → α → Prop) (f : Nat → α) (n : Nat) :
    ((List.range n).map f).Pairwise R ↔ ∀ i j, i < j → j < n → R (f i) (f j) := by
  rw [List.pairwise_map, List.pairwise_iff_getElem]
  simp only [List.length_range, List.getElem_range]
  constructor
  · intro h i j hij hj
    exact h i j (by omega) hj hij
  · intro h i j _ hj hij
    exact h i j hij hj

/-- The validity test in terms of the decoded ships. -/
theorem isValidGenes_iff (g : List Int) (h : g.length = 30) :
    isValidGenes g = true ↔
      (∀ i, i < 10 → (shipAt g i).isWithinBounds 10 = true ∧ geneOk g i = true) ∧
      (∀ i j, i < j → j < 10 → (shipAt g i).apart (shipAt g j)) := by
  unfold isValidGenes
  rw [decodeFleet_eq g h]
  simp only [List.length_map, List.length_range, SHIP_COUNT, ne_eq, not_true_eq_false,
    if_false, Fleet.isValid, Bool.and_eq_true, List.all_eq_true, List.mem_range]
  have hne : ((List.range 10).map (shipAt g)).isEmpty = false := by
    simp [List.isEmpty_iff]
  rw [hne]
  simp only [Bool.false_eq_true, if_false]
  by_cases hb : ((List.range 10).map (shipAt g)).all (fun s => s.isWithinBounds 10) = true
  · simp only [hb, Bool.not_true, Bool.false_eq_true, if_false, noConflicts_iff,
      pairwise_range_map]
    simp only [List.all_eq_true, List.mem_map, List.mem_range] at hb
    constructor
    · rintro ⟨hp, hg⟩
      exact ⟨fun i hi => ⟨hb _ ⟨i, hi, rfl⟩, hg i hi⟩, hp⟩
    · rintro ⟨hs, hp⟩
      exact ⟨hp, fun i hi => (hs i hi).2⟩
  · have hb2 : ((List.range 10).map (shipAt g)).all (fun s => s.isWithinBounds 10) = false := by
      simpa using hb
    simp only [hb2, Bool.not_false, if_true, Bool.false_eq_true, false_and, false_iff]
    rintro ⟨hs, _⟩
    apply hb
    simp only [List.all_eq_true, List.mem_map, List.mem_range]
    rintro s ⟨i, hi, rfl⟩
    exact (hs i hi).1

theorem specShipCells_eq (g : List Int) (i : Nat) (hi : i < 10) :
    specShipCells g i = (shipAt g i).getAllCells.map (fun c => (c.x, c.y)) := by
  obtain ⟨_, hlen⟩ := specLengths_pos i hi
  have e0 : 3 * i = i * 3 := by omega
  simp only [specShipCells, Ship.getAllCells, shipAt, List.map_map, hlen, e0]
  apply List.map_congr_left
  intro k _
  by_cases ho : g.getD (i * 3 + 2) 0 = 1
  · simp only [Function.comp_apply, ho, beq_self_eq_true, Bool.not_true, Bool.false_eq_true,
      if_false, if_true]
  · have : (g.getD (i * 3 + 2) 0 == 1) = false := by simpa using ho
    simp only [Function.comp_apply, ho, this, Bool.not_false, if_true, if_false]

theorem apart_iff_spec (a b : Ship) :
    a.apart b ↔ ∀ c ∈ a.getAllCells.map (fun c => (c.x, c.y)),
      ∀ d ∈ b.getAllCells.map (fun c => (c.x, c.y)), c ≠ d ∧ specDist c d ≠ 1 := by
  simp only [Ship.apart, List.mem_map, forall_exists_index, and_imp]
  constructor
  · rintro h _ c hc rfl _ d hd rfl
    have := h c hc d hd
    simp only [chebyshevDist] at this
    simp only [specDist, ne_eq, Prod.mk.injEq]
    omega
  · intro h c hc d hd
    have := h _ c hc rfl _ d hd rfl
    simp only [specDist, ne_eq, Prod.mk.injEq] at this
    simp only [chebyshevDist]
    omega

theorem apart_symm (a b : Ship) (h : a.apart b) : b.apart a := by
  intro c hc d hd
  have := h d hd c hc
  simp only [chebyshevDist] at this ⊢
  omega

/-! ## The constrained generator produces valid genomes -/

theorem markCells_foldl (x y : Int) (vert : Bool) (l : List Nat) (g : Grid) (yy xx : Int) :
    (l.foldl (fun g1 (i : Nat) => g1.set (y + (if vert then (i : Int) else 0))
      (x + (if !vert then (i : Int) else 0)) 1) g).cell yy xx ≠ 0 ↔
    (g.cell yy xx ≠ 0 ∨ ∃ i ∈ l, yy = y + (if vert then (i : Int) else 0) ∧
      xx = x + (if !vert then (i : Int) else 0)) := by
  induction l generalizing g with
  | nil => simp
  | cons i l ih =>
    simp only [List.foldl_cons, ih, List.mem_cons, exists_eq_or_imp]
    unfold Grid.set
    by_cases hc : yy = y + (if vert then (i : Int) else 0) ∧
        xx = x + (if !vert then (i : Int) else 0)
    · simp [hc]
    · simp only [hc, if_false, false_or]

theorem markCells_ne_zero (g : Grid) (x y len : Int) (vert : Bool) (yy xx : Int) :
    (markCells g x y len vert).cell yy xx ≠ 0 ↔
      (g.cell yy xx ≠ 0 ∨ ∃ i : Nat, (i : Int) < len ∧ yy = y + (if vert then (i : Int) else 0) ∧
        xx = x + (if !vert then (i : Int) else 0)) := by
  unfold markCells
  rw [markCells_foldl]
  simp only [List.mem_range]
  constructor
  · rintro (h | ⟨i, hi, h⟩)
    · exact Or.inl h
    · exact Or.inr ⟨i, by omega, h⟩
  · rintro (h | ⟨i, hi, h⟩)
    · exact Or.inl h
    · exact Or.inr ⟨i, by omega, h⟩

/-- What `fitsCell` guarantees: every board cell within Chebyshev distance 1 is free. -/
theorem fitsCell_free (g : Grid) (xi yi xx yy : Int) (h : fitsCell g xi yi = true)
    (hx : xx - xi ≤ 1 ∧ xi - xx ≤ 1) (hy : yy - yi ≤ 1 ∧ yi - yy ≤ 1)
    (hb : 0 ≤ xx ∧ xx < 10 ∧ 0 ≤ yy ∧ yy < 10) : g.cell yy xx = 0 := by
  simp only [fitsCell, Bool.and_eq_true, List.all_eq_true] at h
  have hdx : xx - xi ∈ [(-1 : Int), 0, 1] := by
    simp only [List.mem_cons, List.mem_singleton, List.not_mem_nil, or_false]; omega
  have hdy : yy - yi ∈ [(-1 : Int), 0, 1] := by
    simp only [List.mem_cons, List.mem_singleton, List.not_mem_nil, or_false]; omega
  have h2 := h.2 _ hdy _ hdx
  have e1 : yi + (yy - yi) = yy := by omega
  have e2 : xi + (xx - xi) = xx := by omega
  simp only [e1, e2] at h2
  by_contra hne
  simp [hb.1, hb.2.1, hb.2.2.1, hb.2.2.2, hne] at h2

theorem cells_on_board (s : Ship) (h : s.isWithinBounds 10 = true) (c : Cell)
    (hc : c ∈ s.getAllCells) : 0 ≤ c.x ∧ c.x < 10 ∧ 0 ≤ c.y ∧ c.y < 10 := by
  rw [isWithinBounds_iff] at h
  rw [mem_getAllCells] at hc
  obtain ⟨k, hk, rfl⟩ := hc
  rcases s with ⟨⟨x, y⟩, len, hor⟩
  cases hor <;> simp at h hk ⊢ <;> omega

theorem fits_spec (x y len : Int) (vert : Bool) (g : Grid) (h : fits x y len vert g = true) :
    (0 ≤ x ∧ 0 ≤ y ∧ (if vert then x ≤ 9 ∧ y + len - 1 ≤ 9 else x + len - 1 ≤ 9 ∧ y ≤ 9)) ∧
    ∀ i : Nat, (i : Int) < len →
      fitsCell g (x + (if !vert then (i : Int) else 0)) (y + (if vert then (i : Int) else 0))
        = true := by
  unfold fits at h
  by_cases hb : (x < 0 ∨ (if vert then x > 9 else x + len - 1 > 9) ∨
     y < 0 ∨ (if vert then y + len - 1 > 9 else y > 9))
  · rw [if_pos hb] at h
    exact absurd h (by simp)
  · rw [if_neg hb] at h
    constructor
    · cases vert <;> simp at hb ⊢ <;> omega
    · intro i hi
      rw [List.all_eq_true] at h
      exact h i (List.mem_range.2 (by omega))

/-- The ship written into the genome for an accepted candidate. -/
theorem fits_within (x y len : Int) (vert : Bool) (g : Grid) (hlen : 1 ≤ len)
    (h : fits x y len vert g = true) :
    (⟨⟨x, y⟩, len, !vert⟩ : Ship).isWithinBounds 10 = true := by
  have hs := (fits_spec x y len vert g h).1
  rw [isWithinBounds_iff]
  cases vert <;> simp at hs ⊢ <;> omega

theorem fits_apart (x y len : Int) (vert : Bool) (g : Grid)
    (h : fits x y len vert g = true) (s : Ship) (hs : s.isWithinBounds 10 = true)
    (hm : ∀ c ∈ s.getAllCells, g.cell c.y c.x ≠ 0) :
    s.apart (⟨⟨x, y⟩, len, !vert⟩ : Ship) := by
  intro c hc d hd
  have hcb := cells_on_board s hs c hc
  have hcm := hm c hc
  rw [mem_getAllCells] at hd
  obtain ⟨k, hk, rfl⟩ := hd
  have hf := (fits_spec x y len vert g h).2 k hk
  by_contra hle
  apply hcm
  cases vert
  · simp only [chebyshevDist, Bool.not_false, if_true] at hle
    simp only [Bool.not_false, if_true, Bool.false_eq_true, if_false, add_zero] at hf
    exact fitsCell_free g _ _ c.x c.y hf (by omega) (by omega) hcb
  · simp only [chebyshevDist, Bool.not_true, Bool.false_eq_true, if_false] at hle
    simp only [Bool.not_true, Bool.false_eq_true, if_false, if_true, add_zero] at hf
    exact fitsCell_free g _ _ c.x c.y hf (by omega) (by omega) hcb

theorem markCells_new (g : Grid) (x y len : Int) (vert : Bool) (c : Cell)
    (hc : c ∈ (⟨⟨x, y⟩, len, !vert⟩ : Ship).getAllCells) :
    (markCells g x y len vert).cell c.y c.x ≠ 0 := by
  rw [markCells_ne_zero]
  rw [mem_getAllCells] at hc
  obtain ⟨k, hk, rfl⟩ := hc
  refine Or.inr ⟨k, hk, ?_⟩
  cases vert <;> simp

theorem GenInv.step (grid : Grid) (placed : List Ship) (inv : GenInv grid placed)
    (x y len : Int) (vert : Bool) (hlen : 1 ≤ len) (h : fits x y len vert grid = true) :
    GenInv (markCells grid x y len vert) (placed ++ [⟨⟨x, y⟩, len, !vert⟩]) := by
  constructor
  · intro s hs
    rcases List.mem_append.1 hs with hs | hs
    · exact inv.bounds s hs
    · rw [List.mem_singleton.1 hs]
      exact fits_within x y len vert grid hlen h
  · intro s hs c hc
    rcases List.mem_append.1 hs with hs | hs
    · exact (markCells_ne_zero _ _ _ _ _ _ _).2 (Or.inl (inv.marked s hs c hc))
    · rw [List.mem_singleton.1 hs] at hc
      exact markCells_new grid x y len vert c hc
  · rw [List.pairwise_append]
    refine ⟨inv.apart, List.pairwise_singleton _ _, ?_⟩
    intro a ha b hb
    rw [List.mem_singleton.1 hb]
    exact fits_apart x y len vert grid h a (inv.bounds a ha) (inv.marked a ha)

theorem placeShipLoop_inv (maxTries len : Int) (vert : Bool) (shipIdx : Int) (hlen : 1 ≤ len)
    (placed : List Ship) :
    ∀ (n : Nat) (t : Int) (grid : Grid) (rng : RNG) (bias : Bias) (grid1 : Grid) (x y : Int)
      (rng1 : RNG), GenInv grid placed →
      placeShipLoop maxTries len vert shipIdx n t grid rng bias = (some (grid1, x, y), rng1) →
      GenInv grid1 (placed ++ [⟨⟨x, y⟩, len, !vert⟩]) := by
  intro n
  induction n with
  | zero => intro t grid rng bias grid1 x y rng1 _ h; simp [placeShipLoop] at h
  | succ n ih =>
    intro t grid rng bias grid1 x y rng1 inv h
    simp only [placeShipLoop] at h
    split_ifs at h with hf
    · simp only [Prod.mk.injEq, Option.some.injEq] at h
      obtain ⟨⟨rfl, rfl, rfl⟩, _⟩ := h
      exact GenInv.step grid placed inv _ _ len vert hlen hf
    · exact ih _ _ _ _ _ _ _ _ inv h
    · exact ih _ _ _ _ _ _ _ _ inv h

theorem encodeShips_append (a b : List Ship) :
    encodeShips (a ++ b) = encodeShips a ++ encodeShips b := by
  induction a with
  | nil => rfl
  | cons s rest ih => simp [encodeShips, ih]

theorem encodeShips_length (l : List Ship) : (encodeShips l).length = 3 * l.length := by
  induction l with
  | nil => rfl
  | cons s rest ih => simp [encodeShips, ih]; omega

theorem generateShips_inv (maxTries : Int) :
    ∀ (rest : List Int) (s : Int) (grid : Grid) (genes : List Int) (rng : RNG) (bias : Bias)
      (placed : List Ship) (out : List Int) (rng1 : RNG),
      (∀ len ∈ rest, 1 ≤ len) → GenInv grid placed → genes = encodeShips placed →
      generateShips maxTries rest s grid genes rng bias = (some out, rng1) →
      ∃ (grid1 : Grid) (placed1 : List Ship), GenInv grid1 placed1 ∧ out = encodeShips placed1 ∧
        placed1.map Ship.length = placed.map Ship.length ++ rest := by
  intro rest
  induction rest with
  | nil =>
    intro s grid genes rng bias placed out rng1 _ inv hg h
    simp only [generateShips, Prod.mk.injEq, Option.some.injEq] at h
    exact ⟨grid, placed, inv, by rw [← h.1, hg], by simp⟩
  | cons len rest ih =>
    intro s grid genes rng bias placed out rng1 hlen inv hg h
    simp only [generateShips] at h
    split at h
    · simp at h
    · rename_i grid1 x y rng2 hp
      have inv1 := placeShipLoop_inv maxTries len _ s (hlen len (List.mem_cons_self _ _))
        placed _ _ _ _ _ _ _ _ _ inv hp
      obtain ⟨grid2, placed2, inv2, hout, hmap⟩ := ih _ _ _ _ _ _ _ _
        (fun l hl => hlen l (List.mem_cons_of_mem _ hl)) inv1 (by
          rw [encodeShips_append, hg]
          cases (rng.getBool 500).1 <;> simp [encodeShips]) h
      refine ⟨grid2, placed2, inv2, hout, ?_⟩
      rw [hmap]
      simp

theorem shipsFrom_encode (placed : List Ship) :
    ∀ pre : List Int,
      shipsFrom (pre ++ encodeShips placed) (placed.map Ship.length) pre.length = placed := by
  induction placed with
  | nil => intro pre; rfl
  | cons s rest ih =>
    intro pre
    have e : pre ++ encodeShips (s :: rest) =
        (pre ++ [s.position.x, s.position.y, if s.horizontal then 1 else 0]) ++
          encodeShips rest := by
      simp [encodeShips]
    have hl : (pre ++ [s.position.x, s.position.y, if s.horizontal then (1 : Int) else 0]).length
        = pre.length + 3 := by simp
    have ih1 := ih (pre ++ [s.position.x, s.position.y, if s.horizontal then 1 else 0])
    rw [hl, ← e] at ih1
    simp only [List.map_cons, shipsFrom, ih1]
    rcases s with ⟨⟨x, y⟩, len, hor⟩
    simp only [encodeShips, List.cons_append, List.nil_append]
    have g0 : (pre ++ x :: y :: (if hor then (1 : Int) else 0) :: encodeShips rest).getD
        pre.length 0 = x := by
      rw [List.getD_append_right _ _ _ _ (le_refl _)]; simp
    have g1 : (pre ++ x :: y :: (if hor then (1 : Int) else 0) :: encodeShips rest).getD
        (pre.length + 1) 0 = y := by
      rw [List.getD_append_right _ _ _ _ (by omega)]; simp
    have g2 : (pre ++ x :: y :: (if hor then (1 : Int) else 0) :: encodeShips rest).getD
        (pre.length + 2) 0 = if hor then 1 else 0 := by
      rw [List.getD_append_right _ _ _ _ (by omega)]; simp
    rw [g0, g1, g2]
    cases hor <;> simp

theorem encodeShips_bit (placed : List Ship) :
    ∀ i : Nat, (encodeShips placed).getD (i * 3 + 2) 0 = 0 ∨
      (encodeShips placed).getD (i * 3 + 2) 0 = 1 := by
  induction placed with
  | nil => intro i; left; rfl
  | cons s rest ih =>
    intro i
    cases i with
    | zero =>
      simp only [encodeShips, List.cons_append, List.nil_append, Nat.zero_mul, Nat.zero_add]
      show (if s.horizontal then (1 : Int) else 0) = 0 ∨ (if s.horizontal then (1 : Int) else 0) = 1
      cases s.horizontal <;> simp
    | succ i =>
      have e : (i + 1) * 3 + 2 = (i * 3 + 2) + 1 + 1 + 1 := by omega
      rw [e]
      exact ih i

theorem shipsFrom_std (g : List Int) :
    shipsFrom g standardShipLengths 0 = (List.range 10).map (shipAt g) := rfl

/-- Ships that are on the board, pairwise apart and of the standard lengths encode a
valid genome. -/
theorem isValidGenes_encode (placed : List Ship)
    (hb : ∀ s ∈ placed, s.isWithinBounds 10 = true) (ha : placed.Pairwise Ship.apart)
    (hl : placed.map Ship.length = standardShipLengths) :
    isValidGenes (encodeShips placed) = true ∧ (encodeShips placed).length = 30 := by
  have hlen : placed.length = 10 := by
    have := congrArg List.length hl
    simpa [standardShipLengths] using this
  have h30 : (encodeShips placed).length = 30 := by rw [encodeShips_length, hlen]
  have hp : placed = (List.range 10).map (shipAt (encodeShips placed)) := by
    have := shipsFrom_encode placed []
    rw [hl] at this
    simp only [List.nil_append, List.length_nil] at this
    rw [← shipsFrom_std, this]
  refine ⟨(isValidGenes_iff _ h30).2 ⟨?_, ?_⟩, h30⟩
  · intro i hi
    have hmem : shipAt (encodeShips placed) i ∈ placed := by
      rw [hp]
      exact List.mem_map.2 ⟨i, List.mem_range.2 hi, by rw [← hp]⟩
    have hw := hb _ hmem
    refine ⟨hw, ?_⟩
    rw [isWithinBounds_iff] at hw
    rw [geneOk_iff]
    have hbit := encodeShips_bit placed i
    simp only [shipAt] at hw
    generalize (encodeShips placed).getD (i * 3) 0 = x at hw ⊢
    generalize (encodeShips placed).getD (i * 3 + 1) 0 = y at hw ⊢
    generalize (encodeShips placed).getD (i * 3 + 2) 0 = o at hw hbit ⊢
    generalize standardShipLengths.getD i 0 = len at hw ⊢
    rcases hbit with rfl | rfl <;> simp at hw ⊢ <;> omega
  · rw [hp] at ha
    exact (pairwise_range_map _ _ _).1 ha

/-- Every genome returned by `generate` is valid. -/
theorem generate_sound (maxTries : Int) :
    ∀ (fuel : Nat) (bias : Bias) (rng : RNG) (c : PlacementChromosome) (rng1 : RNG),
      generate maxTries fuel bias rng = some (c, rng1) →
      c.isValid = true ∧ c.genes.length = 30 := by
  intro fuel
  induction fuel with
  | zero => intro bias rng c rng1 h; simp [generate] at h
  | succ fuel ih =>
    intro bias rng c rng1 h
    simp only [generate] at h
    split at h
    · rename_i genes rng2 hg
      simp only [Option.some.injEq, Prod.mk.injEq] at h
      obtain ⟨rfl, _⟩ := h
      obtain ⟨grid1, placed1, inv1, hout, hmap⟩ :=
        generateShips_inv maxTries standardShipLengths 0 Grid.empty [] rng bias [] genes rng2
          (by intro len hl; simp [standardShipLengths] at hl; omega)
          ⟨by simp, by simp, List.Pairwise.nil⟩ rfl hg
      simp only [List.map_nil, List.nil_append] at hmap
      show isValidGenes genes = true ∧ genes.length = 30
      rw [hout]
      exact isValidGenes_encode placed1 inv1.bounds inv1.apart hmap
    · exact ih _ _ _ _ h

/-- C1: for every bias and every stream of draws on which `generate` returns (within
any bound on the number of restarts), the returned genome has 30 genes and passes
`PlacementChromosome::isValid`. -/
theorem generate_valid (maxTries : Int) (fuel : Nat) (bias : Bias) (rng : RNG)
    (c : PlacementChromosome)
    (h : (generate maxTries fuel bias rng).map Prod.fst = some c) :
    c.isValid = true ∧ c.genes.length = 30 := by
  cases hg : generate maxTries fuel bias rng with
  | none => rw [hg] at h; simp at h
  | some p =>
    rw [hg] at h
    simp only [Option.map_some', Option.some.injEq] at h
    subst h
    exact generate_sound maxTries fuel bias rng p.1 p.2 hg

/-- Witness for C1: on the draws `spacedDraws` the generator returns at the first pass. -/
theorem generate_valid_witness :
    (generate 50 1 Bias.RANDOM ⟨tableDraws spacedDraws, 0⟩).map Prod.fst
        = some { genes := spacedExampleGenes } ∧
    (PlacementChromosome.isValid { genes := spacedExampleGenes } = true ∧
      spacedExampleGenes.length = 30) :=
  ⟨by decide!, generate_valid 50 1 Bias.RANDOM ⟨tableDraws spacedDraws, 0⟩
    { genes := spacedExampleGenes } (by decide!)⟩

/-! ## Repair -/

theorem repair_sound (fuel : Nat) (c : PlacementChromosome) (rng : RNG) (regenerated : Int)
    (b : Bool) (c1 : PlacementChromosome) (rng1 : RNG) (n : Int)
    (h : repair fuel c rng regenerated = some (b, c1, rng1, n)) :
    b = true ∧ c1.isValid = true := by
  unfold repair at h
  split at h
  · rename_i h1
    simp only [Option.some.injEq, Prod.mk.injEq] at h
    obtain ⟨rfl, rfl, _, _⟩ := h
    exact ⟨rfl, h1⟩
  · simp only at h
    split at h
    · split at h
      · simp at h
      · rename_i newC rng3 hg
        have hv := (generate_sound 50 fuel _ _ newC rng3 hg).1
        split at h
        · split at h
          · simp at h
          · rename_i fb rng4 hg2
            have hv2 := (generate_sound 50 fuel _ _ fb rng4 hg2).1
            simp only [Option.some.injEq, Prod.mk.injEq] at h
            obtain ⟨rfl, rfl, _, _⟩ := h
            exact ⟨rfl, hv2⟩
        · simp only [Option.some.injEq, Prod.mk.injEq] at h
          obtain ⟨rfl, rfl, _, _⟩ := h
          exact ⟨rfl, hv⟩
    · rename_i h2
      simp only [Option.some.injEq, Prod.mk.injEq] at h
      obtain ⟨rfl, rfl, _, _⟩ := h
      have : PlacementChromosome.isValid
          { c with genes := (repairLoop c 50 0 c.genes Grid.empty rng).1 } = true := by
        simpa using h2
      exact ⟨this, this⟩

/-- C2: for every 30-gene genome, valid or not, and every stream of draws on which
`repair` returns, the result is `true` and the chromosome left in place is valid. -/
theorem repair_valid (fuel : Nat) (c : PlacementChromosome) (_hlen : c.genes.length = 30)
    (rng : RNG) (regenerated : Int) (b : Bool) (c1 : PlacementChromosome)
    (h : (repair fuel c rng regenerated).map (fun r => (r.1, r.2.1)) = some (b, c1)) :
    b = true ∧ c1.isValid = true := by
  cases hr : repair fuel c rng regenerated with
  | none => rw [hr] at h; simp at h
  | some r =>
    obtain ⟨b0, c0, rng0, n0⟩ := r
    rw [hr] at h
    simp only [Option.map_some', Option.some.injEq, Prod.mk.injEq] at h
    obtain ⟨rfl, rfl⟩ := h
    exact repair_sound fuel c rng regenerated _ _ rng0 n0 hr

set_option maxRecDepth 1000000 in
/-- Witness for C2: the example genome of the specification, in which ships 0 and 1
overlap, is not valid before `repair` and valid after it. -/
theorem repair_valid_witness :
    PlacementChromosome.isValid { genes := specExampleGenes } = false ∧
    specExampleGenes.length = 30 ∧
    (repair 1 { genes := specExampleGenes } ⟨repairDraws, 0⟩ 0).map (fun r => (r.1, r.2.1))
      = some (true, { genes := spacedExampleGenes }) ∧
    (true = true ∧ PlacementChromosome.isValid { genes := spacedExampleGenes } = true) :=
  ⟨by decide, by decide, by decide!,
    repair_valid 1 { genes := specExampleGenes } (by decide) ⟨repairDraws, 0⟩ 0 true
      { genes := spacedExampleGenes } (by decide!)⟩

/-! ## Tournament selection -/

theorem uniformInt_range (rng : RNG) (lo hi : Int) (h : lo ≤ hi) :
    lo ≤ (rng.uniformInt lo hi).1 ∧ (rng.uniformInt lo hi).1 ≤ hi := by
  simp only [RNG.uniformInt, RNG.next]
  have h1 : (0 : Int) < hi - lo + 1 := by omega
  have := Int.emod_nonneg (rng.draws rng.pos : Int) (ne_of_gt h1)
  have := Int.emod_lt_of_pos (rng.draws rng.pos : Int) h1
  omega

theorem drawTournament_total (population : List PlacementChromosome) (hne : population ≠ []) :
    ∀ (n : Nat) (rng : RNG), ∃ tournament rng1,
      drawTournament population n rng = some (tournament, rng1) ∧ tournament.length = n ∧
      ∀ d ∈ tournament, d ∈ population := by
  have hpos : 0 < population.length := List.length_pos.2 hne
  intro n
  induction n with
  | zero => intro rng; exact ⟨[], rng, rfl, rfl, by simp⟩
  | succ n ih =>
    intro rng
    have hr := uniformInt_range rng 0 ((population.length : Int) - 1) (by omega)
    have hlt : (rng.uniformInt 0 ((population.length : Int) - 1)).1.toNat < population.length := by
      omega
    obtain ⟨rest, rng2, hrest, hlen, hmem⟩ :=
      ih (rng.uniformInt 0 ((population.length : Int) - 1)).2
    refine ⟨population.get ⟨_, hlt⟩ :: rest, rng2, ?_, by simp [hlen], ?_⟩
    · simp only [drawTournament, List.get?_eq_get hlt, hrest]
    · intro d hd
      rcases List.mem_cons.1 hd with rfl | hd
      · exact List.get_mem _ _ _
      · exact hmem d hd

theorem maxElementLoop_spec (l : List PlacementChromosome) :
    ∀ largest : PlacementChromosome,
      maxElementLoop largest l ∈ largest :: l ∧
      ∀ d ∈ largest :: l, d.fitness ≤ (maxElementLoop largest l).fitness := by
  induction l with
  | nil => intro largest; simp [maxElementLoop]
  | cons c rest ih =>
    intro largest
    simp only [maxElementLoop]
    split_ifs with hlt
    · obtain ⟨hm, hmax⟩ := ih c
      refine ⟨List.mem_cons_of_mem _ hm, ?_⟩
      intro d hd
      rcases List.mem_cons.1 hd with rfl | hd
      · have := hmax c (List.mem_cons_self _ _)
        omega
      · exact hmax d hd
    · obtain ⟨hm, hmax⟩ := ih largest
      refine ⟨?_, ?_⟩
      · rcases List.mem_cons.1 hm with h | h
        · rw [h]; exact List.mem_cons_self _ _
        · exact List.mem_cons_of_mem _ (List.mem_cons_of_mem _ h)
      · intro d hd
        rcases List.mem_cons.1 hd with rfl | hd
        · exact hmax _ (List.mem_cons_self _ _)
        · rcases List.mem_cons.1 hd with rfl | hd
          · have := hmax largest (List.mem_cons_self _ _)
            omega
          · exact hmax d (List.mem_cons_of_mem _ hd)

theorem drawTournament_indices (population : List PlacementChromosome) :
    ∀ (n : Nat) (rng : RNG) (tournament : List PlacementChromosome) (rng1 : RNG),
      drawTournament population n rng = some (tournament, rng1) →
      rng1 = ⟨rng.draws, rng.pos + n⟩ ∧
      ∀ j < n, tournament.get? j = population.get?
        ((⟨rng.draws, rng.pos + j⟩ : RNG).uniformInt 0
          ((population.length : Int) - 1)).1.toNat := by
  intro n
  induction n with
  | zero =>
    intro rng tournament rng1 h
    simp only [drawTournament, Option.some.injEq, Prod.mk.injEq] at h
    obtain ⟨_, rfl⟩ := h
    exact ⟨rfl, fun j hj => absurd hj (Nat.not_lt_zero j)⟩
  | succ n ih =>
    intro rng tournament rng1 h
    simp only [drawTournament] at h
    split at h
    · simp at h
    · rename_i c hc
      split at h
      · simp at h
      · rename_i rest rng2 hr
        simp only [Option.some.injEq, Prod.mk.injEq] at h
        obtain ⟨rfl, rfl⟩ := h
        obtain ⟨h1, h2⟩ := ih _ _ _ hr
        have hnext : (rng.uniformInt 0 ((population.length : Int) - 1)).2
            = ⟨rng.draws, rng.pos + 1⟩ := rfl
        rw [hnext] at h1 h2
        simp only at h1 h2
        refine ⟨by rw [h1]; simp only [RNG.mk.injEq, true_and]; omega, ?_⟩
        intro j hj
        cases j with
        | zero =>
          simp only [List.get?_cons_zero, Nat.add_zero]
          exact hc.symm
        | succ j =>
          simp only [List.get?_cons_succ]
          rw [h2 j (by omega)]
          have : rng.pos + 1 + j = rng.pos + (j + 1) := by omega
          rw [this]

/-- C9: for a non-empty population and a tournament size of at least 1 (as the
constructor requires), every stream of draws makes `selectParent` return.  The
tournament holds `tournamentSize` chromosomes, the one at place `j` being the
chromosome of the population at the index that the `j`-th call of `uniformInt(0, size - 1)`
returns; the random source has advanced by `tournamentSize` draws; and the result is
one of the drawn chromosomes whose fitness is at least that of every drawn one. -/
theorem selectParent_max (population : List PlacementChromosome) (tournamentSize : Nat)
    (rng : RNG) (hne : population ≠ []) (hk : 0 < tournamentSize) :
    ∃ tournament rng1 c,
      drawTournament population tournamentSize rng = some (tournament, rng1) ∧
      tournament.length = tournamentSize ∧ (∀ d ∈ tournament, d ∈ population) ∧
      (∀ j < tournamentSize, tournament.get? j = population.get?
        ((⟨rng.draws, rng.pos + j⟩ : RNG).uniformInt 0
          ((population.length : Int) - 1)).1.toNat) ∧
      rng1 = ⟨rng.draws, rng.pos + tournamentSize⟩ ∧
      selectParent population tournamentSize rng = some (c, rng1) ∧
      c ∈ tournament ∧ ∀ d ∈ tournament, d.fitness ≤ c.fitness := by
  obtain ⟨tournament, rng1, hd, hlen, hmem⟩ :=
    drawTournament_total population hne tournamentSize rng
  obtain ⟨hrng, hidx⟩ := drawTournament_indices population tournamentSize rng _ _ hd
  cases tournament with
  | nil => simp at hlen; omega
  | cons t rest =>
    obtain ⟨hm, hmax⟩ := maxElementLoop_spec rest t
    refine ⟨t :: rest, rng1, maxElementLoop t rest, hd, hlen, hmem, hidx, hrng, ?_, hm, hmax⟩
    have he : population.isEmpty = false := by
      cases population with
      | nil => exact absurd rfl hne
      | cons a l => rfl
    simp only [selectParent, he, hd, maxElement, Bool.false_eq_true, if_false]

/-- Witness for C9: a population of two chromosomes and a tournament of size 3 with the
draws 1, 0, 1: the tournament is the second, the first and the second chromosome, and
the second chromosome, of fitness 5, is selected. -/
theorem selectParent_max_witness :
    (drawTournament [{ genes := specExampleGenes, fitness := 1 },
        { genes := spacedExampleGenes, fitness := 5 }] 3 ⟨tableDraws [1, 0, 1], 0⟩).map Prod.fst
      = some [{ genes := spacedExampleGenes, fitness := 5 },
          { genes := specExampleGenes, fitness := 1 },
          { genes := spacedExampleGenes, fitness := 5 }] ∧
    (selectParent [{ genes := specExampleGenes, fitness := 1 },
        { genes := spacedExampleGenes, fitness := 5 }] 3 ⟨tableDraws [1, 0, 1], 0⟩).map Prod.fst
      = some { genes := spacedExampleGenes, fitness := 5 } ∧
    ∃ tournament rng1 c,
      drawTournament [{ genes := specExampleGenes, fitness := 1 },
          { genes := spacedExampleGenes, fitness := 5 }] 3 ⟨tableDraws [1, 0, 1], 0⟩
        = some (tournament, rng1) ∧
      tournament.length = 3 ∧
      (∀ d ∈ tournament, d ∈ [{ genes := specExampleGenes, fitness := 1 },
          ({ genes := spacedExampleGenes, fitness := 5 } : PlacementChromosome)]) ∧
      (∀ j < 3, tournament.get? j
        = [{ genes := specExampleGenes, fitness := 1 },
            ({ genes := spacedExampleGenes, fitness := 5 } : PlacementChromosome)].get?
          ((⟨tableDraws [1, 0, 1], 0 + j⟩ : RNG).uniformInt 0
            ((([{ genes := specExampleGenes, fitness := 1 },
              ({ genes := spacedExampleGenes, fitness := 5 } :
                PlacementChromosome)].length : Nat) : Int) - 1)).1.toNat) ∧
      rng1 = ⟨tableDraws [1, 0, 1], 0 + 3⟩ ∧
      selectParent [{ genes := specExampleGenes, fitness := 1 },
          { genes := spacedExampleGenes, fitness := 5 }] 3 ⟨tableDraws [1, 0, 1], 0⟩
        = some (c, rng1) ∧
      c ∈ tournament ∧ ∀ d ∈ tournament, d.fitness ≤ c.fitness :=
  ⟨by decide!, by decide!, selectParent_max _ 3 ⟨tableDraws [1, 0, 1], 0⟩ (by decide) (by decide)⟩

/-! ## Crossover -/

theorem getD_set_int (l : List Int) (n m : Nat) (a : Int) :
    (l.set n a).getD m 0 = if n = m ∧ n < l.length then a else l.getD m 0 := by
  simp only [List.getD_eq_getElem?_getD, List.getElem?_set]
  by_cases h : n = m
  · subst h
    by_cases h2 : n < l.length
    · simp [h2]
    · simp [h2, List.getElem?_eq_none (not_lt.1 h2)]
  · simp [h]

theorem set_getD_self (l : List Int) (n : Nat) : l.set n (l.getD n 0) = l := by
  apply List.ext_getElem?
  intro m
  simp only [List.getElem?_set]
  by_cases h : n = m
  · subst h
    by_cases h2 : n < l.length
    · simp [h2, List.getD_eq_getElem?_getD, List.getElem?_eq_getElem h2]
    · simp [h2, List.getElem?_eq_none (not_lt.1 h2)]
  · simp [h]

/-- Overwriting the three genes of ship `k` with those of `p2` replaces triple `k` and
leaves the other triples. -/
theorem triple_swap (g p2 : List Int) (hg : g.length = 30) (k : Nat) (hk : k < 10)
    (i : Nat) :
    triple (((g.set (3 * k) (p2.getD (3 * k) 0)).set (3 * k + 1) (p2.getD (3 * k + 1) 0)).set
      (3 * k + 2) (p2.getD (3 * k + 2) 0)) i = if i = k then triple p2 k else triple g i := by
  simp only [triple, getD_set_int, List.length_set, hg]
  by_cases h : i = k
  · subst h
    simp
    omega
  · simp only [h, if_false]
    have e1 : ¬ (3 * k + 2 = 3 * i) := by omega
    have e2 : ¬ (3 * k + 1 = 3 * i) := by omega
    have e3 : ¬ (3 * k = 3 * i) := by omega
    have e4 : ¬ (3 * k + 2 = 3 * i + 1) := by omega
    have e5 : ¬ (3 * k + 1 = 3 * i + 1) := by omega
    have e6 : ¬ (3 * k = 3 * i + 1) := by omega
    have e7 : ¬ (3 * k + 2 = 3 * i + 2) := by omega
    have e8 : ¬ (3 * k + 1 = 3 * i + 2) := by omega
    have e9 : ¬ (3 * k = 3 * i + 2) := by omega
    simp [e1, e2, e3, e4, e5, e6, e7, e8, e9]

theorem swapShips_inv (p1 p2 : List Int) :
    ∀ (n : Nat) (g : List Int) (rng : RNG) (chosen : List Nat),
      g.length = 30 →
      (∀ i, triple g i = triple p1 i ∨ triple g i = triple p2 i) →
      (∀ i, i ∉ chosen → triple g i = triple p1 i) →
      ∃ chosen1 : List Nat, chosen1.length = chosen.length + n ∧
        (swapShips p2 n g rng).1.length = 30 ∧
        (∀ i, triple (swapShips p2 n g rng).1 i = triple p1 i ∨
          triple (swapShips p2 n g rng).1 i = triple p2 i) ∧
        (∀ i, i ∉ chosen1 → triple (swapShips p2 n g rng).1 i = triple p1 i) := by
  intro n
  induction n with
  | zero =>
    intro g rng chosen hg h1 h2
    exact ⟨chosen, rfl, hg, h1, h2⟩
  | succ n ih =>
    intro g rng chosen hg h1 h2
    have hr := uniformInt_range rng 0 9 (by omega)
    obtain ⟨k, hk, hidx⟩ : ∃ k : Nat, k < 10 ∧ ((rng.uniformInt 0 9).1 * 3).toNat = 3 * k :=
      ⟨(rng.uniformInt 0 9).1.toNat, by omega, by omega⟩
    simp only [swapShips, hidx]
    have ht := triple_swap g p2 hg k hk
    obtain ⟨chosen1, hlen, r1, r2, r3⟩ := ih
      (((g.set (3 * k) (p2.getD (3 * k) 0)).set (3 * k + 1) (p2.getD (3 * k + 1) 0)).set
        (3 * k + 2) (p2.getD (3 * k + 2) 0)) (rng.uniformInt 0 9).2 (k :: chosen)
      (by simp only [List.length_set, hg])
      (fun i => by
        rw [ht i]
        by_cases h : i = k
        · subst h; simp
        · simp only [h, if_false]; exact h1 i)
      (fun i hi => by
        rw [ht i]
        have hne : i ≠ k := fun h => hi (h ▸ List.mem_cons_self _ _)
        simp only [hne, if_false]
        exact h2 i (fun h => hi (List.mem_cons_of_mem _ h)))
    exact ⟨chosen1, by simp at hlen; omega, r1, r2, r3⟩

theorem swapShips_same (p : List Int) :
    ∀ (n : Nat) (rng : RNG), (swapShips p n p rng).1 = p := by
  intro n
  induction n with
  | zero => intro rng; rfl
  | succ n ih =>
    intro rng
    simp only [swapShips, set_getD_self]
    exact ih _

/-- C10: for all 30-gene parents and all draws, every ship of the child of `crossover`
carries the gene triple of parent 1 or of parent 2 at the same index, at most 4 ship
indices differ from parent 1, and a child of parents with equal genes has their genes. -/
theorem crossover_ship_swap (p1 p2 : PlacementChromosome) (rng : RNG)
    (h1 : p1.genes.length = 30) (_h2 : p2.genes.length = 30) :
    (crossover p1 p2 rng).1.genes.length = 30 ∧
    (∀ i, i < 10 → triple (crossover p1 p2 rng).1.genes i = triple p1.genes i ∨
      triple (crossover p1 p2 rng).1.genes i = triple p2.genes i) ∧
    (changedShips (crossover p1 p2 rng).1.genes p1.genes).length ≤ 4 ∧
    (p1.genes = p2.genes → (crossover p1 p2 rng).1.genes = p1.genes) := by
  have hr := uniformInt_range rng 1 4 (by omega)
  obtain ⟨chosen, hlen, r1, r2, r3⟩ := swapShips_inv p1.genes p2.genes
    (rng.uniformInt 1 4).1.toNat p1.genes (rng.uniformInt 1 4).2 [] h1
    (fun i => Or.inl rfl) (fun i _ => rfl)
  have hg : (crossover p1 p2 rng).1.genes =
      (swapShips p2.genes (rng.uniformInt 1 4).1.toNat p1.genes (rng.uniformInt 1 4).2).1 := rfl
  rw [hg]
  refine ⟨r1, fun i _ => r2 i, ?_, ?_⟩
  · have hsub : changedShips (swapShips p2.genes (rng.uniformInt 1 4).1.toNat p1.genes
        (rng.uniformInt 1 4).2).1 p1.genes ⊆ chosen := by
      intro i hi
      simp only [changedShips, List.mem_filter, decide_eq_true_eq] at hi
      by_contra hc
      exact hi.2 (r3 i hc)
    have hnd : (changedShips (swapShips p2.genes (rng.uniformInt 1 4).1.toNat p1.genes
        (rng.uniformInt 1 4).2).1 p1.genes).Nodup :=
      (List.nodup_range 10).filter _
    have := (List.subperm_of_subset hnd hsub).length_le
    simp only [List.length_nil, Nat.zero_add] at hlen
    omega
  · intro he
    rw [← he]
    exact swapShips_same p1.genes _ _

/-- Witness for C10: the two example genomes as parents. -/
theorem crossover_ship_swap_witness :
    (crossover { genes := specExampleGenes } { genes := spacedExampleGenes }
        ⟨tableDraws [3, 1, 4, 1, 5], 0⟩).1.genes.length = 30 ∧
    (∀ i, i < 10 →
      triple (crossover { genes := specExampleGenes } { genes := spacedExampleGenes }
        ⟨tableDraws [3, 1, 4, 1, 5], 0⟩).1.genes i = triple specExampleGenes i ∨
      triple (crossover { genes := specExampleGenes } { genes := spacedExampleGenes }
        ⟨tableDraws [3, 1, 4, 1, 5], 0⟩).1.genes i = triple spacedExampleGenes i) ∧
    (changedShips (crossover { genes := specExampleGenes } { genes := spacedExampleGenes }
        ⟨tableDraws [3, 1, 4, 1, 5], 0⟩).1.genes specExampleGenes).length ≤ 4 ∧
    (specExampleGenes = spacedExampleGenes →
      (crossover { genes := specExampleGenes } { genes := spacedExampleGenes }
        ⟨tableDraws [3, 1, 4, 1, 5], 0⟩).1.genes = specExampleGenes) :=
  crossover_ship_swap { genes := specExampleGenes } { genes := spacedExampleGenes }
    ⟨tableDraws [3, 1, 4, 1, 5], 0⟩ (by decide) (by decide)

/-! ## The generational loop -/

theorem generateValidRandomGenes_sound (fuel : Nat) (rng : RNG) (genes : List Int) (rng1 : RNG)
    (h : generateValidRandomGenes fuel rng = some (genes, rng1)) :
    isValidGenes genes = true := by
  unfold generateValidRandomGenes at h
  simp only at h
  split at h
  · simp at h
  · rename_i chrom rng2 hg
    simp only [Option.some.injEq, Prod.mk.injEq] at h
    obtain ⟨rfl, _⟩ := h
    exact (generate_sound 50 fuel _ _ chrom rng2 hg).1

theorem ensureValid_sound (fuel : Nat) (c : PlacementChromosome) (rng : RNG) (r : Int)
    (c1 : PlacementChromosome) (rng1 : RNG) (r1 : Int)
    (h : ensureValid fuel c rng r = some (c1, rng1, r1)) : c1.isValid = true := by
  unfold ensureValid at h
  split at h
  · split at h
    · simp at h
    · rename_i b c2 rng2 r2 hr
      have hv := (repair_sound fuel c rng r b c2 rng2 r2 hr).2
      simp only [hv, Bool.not_true, Bool.false_eq_true, if_false, Option.some.injEq,
        Prod.mk.injEq] at h
      obtain ⟨rfl, _, _⟩ := h
      exact hv
  · rename_i hc
    simp only [Option.some.injEq, Prod.mk.injEq] at h
    obtain ⟨rfl, _, _⟩ := h
    simpa using hc

theorem produceOffspring_sound (fuel : Nat) (ga : PlacementGA) (c : PlacementChromosome)
    (ga1 : PlacementGA) (h : produceOffspring fuel ga = some (c, ga1)) :
    c.isValid = true ∧ ga1.population = ga.population ∧
      ga1.populationSize = ga.populationSize ∧ ga1.eliteCount = ga.eliteCount ∧
      ga1.tournamentSize = ga.tournamentSize ∧ ga1.crossoverRate = ga.crossoverRate ∧
      ga1.mutationRate = ga.mutationRate := by
  unfold produceOffspring at h
  split at h
  · simp at h
  · split at h
    · simp at h
    · simp only at h
      split at h
      · simp at h
      · rename_i c2 rng7 r7 he
        simp only [Option.some.injEq, Prod.mk.injEq] at h
        obtain ⟨rfl, rfl⟩ := h
        exact ⟨ensureValid_sound fuel _ _ _ _ _ _ he, rfl, rfl, rfl, rfl, rfl, rfl⟩

/-- What the offspring loop returns: the chromosomes it started with, followed by `n`
scored offspring; when the fitness function leaves the genes alone they are valid. -/
theorem breed_spec (f : FitnessFunction) (fuel : Nat) :
    ∀ (n : Nat) (newPop : List PlacementChromosome) (ga : PlacementGA)
      (out : List PlacementChromosome) (ga1 : PlacementGA),
      breed f fuel n newPop ga = some (out, ga1) →
      ∃ offspring, out = newPop ++ offspring ∧ offspring.length = n ∧
        ((∀ c r, (f c r).1.genes = c.genes) → ∀ c ∈ offspring, c.isValid = true) ∧
        ga1.populationSize = ga.populationSize ∧ ga1.eliteCount = ga.eliteCount := by
  intro n
  induction n with
  | zero =>
    intro newPop ga out ga1 h
    simp only [breed, Option.some.injEq, Prod.mk.injEq] at h
    exact ⟨[], by simp [h.1], rfl, by simp, by rw [h.2], by rw [h.2]⟩
  | succ n ih =>
    intro newPop ga out ga1 h
    simp only [breed] at h
    split at h
    · simp at h
    · rename_i c ga2 hp
      obtain ⟨offspring, ho, hl, hv, hn, hk⟩ := ih _ _ _ _ h
      have hs := produceOffspring_sound fuel ga c ga2 hp
      refine ⟨(f c ga2.rng).1 :: offspring, by simp [ho], by simp [hl], ?_,
        by rw [hn]; exact hs.2.2.1, by rw [hk]; exact hs.2.2.2.1⟩
      intro hf d hd
      rcases List.mem_cons.1 hd with rfl | hd
      · show isValidGenes (f c ga2.rng).1.genes = true
        rw [hf]
        exact hs.1
      · exact hv hf d hd

theorem evolvePopulation_spec (f : FitnessFunction) (fuel : Nat) (ga : PlacementGA)
    (best : PlacementChromosome) (ga1 : PlacementGA)
    (h : evolvePopulation f fuel ga = some (best, ga1)) :
    ga.eliteCount ≤ ga.population.length ∧
    ∃ offspring ga2,
      breed f fuel (ga.populationSize - ga.eliteCount) (ga.population.take ga.eliteCount) ga
        = some (ga.population.take ga.eliteCount ++ offspring, ga2) ∧
      offspring.length = ga.populationSize - ga.eliteCount ∧
      ((∀ c r, (f c r).1.genes = c.genes) → ∀ c ∈ offspring, c.isValid = true) ∧
      ga1.population = sortByFitness (ga.population.take ga.eliteCount ++ offspring) ∧
      ga1.populationSize = ga.populationSize ∧ ga1.eliteCount = ga.eliteCount ∧
      ga1.population.head? = some best := by
  unfold evolvePopulation at h
  split at h
  · simp at h
  · rename_i hk
    have hk1 : ga.eliteCount ≤ ga.population.length := by omega
    have htake : (ga.population.take ga.eliteCount).length = ga.eliteCount := by
      simp [List.length_take, hk1]
    simp only [htake] at h
    split at h
    · simp at h
    · rename_i out ga2 hb
      obtain ⟨offspring, ho, hl, hv, hn, he⟩ := breed_spec f fuel _ _ _ _ _ hb
      subst ho
      split at h
      · simp at h
      · rename_i b rest hs
        simp only [Option.some.injEq, Prod.mk.injEq] at h
        obtain ⟨rfl, rfl⟩ := h
        exact ⟨hk1, offspring, ga2, hb, hl, hv, hs.symm, hn, he, rfl⟩

/-- C6: after `evolvePopulation` the population is ordered by non-increasing fitness
and is a permutation of the first `eliteCount` chromosomes of the old population
followed by the `populationSize - eliteCount` offspring made by the offspring loop. -/
theorem evolvePopulation_sorted (f : FitnessFunction) (fuel : Nat) (ga : PlacementGA)
    (pop : List PlacementChromosome)
    (h : (evolvePopulation f fuel ga).map (fun r => r.2.population) = some pop) :
    pop.Sorted fitnessGe ∧
    ∃ offspring ga2,
      breed f fuel (ga.populationSize - ga.eliteCount) (ga.population.take ga.eliteCount) ga
        = some (ga.population.take ga.eliteCount ++ offspring, ga2) ∧
      offspring.length = ga.populationSize - ga.eliteCount ∧
      pop.Perm (ga.population.take ga.eliteCount ++ offspring) := by
  cases he : evolvePopulation f fuel ga with
  | none => rw [he] at h; simp at h
  | some r =>
    obtain ⟨best, ga1⟩ := r
    rw [he] at h
    simp only [Option.map_some', Option.some.injEq] at h
    subst h
    obtain ⟨_, offspring, ga2, hb, hl, _, hs, _⟩ := evolvePopulation_spec f fuel ga best ga1 he
    rw [hs]
    exact ⟨List.sorted_insertionSort fitnessGe _, offspring, ga2, hb, hl,
      List.perm_insertionSort fitnessGe _⟩

/-- Witness for C6: one generation on `examplePopulation` in which the offspring is a
copy of the fitter second chromosome, which the sort moves to the front. -/
theorem evolvePopulation_sorted_witness :
    (evolvePopulation rowFitness 1
        { exampleGA (tableDraws [1, 1, 999, 999]) with population := examplePopulation }).map
      (fun r => r.2.population)
      = some [{ genes := shiftedExampleGenes, fitness := 1 },
              { genes := spacedExampleGenes, fitness := 0 }] ∧
    List.Sorted fitnessGe [{ genes := shiftedExampleGenes, fitness := 1 },
      ({ genes := spacedExampleGenes, fitness := 0 } : PlacementChromosome)] :=
  ⟨by decide!, (evolvePopulation_sorted rowFitness 1
    { exampleGA (tableDraws [1, 1, 999, 999]) with population := examplePopulation }
    _ (by decide!)).1⟩

theorem evolvePopulation_valid (f : FitnessFunction)
    (hf : ∀ c r, (f c r).1.genes = c.genes) (fuel : Nat) (ga : PlacementGA)
    (best : PlacementChromosome) (ga1 : PlacementGA)
    (h : evolvePopulation f fuel ga = some (best, ga1))
    (hv : ∀ c ∈ ga.population, c.isValid = true) :
    ∀ c ∈ ga1.population, c.isValid = true := by
  obtain ⟨_, offspring, ga2, _, _, ho, hs, _⟩ := evolvePopulation_spec f fuel ga best ga1 h
  intro c hc
  rw [hs] at hc
  have hc1 := (List.perm_insertionSort fitnessGe _).subset hc
  rcases List.mem_append.1 hc1 with hm | hm
  · exact hv c (List.mem_of_mem_take hm)
  · exact ho hf c hm

theorem evolveTimes_valid (f : FitnessFunction)
    (hf : ∀ c r, (f c r).1.genes = c.genes) (fuel : Nat) :
    ∀ (n : Nat) (ga ga1 : PlacementGA), evolveTimes f fuel n ga = some ga1 →
      (∀ c ∈ ga.population, c.isValid = true) → ∀ c ∈ ga1.population, c.isValid = true := by
  intro n
  induction n with
  | zero =>
    intro ga ga1 h hv
    simp only [evolveTimes, Option.some.injEq] at h
    subst h
    exact hv
  | succ n ih =>
    intro ga ga1 h hv
    simp only [evolveTimes] at h
    split at h
    · simp at h
    · rename_i best ga2 he
      exact ih ga2 ga1 h (evolvePopulation_valid f hf fuel ga best ga2 he hv)

theorem initializePopulation_valid (f : FitnessFunction) (fuel : Nat) (ga ga1 : PlacementGA)
    (h : initializePopulation f fuel ga = some ga1) :
    ∀ c ∈ ga1.population, c.isValid = true := by
  unfold initializePopulation at h
  simp only at h
  split at h
  · simp at h
  · rename_i population rng3 regenerated _
    split at h
    · simp at h
    · rename_i hver
      simp only [Option.some.injEq] at h
      subst h
      simp only [verifyPopulationValidity, Bool.not_eq_true, Bool.not_eq_false'] at hver
      exact List.all_eq_true.1 (by simpa using hver)

/-- The offspring loop calls the fitness function on valid chromosomes only: replacing
it by a function that agrees with it on valid chromosomes does not change the loop. -/
theorem breed_congr (f g : FitnessFunction)
    (hg : ∀ c r, c.isValid = true → g c r = f c r) (fuel : Nat) :
    ∀ (n : Nat) (newPop : List PlacementChromosome) (ga : PlacementGA),
      breed g fuel n newPop ga = breed f fuel n newPop ga := by
  intro n
  induction n with
  | zero => intro newPop ga; rfl
  | succ n ih =>
    intro newPop ga
    simp only [breed]
    cases hp : produceOffspring fuel ga with
    | none => rfl
    | some r =>
      obtain ⟨c, ga2⟩ := r
      have hv := (produceOffspring_sound fuel ga c ga2 hp).1
      simp only [hg c ga2.rng hv]
      exact ih _ _

theorem evolvePopulation_congr (f g : FitnessFunction)
    (hg : ∀ c r, c.isValid = true → g c r = f c r) (fuel : Nat) (ga : PlacementGA) :
    evolvePopulation g fuel ga = evolvePopulation f fuel ga := by
  unfold evolvePopulation
  simp only [breed_congr f g hg]

/-- C3: population validity is an invariant of the engine.  For a fitness function
that does not overwrite the genes of the chromosome it scores, every chromosome of the
population is valid after `initializePopulation` followed by any number of
`evolvePopulation` calls; and `evolvePopulation` applies the fitness function to valid
chromosomes only, every offspring returned by `produceOffspring` being valid and the
result of a generation not depending on what the function does on invalid ones. -/
theorem population_validity (f g : FitnessFunction)
    (hf : ∀ c r, (f c r).1.genes = c.genes)
    (hg : ∀ c r, c.isValid = true → g c r = f c r)
    (fuel n : Nat) (ga0 : PlacementGA) (pop : List PlacementChromosome)
    (h : ((initializePopulation f fuel ga0).bind (evolveTimes f fuel n)).map
      (fun ga => ga.population) = some pop) :
    (∀ c ∈ pop, c.isValid = true) ∧
    (∀ ga c ga1, produceOffspring fuel ga = some (c, ga1) → c.isValid = true) ∧
    (∀ ga, evolvePopulation g fuel ga = evolvePopulation f fuel ga) := by
  refine ⟨?_, fun ga c ga1 hp => (produceOffspring_sound fuel ga c ga1 hp).1,
    evolvePopulation_congr f g hg fuel⟩
  cases hi : initializePopulation f fuel ga0 with
  | none => rw [hi] at h; simp at h
  | some ga1 =>
    rw [hi] at h
    simp only [Option.some_bind] at h
    cases he : evolveTimes f fuel n ga1 with
    | none => rw [he] at h; simp at h
    | some ga2 =>
      rw [he] at h
      simp only [Option.map_some', Option.some.injEq] at h
      subst h
      exact evolveTimes_valid f hf fuel n ga1 ga2 he
        (initializePopulation_valid f fuel ga0 ga1 hi)

/-- Witness for C3: an engine of two chromosomes initialised through the second branch
and evolved for one generation. -/
theorem population_validity_witness :
    ((initializePopulation plainRowFitness 1 (exampleGA (tableDraws legacyDraws))).bind
        (evolveTimes plainRowFitness 1 1)).map (fun ga => ga.population)
      = some [{ genes := spacedExampleGenes, fitness := 0 },
              { genes := spacedExampleGenes, fitness := 0 }] ∧
    ((∀ c ∈ [{ genes := spacedExampleGenes, fitness := 0 },
              ({ genes := spacedExampleGenes, fitness := 0 } : PlacementChromosome)],
        c.isValid = true) ∧
      (∀ ga c ga1, produceOffspring 1 ga = some (c, ga1) → c.isValid = true) ∧
      (∀ ga, evolvePopulation rowFitness 1 ga = evolvePopulation plainRowFitness 1 ga)) :=
  ⟨by decide!, population_validity plainRowFitness rowFitness (fun _ _ => rfl)
    (fun c r hc => by simp [rowFitness, plainRowFitness, hc]) 1 1
    (exampleGA (tableDraws legacyDraws)) _ (by decide!)⟩

/-! ## Population size -/

theorem legacyInitial_length (f : FitnessFunction) (fuel : Nat) :
    ∀ (n : Nat) (population : List PlacementChromosome) (rng : RNG) (r : Int)
      (out : List PlacementChromosome) (rng1 : RNG) (r1 : Int),
      legacyInitial f fuel n population rng r = some (out, rng1, r1) →
      out.length = population.length + n := by
  intro n
  induction n with
  | zero =>
    intro population rng r out rng1 r1 h
    simp only [legacyInitial, Option.some.injEq, Prod.mk.injEq] at h
    rw [← h.1]; rfl
  | succ n ih =>
    intro population rng r out rng1 r1 h
    simp only [legacyInitial] at h
    split at h
    · simp at h
    · split at h
      · simp at h
      · have := ih _ _ _ _ _ _ h
        simp only [List.length_append, List.length_singleton] at this
        omega

theorem scoreInitial_length (f : FitnessFunction) (fuel : Nat) :
    ∀ (l : List PlacementChromosome) (rng : RNG) (r : Int)
      (out : List PlacementChromosome) (rng1 : RNG) (r1 : Int),
      scoreInitial f fuel l rng r = some (out, rng1, r1) → out.length = l.length := by
  intro l
  induction l with
  | nil =>
    intro rng r out rng1 r1 h
    simp only [scoreInitial, Option.some.injEq, Prod.mk.injEq] at h
    rw [← h.1]
  | cons c rest ih =>
    intro rng r out rng1 r1 h
    simp only [scoreInitial] at h
    split at h
    · simp at h
    · split at h
      · simp at h
      · rename_i rest1 rng3 r3 hs
        simp only [Option.some.injEq, Prod.mk.injEq] at h
        rw [← h.1]
        simp [ih _ _ _ _ _ hs]

theorem generatePopulationLoop1_length (maxTries : Int) (fuel n : Nat) :
    ∀ (k : Nat) (seen : List (List Int)) (pop : List PlacementChromosome) (rng : RNG)
      (seen1 : List (List Int)) (out : List PlacementChromosome) (rng1 : RNG),
      generatePopulationLoop1 maxTries fuel n k seen pop rng = some (seen1, out, rng1) →
      pop.length ≤ n → out.length ≤ n := by
  intro k
  induction k with
  | zero =>
    intro seen pop rng seen1 out rng1 h hle
    simp only [generatePopulationLoop1, Option.some.injEq, Prod.mk.injEq] at h
    rw [← h.2.1]; exact hle
  | succ k ih =>
    intro seen pop rng seen1 out rng1 h hle
    simp only [generatePopulationLoop1] at h
    split at h
    · rename_i hlt
      split at h
      · simp at h
      · split at h
        · exact ih _ _ _ _ _ _ h hle
        · split at h
          · exact ih _ _ _ _ _ _ h (by simp; omega)
          · exact ih _ _ _ _ _ _ h hle
    · simp only [Option.some.injEq, Prod.mk.injEq] at h
      rw [← h.2.1]; exact hle

theorem generatePopulationLoop2_length (fuel n : Nat) :
    ∀ (k : Nat) (seen : List (List Int)) (pop : List PlacementChromosome) (rng : RNG)
      (out : List PlacementChromosome) (rng1 : RNG),
      generatePopulationLoop2 fuel n k seen pop rng = some (out, rng1) →
      pop.length ≤ n → out.length ≤ n := by
  intro k
  induction k with
  | zero =>
    intro seen pop rng out rng1 h hle
    simp only [generatePopulationLoop2, Option.some.injEq, Prod.mk.injEq] at h
    rw [← h.1]; exact hle
  | succ k ih =>
    intro seen pop rng out rng1 h hle
    simp only [generatePopulationLoop2] at h
    split at h
    · rename_i hlt
      split at h
      · simp at h
      · split at h
        · exact ih _ _ _ _ _ h (by simp; omega)
        · exact ih _ _ _ _ _ h hle
    · simp only [Option.some.injEq, Prod.mk.injEq] at h
      rw [← h.1]; exact hle

theorem generatePopulation_length (maxTries : Int) (fuel n : Nat) (rng : RNG)
    (out : List PlacementChromosome) (rng1 : RNG)
    (h : generatePopulation maxTries fuel n rng = some (out, rng1)) : out.length ≤ n := by
  unfold generatePopulation at h
  split at h
  · simp at h
  · rename_i seen pop rng2 h1
    have hp := generatePopulationLoop1_length maxTries fuel n _ _ _ _ _ _ _ h1 (by simp)
    exact generatePopulationLoop2_length fuel n _ _ _ _ _ _ h hp

theorem initializePopulation_length (f : FitnessFunction) (fuel : Nat) (ga ga1 : PlacementGA)
    (h : initializePopulation f fuel ga = some ga1) :
    ga1.population.length ≤ ga.populationSize ∧
    (takesGeneratorBranch ga = false → ga1.population.length = ga.populationSize) := by
  unfold takesGeneratorBranch
  unfold initializePopulation at h
  simp only at h
  split at h
  · simp at h
  · rename_i population rng3 regenerated hb
    split at h
    · simp at h
    · simp only [Option.some.injEq] at h
      have hp : ga1.population = population := by rw [← h]
      rw [hp]
      generalize (ga.rng.chance 700).1 = cv at hb ⊢
      cases cv
      · rw [if_neg Bool.false_ne_true] at hb
        have := legacyInitial_length f fuel _ _ _ _ _ _ _ hb
        simp only [List.length_nil, Nat.zero_add] at this
        exact ⟨by omega, fun _ => this⟩
      · rw [if_pos rfl] at hb
        split at hb
        · simp at hb
        · rename_i initialPopulation rng2 hg
          have h1 := generatePopulation_length 50 fuel _ _ _ _ hg
          have h2 := scoreInitial_length f fuel _ _ _ _ _ _ hb
          exact ⟨by omega, fun hc => absurd hc (by simp)⟩

set_option maxRecDepth 1000000 in
/-- C4 (as stated, refuted): with `populationSize = 2` and draws on which every
generated chromosome is the same, `initializePopulation` takes the generator branch,
`generatePopulation` finds one unique chromosome in its 20 + 20 attempts, and the
population holds one chromosome. -/
theorem initializePopulation_short :
    (initializePopulation rowFitness 1 (exampleGA repeatingDraws)).map
      (fun ga => (ga.population.length, ga.populationSize)) = some (1, 2) := by
  decide!

/-- C4 (amended): immediately after `initializePopulation` the population holds at most
`populationSize` chromosomes, and exactly `populationSize` when the second
(per-individual) branch was taken; after every completed `evolvePopulation` of an engine
with `eliteCount ≤ populationSize` it holds exactly `populationSize` chromosomes. -/
theorem population_size (f : FitnessFunction) (fuel : Nat) (ga ga1 : PlacementGA)
    (m m1 : Nat)
    (hi : (initializePopulation f fuel ga).map (fun g => g.population.length) = some m)
    (hk : ga1.eliteCount ≤ ga1.populationSize)
    (he : (evolvePopulation f fuel ga1).map (fun r => r.2.population.length) = some m1) :
    m ≤ ga.populationSize ∧
    (takesGeneratorBranch ga = false → m = ga.populationSize) ∧
    m1 = ga1.populationSize := by
  refine ⟨?_, ?_, ?_⟩
  · cases h : initializePopulation f fuel ga with
    | none => rw [h] at hi; simp at hi
    | some g =>
      rw [h] at hi
      simp only [Option.map_some', Option.some.injEq] at hi
      rw [← hi]
      exact (initializePopulation_length f fuel ga g h).1
  · cases h : initializePopulation f fuel ga with
    | none => rw [h] at hi; simp at hi
    | some g =>
      rw [h] at hi
      simp only [Option.map_some', Option.some.injEq] at hi
      rw [← hi]
      exact (initializePopulation_length f fuel ga g h).2
  · cases h : evolvePopulation f fuel ga1 with
    | none => rw [h] at he; simp at he
    | some r =>
      obtain ⟨best, ga2⟩ := r
      rw [h] at he
      simp only [Option.map_some', Option.some.injEq] at he
      obtain ⟨hle, offspring, _, _, hl, _, hs, _⟩ := evolvePopulation_spec f fuel ga1 best ga2 h
      rw [← he, hs]
      simp only [sortByFitness, List.length_insertionSort, List.length_append,
        List.length_take, hl]
      omega

set_option maxRecDepth 1000000 in
/-- Witness for C4 (amended): initialisation through the second branch gives two
chromosomes, and one generation on `examplePopulation` gives two again. -/
theorem population_size_witness :
    (initializePopulation rowFitness 1 (exampleGA (tableDraws legacyDraws))).map
      (fun g => g.population.length) = some 2 ∧
    takesGeneratorBranch (exampleGA (tableDraws legacyDraws)) = false ∧
    (evolvePopulation rowFitness 1
        { exampleGA (tableDraws [1, 1, 999, 999]) with population := examplePopulation }).map
      (fun r => r.2.population.length) = some 2 ∧
    (2 ≤ (exampleGA (tableDraws legacyDraws)).populationSize ∧
     (takesGeneratorBranch (exampleGA (tableDraws legacyDraws)) = false →
       2 = (exampleGA (tableDraws legacyDraws)).populationSize) ∧
     2 = ({ exampleGA (tableDraws [1, 1, 999, 999]) with
            population := examplePopulation } : PlacementGA).populationSize) :=
  ⟨by decide!, by decide!, by decide!,
    population_size rowFitness 1 (exampleGA (tableDraws legacyDraws))
      { exampleGA (tableDraws [1, 1, 999, 999]) with population := examplePopulation } 2 2
      (by decide!) (by decide) (by decide!)⟩

/-! ## Elitism -/

set_option maxRecDepth 1000000 in
/-- C5 (the code at the failing input): `initializePopulation` leaves the population in
generation order, here `[spaced (fitness 0), shifted (fitness 1)]`; with
`eliteCount = 1` the elite copy of `evolvePopulation` takes the first chromosome, of
fitness 0, and the chromosome of highest fitness does not occur in the new population. -/
theorem elite_copy_misses_best :
    (initializePopulation rowFitness 1 (exampleGA (tableDraws legacyDraws))).map
      (fun ga => ga.population) = some examplePopulation ∧
    (∀ c ∈ examplePopulation, c.fitness ≤ 1) ∧
    ((initializePopulation rowFitness 1 (exampleGA (tableDraws legacyDraws))).bind
        (evolvePopulation rowFitness 1)).map (fun r => r.2.population)
      = some [{ genes := spacedExampleGenes, fitness := 0 },
              { genes := spacedExampleGenes, fitness := 0 }] ∧
    ({ genes := shiftedExampleGenes, fitness := 1 } : PlacementChromosome) ∉
      [{ genes := spacedExampleGenes, fitness := 0 },
       ({ genes := spacedExampleGenes, fitness := 0 } : PlacementChromosome)] := by
  refine ⟨by decide!, by decide, by decide!, by decide⟩

/-! ## The validity predicate -/

/-- C7: for every 30-gene genome the validity test of the code agrees with the reference
definition: orientation genes are bits, every ship is inside the 10x10 grid, and no cell
of one ship is equal to or at Chebyshev distance 1 from a cell of another ship. -/
theorem isValid_iff_validSpec (g : List Int) (h : g.length = 30) :
    (PlacementChromosome.isValid { genes := g } = true) ↔ ValidSpec g := by
  show isValidGenes g = true ↔ ValidSpec g
  rw [isValidGenes_iff g h]
  unfold ValidSpec
  simp only [List.mem_range]
  constructor
  · rintro ⟨hs, hp⟩
    refine ⟨fun i hi => ((ship_ok_iff g i hi).1 (hs i hi)).1,
      fun i hi => ((ship_ok_iff g i hi).1 (hs i hi)).2, ?_⟩
    intro i hi j hj hij
    rw [specShipCells_eq g i hi, specShipCells_eq g j hj]
    apply (apart_iff_spec _ _).1
    rcases Nat.lt_or_gt_of_ne hij with hlt | hgt
    · exact hp i j hlt hj
    · exact apart_symm _ _ (hp j i hgt hi)
  · rintro ⟨ho, hc, hp⟩
    refine ⟨fun i hi => (ship_ok_iff g i hi).2 ⟨ho i hi, hc i hi⟩, ?_⟩
    intro i j hij hj
    have hi : i < 10 := by omega
    apply (apart_iff_spec _ _).2
    rw [← specShipCells_eq g i hi, ← specShipCells_eq g j hj]
    exact hp i hi j hj (by omega)

/-- Witness for C7 at a genome whose ships are spaced one cell apart. -/
theorem isValid_iff_validSpec_witness :
    spacedExampleGenes.length = 30 ∧
    ((PlacementChromosome.isValid { genes := spacedExampleGenes } = true) ↔
      ValidSpec spacedExampleGenes) :=
  ⟨by decide, isValid_iff_validSpec spacedExampleGenes (by decide)⟩

/-- C8 (as stated, refuted): the example genome of the specification is rejected by the
validity test; ship 0 occupies (0..3, 0) and ship 1 occupies (2..4, 0). -/
theorem specExample_not_valid :
    ¬ (PlacementChromosome.isValid { genes := specExampleGenes } = true) := by
  decide

/-- C8 (amended): the example genome of the specification is not valid, its ships 0 and 1
share the cell (2, 0); with the origins moved to keep a free cell between ships,
(0,0),(5,0),(0,2),(4,2),(7,2),(0,4),(3,4),(5,4),(7,4),(9,4), the genome is valid. -/
theorem spacedExample_valid :
    (⟨2, 0⟩ : Cell) ∈ (shipAt specExampleGenes 0).getAllCells ∧
    (⟨2, 0⟩ : Cell) ∈ (shipAt specExampleGenes 1).getAllCells ∧
    PlacementChromosome.isValid { genes := specExampleGenes } = false ∧
    PlacementChromosome.isValid { genes := spacedExampleGenes } = true := by
  decide

/-! ## Crossover and validity, mutation frame -/

/-- C11: crossover does not preserve validity.  The two parents `spacedExampleGenes` and
`shiftedExampleGenes` are valid; on the draws 0 (one swap) and 1 (ship 1) the child
takes ship 1 of parent 2, which touches ship 3 of parent 1, and is not valid. -/
theorem crossover_breaks_validity :
    ∃ (p1 p2 : PlacementChromosome) (rng : RNG),
      p1.isValid = true ∧ p2.isValid = true ∧ (crossover p1 p2 rng).1.isValid = false :=
  ⟨{ genes := spacedExampleGenes }, { genes := shiftedExampleGenes }, ⟨tableDraws [0, 1], 0⟩,
    by decide!, by decide!, by decide!⟩

theorem triple_set_other (g : List Int) (k i j : Nat) (v : Int) (hj : j < 3) (hik : i ≠ k) :
    triple (g.set (3 * k + j) v) i = triple g i := by
  simp only [triple, getD_set_int]
  have e1 : ¬ (3 * k + j = 3 * i) := by omega
  have e2 : ¬ (3 * k + j = 3 * i + 1) := by omega
  have e3 : ¬ (3 * k + j = 3 * i + 2) := by omega
  simp [e1, e2, e3]

/-- The genes written by `mutate` differ from the old ones in the triple of the chosen
ship only. -/
theorem mutate_frame (c : PlacementChromosome) (rng : RNG) :
    ∃ k, k < 10 ∧ ∀ i, i ≠ k → triple (mutate c rng).1.genes i = triple c.genes i := by
  have hr := uniformInt_range rng 0 9 (by omega)
  refine ⟨(rng.uniformInt 0 9).1.toNat, by omega, ?_⟩
  intro i hi
  have hidx : ((rng.uniformInt 0 9).1 * 3).toNat = 3 * (rng.uniformInt 0 9).1.toNat := by omega
  have t0 := fun g v => triple_set_other g (rng.uniformInt 0 9).1.toNat i 0 v (by omega) hi
  have t1 := fun g v => triple_set_other g (rng.uniformInt 0 9).1.toNat i 1 v (by omega) hi
  have t2 := fun g v => triple_set_other g (rng.uniformInt 0 9).1.toNat i 2 v (by omega) hi
  simp only [Nat.add_zero] at t0
  simp only [mutate, hidx]
  split_ifs <;> simp only [t0, t1, t2]

/-- C12 (as stated, refuted): a micro-shift whose two offsets are drawn as 0 changes no
ship: on the draws 0 (ship 0), 0 (micro-shift), 1 and 1 (`dx = dy = 0`) the genome
`spacedExampleGenes` comes back unchanged. -/
theorem mutate_changes_none :
    ¬ ((changedShips (mutate { genes := spacedExampleGenes }
        ⟨tableDraws [0, 0, 1, 1], 0⟩).1.genes spacedExampleGenes).length = 1) := by
  decide!

/-- C12 (amended): for every genome and all draws `mutate` rewrites the gene triple of
one chosen ship only: the triples of the other nine ships are unchanged, so at most one
ship triple is changed (none when the rewritten triple equals the old one), and the
statistics of the chromosome are untouched. -/
theorem mutate_one_ship (c : PlacementChromosome) (rng : RNG) :
    (∃ k, k < 10 ∧ ∀ i, i ≠ k → triple (mutate c rng).1.genes i = triple c.genes i) ∧
    (changedShips (mutate c rng).1.genes c.genes).length ≤ 1 ∧
    (mutate c rng).1.fitness = c.fitness := by
  obtain ⟨k, hk, hframe⟩ := mutate_frame c rng
  refine ⟨⟨k, hk, hframe⟩, ?_, ?_⟩
  · have hsub : changedShips (mutate c rng).1.genes c.genes ⊆ [k] := by
      intro i hi
      simp only [changedShips, List.mem_filter, decide_eq_true_eq] at hi
      by_contra hc
      exact hi.2 (hframe i (by simpa using hc))
    have hnd : (changedShips (mutate c rng).1.genes c.genes).Nodup :=
      (List.nodup_range 10).filter _
    simpa using (List.subperm_of_subset hnd hsub).length_le
  · simp only [mutate]
    split_ifs <;> rfl

/-! ## Weight genomes: crossover and mutation -/

theorem getD_replicate_zero (n i : Nat) : (List.replicate n (0 : Rat)).getD i 0 = 0 := by
  simp only [List.getD_eq_getElem?_getD, List.getElem?_replicate]
  split_ifs <;> rfl

theorem ofGenes_weights (genes : List Rat) (c : DecisionChromosome)
    (h : DecisionChromosome.ofGenes genes = some c) :
    c.weights = List.replicate 20 0 ∧ c.getGenes = genes ∧ genes.length = 20 := by
  unfold DecisionChromosome.ofGenes at h
  split_ifs at h with hl
  simp only [Option.some.injEq] at h
  subst h
  exact ⟨rfl, rfl, by simpa [DECISION_GENES] using hl⟩

/-- What the code does for parents built by the vector constructor: the blend loop
reads the public arrays `weights`, which that constructor leaves at zero, so every
gene of the child is 0 whatever the genes of the parents and the coefficient are. -/
theorem crossoverWith_zero (alpha : Rat) (genesA genesB : List Rat)
    (a b : DecisionChromosome) (ha : DecisionChromosome.ofGenes genesA = some a)
    (hb : DecisionChromosome.ofGenes genesB = some b) :
    ∃ child, DecisionGA.crossoverWith alpha a b = some child ∧
      child.getGenes = List.replicate 20 0 := by
  obtain ⟨hwa, _, _⟩ := ofGenes_weights genesA a ha
  obtain ⟨hwb, _, _⟩ := ofGenes_weights genesB b hb
  have hmap : (List.range DECISION_GENES).map (fun (i : Nat) =>
      alpha * a.weights.getD i 0 + (1 - alpha) * b.weights.getD i 0)
      = List.replicate 20 0 := by
    rw [hwa, hwb]
    simp only [getD_replicate_zero, mul_zero, add_zero, DECISION_GENES]
    rfl
  refine ⟨{ DecisionChromosome.fresh with m_genes := List.replicate 20 0 }, ?_, rfl⟩
  unfold DecisionGA.crossoverWith
  rw [hmap]
  simp [hwa, hwb, DECISION_GENES, DecisionChromosome.ofGenes]

/-- C13 (the code at the failing input): for parents built by the vector constructor
from the weights 1,...,1 and 3,...,3 and the coefficient 1/2, the child returned by
`crossover` has the genes 0,...,0, whereas `alpha * A[i] + (1 - alpha) * B[i]` is 2. -/
theorem crossover_reads_zero_weights :
    ∃ a b child, constantWeights 1 = some a ∧ constantWeights 3 = some b ∧
      DecisionGA.crossoverWith (1 / 2) a b = some child ∧
      child.getGenes = List.replicate 20 0 ∧
      child.getGenes.getD 0 0 ≠ (1 / 2) * a.getGenes.getD 0 0 + (1 - 1 / 2) * b.getGenes.getD 0 0 := by
  have ha : constantWeights 1 = some { DecisionChromosome.fresh with m_genes := List.replicate 20 1 } := by
    simp [constantWeights, DecisionChromosome.ofGenes, DECISION_GENES]
  have hb : constantWeights 3 = some { DecisionChromosome.fresh with m_genes := List.replicate 20 3 } := by
    simp [constantWeights, DecisionChromosome.ofGenes, DECISION_GENES]
  obtain ⟨child, hc, hg⟩ := crossoverWith_zero (1 / 2) _ _ _ _ ha hb
  refine ⟨_, _, child, ha, hb, hc, hg, ?_⟩
  rw [hg]
  simp only [DecisionChromosome.getGenes, List.replicate, List.getD_cons_zero]
  norm_num

/-- What the code does to the weight vector read by `getGenes()`: `mutate` adds the
noise to the public array `weights` and clamps it there; `m_genes` is not written. -/
theorem mutateWith_genes (ga : DecisionGA) (noise : Nat → Rat) (genes : List Rat)
    (c : DecisionChromosome) (hc : DecisionChromosome.ofGenes genes = some c) :
    ∃ c1, ga.mutateWith noise c = some c1 ∧ c1.getGenes = genes ∧
      c1.weights = (List.range 20).map fun (i : Nat) =>
        clampRat (noise i) (-ga.weightBound) ga.weightBound := by
  obtain ⟨hw, hg, _⟩ := ofGenes_weights genes c hc
  let w : List Rat := (List.range DECISION_GENES).map fun (i : Nat) =>
    clampRat (c.weights.getD i 0 + noise i) (-ga.weightBound) ga.weightBound
  refine ⟨{ c with weights := w }, ?_, hg, ?_⟩
  · unfold DecisionGA.mutateWith
    rw [if_neg (by simp [hw, DECISION_GENES])]
  · simp only [w, hw, getD_replicate_zero, zero_add, DECISION_GENES]

/-- C14 (the code at the failing input): for the genome built from the weights 0,...,0,
noise 1 for every weight and bound 5, `getGenes()` after `mutate` is still 0,...,0,
whereas `clamp(g_i + n_i, -B, B)` is 1; and for the genome built from 9,...,9 with
noise 0 the weights read by the evaluator stay at 9, outside `[-5, 5]`. -/
theorem mutate_leaves_genes :
    ∃ ga c c1 d d1, defaultDecisionGA = some ga ∧ ga.weightBound = 5 ∧
      constantWeights 0 = some c ∧ ga.mutateWith (fun _ => 1) c = some c1 ∧
      c1.getGenes = List.replicate 20 0 ∧
      c1.getGenes.getD 0 0 ≠ clampRat (c.getGenes.getD 0 0 + 1) (-5) 5 ∧
      constantWeights 9 = some d ∧ ga.mutateWith (fun _ => 0) d = some d1 ∧
      d1.getGenes = List.replicate 20 9 ∧ ¬ (d1.getGenes.getD 0 0 ≤ 5) := by
  have hga : defaultDecisionGA = some
      { populationSize := 150, crossoverRate := 8 / 10, mutationRate := 3 / 10,
        tournamentSize := 3, eliteCount := 2, initialSigma := 2 / 10, finalSigma := 1 / 100,
        weightBound := 5, currentGeneration := 0, population := [] } := by
    simp only [defaultDecisionGA, DecisionGA.create]
    norm_num
  have hc : constantWeights 0 = some { DecisionChromosome.fresh with m_genes := List.replicate 20 0 } := by
    simp [constantWeights, DecisionChromosome.ofGenes, DECISION_GENES]
  have hd : constantWeights 9 = some { DecisionChromosome.fresh with m_genes := List.replicate 20 9 } := by
    simp [constantWeights, DecisionChromosome.ofGenes, DECISION_GENES]
  obtain ⟨c1, hm, hg, _⟩ := mutateWith_genes _ (fun _ => 1) _ _ hc
  obtain ⟨d1, hm2, hg2, _⟩ := mutateWith_genes _ (fun _ => 0) _ _ hd
  refine ⟨_, _, c1, _, d1, hga, rfl, hc, hm, hg, ?_, hd, hm2, hg2, ?_⟩
  · rw [hg]
    simp only [DecisionChromosome.getGenes, List.replicate, List.getD_cons_zero, clampRat]
    norm_num
  · rw [hg2]
    simp only [List.replicate, List.getD_cons_zero]
    norm_num

/-! ## Sigma annealing -/

/-- C15: in exact arithmetic `calculateMutationSigma(g)` is the annealing formula of the
specification with horizon 100, `s0 - (s0 - smin) * clamp(g / 100, 0, 1)`; it equals `s0`
for every `g ≤ 0` and `smin` for every `g ≥ 100`. -/
theorem calculateMutationSigma_formula (ga : DecisionGA) (g : Int) :
    ga.calculateMutationSigma g = specSigma ga.initialSigma ga.finalSigma g ∧
    (g ≤ 0 → ga.calculateMutationSigma g = ga.initialSigma) ∧
    (100 ≤ g → ga.calculateMutationSigma g = ga.finalSigma) := by
  have hq : ((100 : Int) : Rat) = 100 := by norm_num
  refine ⟨?_, ?_, ?_⟩
  · simp only [DecisionGA.calculateMutationSigma, specSigma, specClamp, hq]
    congr 2
    rcases le_total ((g : Rat) / 100) 0 with h | h
    · rw [max_eq_left h, min_eq_right (by linarith), min_eq_left (by linarith), max_eq_left h]
    · rw [max_eq_right h]
      rcases le_total ((g : Rat) / 100) 1 with h1 | h1
      · rw [min_eq_right h1, min_eq_left h1, max_eq_right h]
      · rw [min_eq_left h1, min_eq_right h1, max_eq_right (by norm_num)]
  · intro hg
    have h : (g : Rat) / 100 ≤ 0 := by
      have : (g : Rat) ≤ 0 := by exact_mod_cast hg
      linarith
    simp only [DecisionGA.calculateMutationSigma, hq]
    rw [max_eq_left h, min_eq_right (by norm_num)]
    ring
  · intro hg
    have h : 1 ≤ (g : Rat) / 100 := by
      have : (100 : Rat) ≤ (g : Rat) := by exact_mod_cast hg
      linarith
    simp only [DecisionGA.calculateMutationSigma, hq]
    rw [max_eq_right (by linarith), min_eq_left h]
    ring

theorem progress_mono (g g1 : Int) (h : g ≤ g1) :
    min (1 : Rat) (max 0 ((g : Rat) / ((100 : Int) : Rat))) ≤
      min (1 : Rat) (max 0 ((g1 : Rat) / ((100 : Int) : Rat))) := by
  have hq : ((100 : Int) : Rat) = 100 := by norm_num
  have hc : (g : Rat) ≤ (g1 : Rat) := by exact_mod_cast h
  have hd : (g : Rat) / 100 ≤ (g1 : Rat) / 100 := by linarith
  rw [hq]
  exact min_le_min le_rfl (max_le_max le_rfl hd)

/-- C16 (as stated, refuted): the constructor accepts `initialSigma = 0`,
`finalSigma = 1` (both are non-negative), and for that engine sigma rises from 0 at
generation 0 to 1 at generation 100. -/
theorem sigma_can_increase :
    ∃ ga, risingSigmaGA = some ga ∧
      ¬ (ga.calculateMutationSigma 100 ≤ ga.calculateMutationSigma 0) := by
  have hga : risingSigmaGA = some
      { populationSize := 150, crossoverRate := 8 / 10, mutationRate := 3 / 10,
        tournamentSize := 3, eliteCount := 2, initialSigma := 0, finalSigma := 1,
        weightBound := 5, currentGeneration := 0, population := [] } := by
    simp only [risingSigmaGA, DecisionGA.create]
    norm_num
  refine ⟨_, hga, ?_⟩
  · simp only [DecisionGA.calculateMutationSigma]
    norm_num

/-- C16 (amended): for every configuration with `finalSigma ≤ initialSigma` and all
generations `g ≤ g'`, `calculateMutationSigma(g') ≤ calculateMutationSigma(g)`. -/
theorem sigma_nonincreasing (ga : DecisionGA) (hs : ga.finalSigma ≤ ga.initialSigma)
    (g g1 : Int) (h : g ≤ g1) :
    ga.calculateMutationSigma g1 ≤ ga.calculateMutationSigma g := by
  have hp := progress_mono g g1 h
  simp only [DecisionGA.calculateMutationSigma]
  have hd : 0 ≤ ga.initialSigma - ga.finalSigma := by linarith
  nlinarith [mul_le_mul_of_nonneg_left hp hd]

/-- Witness for C16 (amended): the default engine, generations 10 and 50. -/
theorem sigma_nonincreasing_witness :
    ∃ ga, defaultDecisionGA = some ga ∧ ga.finalSigma ≤ ga.initialSigma ∧ (10 : Int) ≤ 50 ∧
      ga.calculateMutationSigma 50 ≤ ga.calculateMutationSigma 10 := by
  have hga : defaultDecisionGA = some
      { populationSize := 150, crossoverRate := 8 / 10, mutationRate := 3 / 10,
        tournamentSize := 3, eliteCount := 2, initialSigma := 2 / 10, finalSigma := 1 / 100,
        weightBound := 5, currentGeneration := 0, population := [] } := by
    simp only [defaultDecisionGA, DecisionGA.create]
    norm_num
  have hs : ((1 : Rat) / 100) ≤ 2 / 10 := by norm_num
  exact ⟨_, hga, hs, by norm_num, sigma_nonincreasing _ hs 10 50 (by norm_num)⟩

/-! ## Fitness formulas -/

/-- C17: in exact arithmetic `calculateDecisionFitness(m, s) = -m + s / 10`, which is
`-49.5` for `m = 50`, `s = 5`; the overload that takes the chromosome gives the same
value whenever both arguments are non-zero, and never depends on the weights. -/
theorem calculateDecisionFitness_formula (m s : Rat) (c : DecisionChromosome)
    (w genes : List Rat) :
    calculateDecisionFitness m s = -m + s / 10 ∧
    calculateDecisionFitness 50 5 = -(99 / 2) ∧
    (m ≠ 0 → s ≠ 0 → calculateDecisionFitnessOf c m s = -m + s / 10) ∧
    calculateDecisionFitnessOf { c with weights := w, m_genes := genes } m s
      = calculateDecisionFitnessOf c m s := by
  refine ⟨?_, ?_, ?_, rfl⟩
  · simp only [calculateDecisionFitness]; ring
  · simp only [calculateDecisionFitness]; norm_num
  · intro hm hs
    simp only [calculateDecisionFitnessOf, hm, hs, if_false]
    ring

/-- C18 (the code at the failing input): with mean 50 the fitness for standard
deviation 0 is -50 and for standard deviation 5 it is -49.5, so the steadier result
scores lower; in general the fitness grows strictly with the standard deviation. -/
theorem fitness_rewards_variance :
    calculateDecisionFitness 50 0 = -50 ∧ calculateDecisionFitness 50 5 = -(99 / 2) ∧
    ¬ (calculateDecisionFitness 50 0 ≥ calculateDecisionFitness 50 5) ∧
    ∀ m s1 s2 : Rat, s1 < s2 → calculateDecisionFitness m s1 < calculateDecisionFitness m s2 := by
  refine ⟨?_, ?_, ?_, ?_⟩
  · simp only [calculateDecisionFitness]; norm_num
  · simp only [calculateDecisionFitness]; norm_num
  · simp only [calculateDecisionFitness]; norm_num
  · intro m s1 s2 h
    simp only [calculateDecisionFitness]
    linarith

/-- C19 (the code at the failing input): for the valid genome `spacedExampleGenes` and
the means 10, 0, 0 the code returns 2 (weights 0.20, 0.40, 0.40), whereas the formula
documented in `fitness.h`, `0.40 m1 + 0.30 m2 + 0.30 m3`, gives 4; in general the code
returns `0.20 m1 + 0.40 m2 + 0.40 m3` for a valid genome. -/
theorem placement_fitness_weights :
    PlacementChromosome.isValid { genes := spacedExampleGenes } = true ∧
    calculatePlacementFitness { genes := spacedExampleGenes } 10 0 0 = 2 ∧
    documentedPlacementFitness 10 0 0 = 4 ∧
    ∀ (c : PlacementChromosome) (m1 m2 m3 : Rat), c.isValid = true →
      calculatePlacementFitness c m1 m2 m3 = m1 / 5 + 2 * m2 / 5 + 2 * m3 / 5 := by
  have hv : PlacementChromosome.isValid { genes := spacedExampleGenes } = true := by decide!
  refine ⟨hv, ?_, ?_, ?_⟩
  · simp only [calculatePlacementFitness, hv]
    norm_num
  · simp only [documentedPlacementFitness]
    norm_num
  · intro c m1 m2 m3 hc
    simp only [calculatePlacementFitness, hc]
    norm_num
    ring

/-- C20: for every genome that is not valid `calculatePlacementFitness` returns -1000
whatever the three means are, and that is strictly below the value returned for any
valid genome with non-negative means. -/
theorem invalid_gets_sentinel (c v : PlacementChromosome) (m1 m2 m3 n1 n2 n3 : Rat)
    (hc : c.isValid = false) (hv : v.isValid = true)
    (h1 : 0 ≤ n1) (h2 : 0 ≤ n2) (h3 : 0 ≤ n3) :
    calculatePlacementFitness c m1 m2 m3 = -1000 ∧
    calculatePlacementFitness c m1 m2 m3 < calculatePlacementFitness v n1 n2 n3 := by
  have e1 : calculatePlacementFitness c m1 m2 m3 = -1000 := by
    simp only [calculatePlacementFitness, hc]
    rfl
  refine ⟨e1, ?_⟩
  rw [e1]
  simp only [calculatePlacementFitness, hv]
  norm_num
  nlinarith

/-- Witness for C20: the overlapping example genome against the spaced one. -/
theorem invalid_gets_sentinel_witness :
    PlacementChromosome.isValid { genes := specExampleGenes } = false ∧
    PlacementChromosome.isValid { genes := spacedExampleGenes } = true ∧
    calculatePlacementFitness { genes := specExampleGenes } 60 55 50 = -1000 ∧
    calculatePlacementFitness { genes := specExampleGenes } 60 55 50
      < calculatePlacementFitness { genes := spacedExampleGenes } 0 0 0 :=
  ⟨by decide!, by decide!,
    invalid_gets_sentinel { genes := specExampleGenes } { genes := spacedExampleGenes }
      60 55 50 0 0 0 (by decide!) (by decide!) (le_refl 0) (le_refl 0) (le_refl 0)⟩


/-! ## Construction and queries of the engine -/

/-- C21: both constructors fail with an invalid-argument error whenever the population
size or the tournament size is not positive, a rate lies outside `[0, 1]` (for
`PlacementGA` the rates are in thousandths), or the elite count is negative or exceeds
the population size. -/
theorem constructors_reject (populationSize tournamentSize eliteCount : Int)
    (crossoverRate mutationRate : Int) (rng : RNG)
    (crossoverRateD mutationRateD initialSigma finalSigma weightBound : Rat)
    (hp : populationSize ≤ 0 ∨ tournamentSize ≤ 0 ∨
      crossoverRate < 0 ∨ crossoverRate > 1000 ∨ mutationRate < 0 ∨ mutationRate > 1000 ∨
      eliteCount < 0 ∨ eliteCount > populationSize)
    (hd : populationSize ≤ 0 ∨ tournamentSize ≤ 0 ∨
      crossoverRateD < 0 ∨ crossoverRateD > 1 ∨ mutationRateD < 0 ∨ mutationRateD > 1 ∨
      eliteCount < 0 ∨ eliteCount > populationSize) :
    PlacementGA.create populationSize crossoverRate mutationRate tournamentSize eliteCount rng
      = none ∧
    DecisionGA.create populationSize crossoverRateD mutationRateD tournamentSize eliteCount
      initialSigma finalSigma weightBound = none := by
  constructor
  · unfold PlacementGA.create
    simp only []
    split_ifs <;> first | rfl | (exfalso; omega)
  · unfold DecisionGA.create
    split_ifs with h1 h2 h3 h4 <;> first | rfl | (exfalso; push_neg at h1 h2 h3; rcases hd with h | h | h | h | h | h | h | h <;> first | omega | linarith [h2.1, h2.2.1, h2.2.2.1, h2.2.2.2])

/-- Witness for C21: an elite count of 3 with a population size of 2. -/
theorem constructors_reject_witness :
    PlacementGA.create 2 800 40 1 3 ⟨tableDraws [], 0⟩ = none ∧
    DecisionGA.create 2 (8 / 10) (3 / 10) 1 3 (2 / 10) (1 / 100) 5 = none :=
  constructors_reject 2 1 3 800 40 ⟨tableDraws [], 0⟩ (8 / 10) (3 / 10) (2 / 10) (1 / 100) 5
    (by decide) (by norm_num)

theorem foldl_fitness_sum (l : List PlacementChromosome) (a : Rat) :
    l.foldl (fun sum chromosome => sum + (chromosome.fitness : Rat)) a
      = a + (l.map (fun c => (c.fitness : Rat))).sum := by
  induction l generalizing a with
  | nil => simp
  | cons c rest ih => simp only [List.foldl_cons, ih, List.map_cons, List.sum_cons]; ring

/-- C22: on an empty population `getBestFitness`, `getAverageFitness`,
`getBestChromosome` and `selectParent` each raise; on a non-empty population (and a
tournament size of at least one, which the constructor enforces) each returns, and
`getAverageFitness` returns the sum of the fitness values divided by the population
size. -/
theorem population_queries (c : PlacementChromosome) (rest : List PlacementChromosome)
    (n : Nat) (rng : RNG) :
    getBestFitness [] = none ∧ getAverageFitness [] = none ∧ getBestChromosome [] = none ∧
    selectParent [] (n + 1) rng = none ∧
    (getBestFitness (c :: rest)).isSome = true ∧
    (getBestChromosome (c :: rest)).isSome = true ∧
    (selectParent (c :: rest) (n + 1) rng).isSome = true ∧
    getAverageFitness (c :: rest)
      = some (((c :: rest).map (fun x => (x.fitness : Rat))).sum
          / (((c :: rest).length : Nat) : Rat)) := by
  refine ⟨rfl, rfl, rfl, rfl, rfl, rfl, ?_, ?_⟩
  · obtain ⟨t, rng1, ht, hl, _⟩ := drawTournament_total (c :: rest) (by simp) (n + 1) rng
    unfold selectParent
    simp only [List.isEmpty_cons, Bool.false_eq_true, if_false, ht]
    cases t with
    | nil => simp at hl
    | cons a l => simp [maxElement]
  · unfold getAverageFitness
    simp only [List.isEmpty_cons, Bool.false_eq_true, if_false]
    rw [foldl_fitness_sum, zero_add]

/-- C27: on a chromosome that is valid `repair` returns `true` at once: the genes and
all statistics of the chromosome, the random source and the regeneration counter are
those it was called with. -/
theorem repair_noop (fuel : Nat) (c : PlacementChromosome) (rng : RNG) (regenerated : Int)
    (h : c.isValid = true) :
    repair fuel c rng regenerated = some (true, c, rng, regenerated) := by
  unfold repair
  rw [if_pos h]

/-- Witness for C27: `repair` on the valid chromosome `spacedChromosome`. -/
theorem repair_noop_witness :
    spacedChromosome.isValid = true ∧
    repair 0 spacedChromosome ⟨tableDraws [], 0⟩ 0
      = some (true, spacedChromosome, ⟨tableDraws [], 0⟩, 0) :=
  ⟨by decide!, repair_noop 0 spacedChromosome ⟨tableDraws [], 0⟩ 0 (by decide!)⟩

set_option maxRecDepth 1000000 in
/-- C30 (the code at the failing input): `initializePopulation` leaves the population
`[spaced (fitness 0), shifted (fitness 1)]`; `getBestFitness` returns the fitness 0 of
the first chromosome, while the maximum of the fitness values, which is the fitness of
`getBestChromosome`, is 1. -/
theorem getBestFitness_not_max :
    (initializePopulation rowFitness 1 (exampleGA (tableDraws legacyDraws))).map
      (fun ga => ga.population) = some examplePopulation ∧
    getBestFitness examplePopulation = some 0 ∧
    (getBestChromosome examplePopulation).map (fun c => c.fitness) = some 1 ∧
    (∃ c ∈ examplePopulation, c.fitness = 1) ∧ (∀ c ∈ examplePopulation, c.fitness ≤ 1) := by
  refine ⟨by decide!, by decide, by decide, by decide, by decide⟩

/-! ## The run of `evolve` -/

/-- C24 (as stated, refuted): a pool configured for one best and two random placements,
after `setBestPlacements` with one placement and one `addPlacement`, holds one random
placement instead of two, and `getRandomPlacement` returns a placement instead of
raising. -/
theorem getRandomPlacement_off_size :
    partlyFilledPool.map
      (fun pool => (pool.bestPlacements.length, pool.bestPoolSize,
        pool.randomPlacements.length, pool.randPoolSize)) = some (1, 1, 1, 2) ∧
    (partlyFilledPool.bind (fun pool => pool.getRandomPlacement ⟨tableDraws [], 0⟩)).map
      Prod.fst = some spacedChromosome := by
  refine ⟨by decide, by decide⟩

theorem get?_uniformInt (l : List PlacementChromosome) (hne : l ≠ []) (rng : RNG) :
    ∃ c, l.get? (rng.uniformInt 0 ((l.length : Int) - 1)).1.toNat = some c ∧ c ∈ l := by
  have hpos : 0 < l.length := List.length_pos.2 hne
  have hr := uniformInt_range rng 0 ((l.length : Int) - 1) (by omega)
  have hlt : (rng.uniformInt 0 ((l.length : Int) - 1)).1.toNat < l.length := by omega
  refine ⟨l.get ⟨_, hlt⟩, List.get?_eq_get hlt, List.get_mem _ _ _⟩

/-- C24 (amended): `getRandomPlacement` raises exactly when one of the two buckets is
empty; otherwise it returns a member of the bucket of best placements when the roll is
below `bestProb` and a member of the bucket of random placements when it is not. -/
theorem getRandomPlacement_spec (pool : PlacementPool) (rng : RNG) :
    (pool.getRandomPlacement rng = none ↔
      (pool.bestPlacements = [] ∨ pool.randomPlacements = [])) ∧
    ∀ c ∈ (pool.getRandomPlacement rng).map Prod.fst,
      (rng.uniformReal01.1 < pool.bestProb ∧ c ∈ pool.bestPlacements) ∨
      (¬ rng.uniformReal01.1 < pool.bestProb ∧ c ∈ pool.randomPlacements) := by
  unfold PlacementPool.getRandomPlacement
  by_cases he : pool.bestPlacements = [] ∨ pool.randomPlacements = []
  · have he1 : (pool.bestPlacements.isEmpty = true ∨ pool.randomPlacements.isEmpty = true) := by
      simpa [List.isEmpty_iff] using he
    rw [if_pos he1]
    simp [he]
  · have he1 : ¬ (pool.bestPlacements.isEmpty = true ∨ pool.randomPlacements.isEmpty = true) := by
      simpa [List.isEmpty_iff] using he
    rw [if_neg he1]
    push_neg at he
    obtain ⟨cb, hcb, hmb⟩ := get?_uniformInt pool.bestPlacements he.1 rng.uniformReal01.2
    obtain ⟨cr, hcr, hmr⟩ := get?_uniformInt pool.randomPlacements he.2 rng.uniformReal01.2
    by_cases hroll : rng.uniformReal01.1 < pool.bestProb
    · simp only [hroll, if_true, hcb]
      simp [hmb, he.1, he.2]
    · simp only [hroll, if_false, hcr]
      simp [hmr, he.1, he.2]

/-- C25 (as stated, refuted): with `randPoolSize = 0` one `addPlacement` leaves one
placement in the bucket of random placements, which is more than `randPoolSize`. -/
theorem addPlacement_exceeds_zero :
    (zeroRandomPool.map (fun pool => pool.addPlacement spacedChromosome)).map
      (fun pool => (pool.randomPlacements.length, pool.randPoolSize)) = some (1, 0) := by
  decide

theorem addPlacement_step (pool : PlacementPool) (p : PlacementChromosome)
    (hpos : 1 ≤ pool.randPoolSize) (hlen : pool.randomPlacements.length ≤ pool.randPoolSize) :
    (pool.addPlacement p).randomPlacements
      = (pool.randomPlacements ++ [p]).drop
          ((pool.randomPlacements ++ [p]).length - pool.randPoolSize) ∧
    (pool.addPlacement p).randomPlacements.length ≤ pool.randPoolSize ∧
    (pool.addPlacement p).bestPlacements = pool.bestPlacements ∧
    (pool.addPlacement p).randPoolSize = pool.randPoolSize := by
  simp only [PlacementPool.addPlacement]
  by_cases hfull : pool.randomPlacements.length ≥ pool.randPoolSize ∧
      pool.randomPlacements.length > 0
  · rw [if_pos hfull]
    have hl : pool.randomPlacements.length = pool.randPoolSize := by omega
    cases hr : pool.randomPlacements with
    | nil => rw [hr] at hfull; simp at hfull
    | cons a l =>
      rw [hr] at hl
      simp only [List.length_cons] at hl
      have h1 : (a :: l ++ [p]).length - pool.randPoolSize = 1 := by
        simp only [List.length_append, List.length_cons, List.length_singleton,
          List.length_nil]
        omega
      rw [h1]
      refine ⟨by simp, ?_, trivial, trivial⟩
      simp only [List.tail_cons, List.length_append, List.length_singleton]
      omega
  · rw [if_neg hfull]
    have hl : pool.randomPlacements.length < pool.randPoolSize := by
      by_contra hc
      exact hfull ⟨by omega, by omega⟩
    have h0 : (pool.randomPlacements ++ [p]).length - pool.randPoolSize = 0 := by
      simp only [List.length_append, List.length_singleton]
      omega
    rw [h0]
    refine ⟨by simp, ?_, trivial, trivial⟩
    simp only [List.length_append, List.length_singleton]
    omega

theorem addPlacements_spec (ps : List PlacementChromosome) :
    ∀ pool : PlacementPool, 1 ≤ pool.randPoolSize →
      pool.randomPlacements.length ≤ pool.randPoolSize →
      (pool.addPlacements ps).randomPlacements
        = (pool.randomPlacements ++ ps).drop
            ((pool.randomPlacements ++ ps).length - pool.randPoolSize) ∧
      (pool.addPlacements ps).randomPlacements.length ≤ pool.randPoolSize ∧
      (pool.addPlacements ps).bestPlacements = pool.bestPlacements := by
  induction ps with
  | nil =>
    intro pool _ hlen
    have h0 : (pool.randomPlacements ++ []).length - pool.randPoolSize = 0 := by
      simp only [List.append_nil]
      omega
    rw [h0]
    simp [PlacementPool.addPlacements, hlen]
  | cons p rest ih =>
    intro pool hpos hlen
    obtain ⟨h1, h2, h3, h4⟩ := addPlacement_step pool p hpos hlen
    obtain ⟨i1, i2, i3⟩ := ih (pool.addPlacement p) (by rw [h4]; exact hpos) (by rw [h4]; exact h2)
    have hfold : pool.addPlacements (p :: rest) = (pool.addPlacement p).addPlacements rest := rfl
    rw [hfold]
    refine ⟨?_, by rw [h4] at i2; exact i2, by rw [i3, h3]⟩
    rw [i1, h1, h4]
    have hk : (pool.randomPlacements ++ [p]).length - pool.randPoolSize
        ≤ (pool.randomPlacements ++ [p]).length := Nat.sub_le _ _
    rw [← List.drop_append_of_le_length hk, List.drop_drop]
    simp only [List.append_assoc, List.singleton_append, List.length_append, List.length_drop,
      List.length_cons, List.length_singleton, List.length_nil]
    congr 1
    omega

/-- C25 (amended): for `randPoolSize ≥ 1` and a bucket of random placements that holds
at most `randPoolSize`, after any sequence of `addPlacement` calls the bucket holds at
most `randPoolSize` placements, namely the last `randPoolSize` of the old content
followed by the added placements in the order added (a full bucket loses its oldest
entry on every call), and the bucket of best placements is unchanged. -/
theorem addPlacement_fifo (pool : PlacementPool) (ps : List PlacementChromosome)
    (p : PlacementChromosome)
    (hpos : 1 ≤ pool.randPoolSize) (hlen : pool.randomPlacements.length ≤ pool.randPoolSize) :
    (pool.addPlacements ps).randomPlacements.length ≤ pool.randPoolSize ∧
    (pool.addPlacements ps).randomPlacements
      = (pool.randomPlacements ++ ps).drop
          ((pool.randomPlacements ++ ps).length - pool.randPoolSize) ∧
    (pool.addPlacements ps).bestPlacements = pool.bestPlacements ∧
    (pool.randomPlacements.length = pool.randPoolSize →
      (pool.addPlacement p).randomPlacements = pool.randomPlacements.tail ++ [p]) ∧
    (pool.randomPlacements.length < pool.randPoolSize →
      (pool.addPlacement p).randomPlacements = pool.randomPlacements ++ [p]) := by
  obtain ⟨h1, h2, h3⟩ := addPlacements_spec ps pool hpos hlen
  refine ⟨h2, h1, h3, ?_, ?_⟩
  · intro hfull
    simp only [PlacementPool.addPlacement]
    rw [if_pos ⟨by omega, by omega⟩]
  · intro hlt
    simp only [PlacementPool.addPlacement]
    rw [if_neg (by omega)]

/-- Witness for C25 (amended): three placements added to a full bucket of size two. -/
theorem addPlacement_fifo_witness :
    (({ bestPlacements := [spacedChromosome],
        randomPlacements := [spacedChromosome, shiftedChromosome],
        bestPoolSize := 1, randPoolSize := 2, bestProb := 700 } : PlacementPool).addPlacements
      [shiftedChromosome, shiftedChromosome, spacedChromosome]).randomPlacements
      = [shiftedChromosome, spacedChromosome] :=
  ((addPlacement_fifo
    { bestPlacements := [spacedChromosome],
      randomPlacements := [spacedChromosome, shiftedChromosome],
      bestPoolSize := 1, randPoolSize := 2, bestProb := 700 }
    [shiftedChromosome, shiftedChromosome, spacedChromosome] spacedChromosome
    (by decide) (by decide)).2.1).trans (by decide)

/-! ## Uniqueness in `generatePopulation` and the deduplication key -/

theorem digitChar_inj (a b : Nat) (ha : a < 10) (hb : b < 10)
    (h : digitChar a = digitChar b) : a = b := by
  interval_cases a <;> interval_cases b <;> first | rfl | (exfalso; revert h; decide)

theorem digitChar_ne (d : Nat) : digitChar d ≠ ',' ∧ digitChar d ≠ '-' := by
  unfold digitChar
  split <;> decide

theorem map_digitChar_inj (l1 : List Nat) :
    ∀ l2 : List Nat, (∀ x ∈ l1, x < 10) → (∀ x ∈ l2, x < 10) →
      l1.map digitChar = l2.map digitChar → l1 = l2 := by
  induction l1 with
  | nil => intro l2 _ _ h; cases l2 with
    | nil => rfl
    | cons b l => simp at h
  | cons a l ih =>
    intro l2 h1 h2 h
    cases l2 with
    | nil => simp at h
    | cons b l2 =>
      simp only [List.map_cons, List.cons.injEq] at h
      have hab := digitChar_inj a b (h1 a (by simp)) (h2 b (by simp)) h.1
      have hl := ih l2 (fun x hx => h1 x (by simp [hx])) (fun x hx => h2 x (by simp [hx])) h.2
      rw [hab, hl]

theorem toStringNat_chars (n : Nat) (ch : Char) (h : ch ∈ toStringNat n) :
    ch ≠ ',' ∧ ch ≠ '-' := by
  unfold toStringNat at h
  split at h
  · simp only [List.mem_singleton] at h
    subst h
    decide
  · simp only [List.mem_map, List.mem_reverse] at h
    obtain ⟨d, _, rfl⟩ := h
    exact digitChar_ne d

theorem toStringNat_inj (n m : Nat) (h : toStringNat n = toStringNat m) : n = m := by
  have key : ∀ a b : Nat, a ≠ 0 → b ≠ 0 → toStringNat a = toStringNat b → a = b := by
    intro a b ha hb hab
    unfold toStringNat at hab
    rw [if_neg ha, if_neg hb] at hab
    have hr := map_digitChar_inj _ _
      (fun x hx => Nat.digits_lt_base (by norm_num) (List.mem_reverse.1 hx))
      (fun x hx => Nat.digits_lt_base (by norm_num) (List.mem_reverse.1 hx)) hab
    have hd : Nat.digits 10 a = Nat.digits 10 b := List.reverse_injective hr
    rw [← Nat.ofDigits_digits 10 a, ← Nat.ofDigits_digits 10 b, hd]
  have zero : ∀ b : Nat, b ≠ 0 → toStringNat 0 ≠ toStringNat b := by
    intro b hb hab
    unfold toStringNat at hab
    rw [if_pos rfl, if_neg hb] at hab
    have h0 : ['0'] = [0].map digitChar := rfl
    rw [h0] at hab
    have hr := map_digitChar_inj _ _ (by simp)
      (fun x hx => Nat.digits_lt_base (by norm_num) (List.mem_reverse.1 hx)) hab
    have hd : Nat.digits 10 b = [0] := by
      have := congrArg List.reverse hr
      simpa using this.symm
    have := Nat.ofDigits_digits 10 b
    rw [hd] at this
    simp [Nat.ofDigits] at this
    exact hb this.symm
  by_cases hn : n = 0
  · by_cases hm : m = 0
    · rw [hn, hm]
    · subst hn; exact absurd h (zero m hm)
  · by_cases hm : m = 0
    · subst hm; exact absurd h.symm (zero n hn)
    · exact key n m hn hm h

theorem toStringInt_chars (i : Int) : ',' ∉ toStringInt i := by
  intro h
  unfold toStringInt at h
  split at h
  · simp only [List.mem_cons] at h
    rcases h with h | h
    · revert h; decide
    · exact (toStringNat_chars _ _ h).1 rfl
  · exact (toStringNat_chars _ _ h).1 rfl

theorem toStringInt_inj (i j : Int) (h : toStringInt i = toStringInt j) : i = j := by
  unfold toStringInt at h
  split at h <;> split at h
  · simp only [List.cons.injEq, true_and] at h
    have := toStringNat_inj _ _ h
    omega
  · have hm : '-' ∈ toStringNat j.natAbs := by rw [← h]; simp
    exact absurd rfl (toStringNat_chars _ _ hm).2
  · have hm : '-' ∈ toStringNat i.natAbs := by rw [h]; simp
    exact absurd rfl (toStringNat_chars _ _ hm).2
  · have := toStringNat_inj _ _ h
    omega

theorem comma_split (a : List Char) :
    ∀ (b r1 r2 : List Char), ',' ∉ a → ',' ∉ b → a ++ ',' :: r1 = b ++ ',' :: r2 →
      a = b ∧ r1 = r2 := by
  induction a with
  | nil =>
    intro b r1 r2 _ hb h
    cases b with
    | nil => simpa using h
    | cons y b =>
      simp only [List.nil_append, List.cons_append, List.cons.injEq] at h
      exact absurd (List.mem_cons.2 (Or.inl h.1)) hb
  | cons x a ih =>
    intro b r1 r2 ha hb h
    cases b with
    | nil =>
      simp only [List.nil_append, List.cons_append, List.cons.injEq] at h
      exact absurd (by simp [h.1]) ha
    | cons y b =>
      simp only [List.cons_append, List.cons.injEq] at h
      obtain ⟨hab, hr⟩ := ih b r1 r2 (fun hc => ha (by simp [hc])) (fun hc => hb (by simp [hc])) h.2
      exact ⟨by rw [h.1, hab], hr⟩

theorem generateChromosomeKey_foldl (genes : List Int) (key : List Char) :
    genes.foldl (fun key gene => key ++ (toStringInt gene ++ [','])) key
      = key ++ (genes.map (fun gene => toStringInt gene ++ [','])).flatten := by
  induction genes generalizing key with
  | nil => simp
  | cons g l ih => simp only [List.foldl_cons, ih, List.map_cons, List.flatten_cons,
      List.append_assoc]

theorem generateChromosomeKey_inj (genes1 : List Int) :
    ∀ genes2 : List Int, generateChromosomeKey genes1 = generateChromosomeKey genes2 →
      genes1 = genes2 := by
  unfold generateChromosomeKey
  simp only [generateChromosomeKey_foldl, List.nil_append]
  induction genes1 with
  | nil =>
    intro genes2 h
    cases genes2 with
    | nil => rfl
    | cons b l => simp at h
  | cons a l ih =>
    intro genes2 h
    cases genes2 with
    | nil => simp at h
    | cons b l2 =>
      simp only [List.map_cons, List.flatten_cons, List.append_assoc, List.singleton_append] at h
      obtain ⟨hab, hr⟩ := comma_split _ _ _ _ (toStringInt_chars a) (toStringInt_chars b) h
      rw [toStringInt_inj a b hab, ih l2 hr]

theorem generatePopulationLoop1_distinct (maxTries : Int) (fuel n : Nat) :
    ∀ (k : Nat) (seen : List (List Int)) (pop : List PlacementChromosome) (rng : RNG)
      (seen1 : List (List Int)) (out : List PlacementChromosome) (rng1 : RNG),
      generatePopulationLoop1 maxTries fuel n k seen pop rng = some (seen1, out, rng1) →
      (∀ c ∈ pop, c.isValid = true ∧ c.genes ∈ seen) →
      (pop.map (fun c => c.genes)).Nodup →
      (∀ c ∈ out, c.isValid = true ∧ c.genes ∈ seen1) ∧
      (out.map (fun c => c.genes)).Nodup := by
  intro k
  induction k with
  | zero =>
    intro seen pop rng seen1 out rng1 h hv hn
    simp only [generatePopulationLoop1, Option.some.injEq, Prod.mk.injEq] at h
    obtain ⟨rfl, rfl, _⟩ := h
    exact ⟨hv, hn⟩
  | succ k ih =>
    intro seen pop rng seen1 out rng1 h hv hn
    simp only [generatePopulationLoop1] at h
    split at h
    · split at h
      · simp at h
      · rename_i chrom rng2 hg
        split at h
        · exact ih _ _ _ _ _ _ h hv hn
        · rename_i hvalid
          split at h
          · rename_i hnew
            refine ih _ _ _ _ _ _ h ?_ ?_
            · intro c hc
              simp only [List.mem_append, List.mem_singleton] at hc
              rcases hc with hc | rfl
              · exact ⟨(hv c hc).1, List.mem_cons_of_mem _ (hv c hc).2⟩
              · exact ⟨by simpa using hvalid, List.mem_cons_self _ _⟩
            · simp only [List.map_append, List.map_cons, List.map_nil]
              refine List.Nodup.append hn (List.nodup_singleton _) ?_
              intro g hg1 hg2
              simp only [List.mem_singleton] at hg2
              subst hg2
              simp only [List.mem_map] at hg1
              obtain ⟨c, hc, hcg⟩ := hg1
              exact hnew (hcg ▸ (hv c hc).2)
          · exact ih _ _ _ _ _ _ h hv hn
    · simp only [Option.some.injEq, Prod.mk.injEq] at h
      obtain ⟨rfl, rfl, _⟩ := h
      exact ⟨hv, hn⟩

theorem generatePopulationLoop2_distinct (fuel n : Nat) :
    ∀ (k : Nat) (seen : List (List Int)) (pop : List PlacementChromosome) (rng : RNG)
      (out : List PlacementChromosome) (rng1 : RNG),
      generatePopulationLoop2 fuel n k seen pop rng = some (out, rng1) →
      (∀ c ∈ pop, c.isValid = true ∧ c.genes ∈ seen) →
      (pop.map (fun c => c.genes)).Nodup →
      (∀ c ∈ out, c.isValid = true) ∧ (out.map (fun c => c.genes)).Nodup := by
  intro k
  induction k with
  | zero =>
    intro seen pop rng out rng1 h hv hn
    simp only [generatePopulationLoop2, Option.some.injEq, Prod.mk.injEq] at h
    obtain ⟨rfl, _⟩ := h
    exact ⟨fun c hc => (hv c hc).1, hn⟩
  | succ k ih =>
    intro seen pop rng out rng1 h hv hn
    simp only [generatePopulationLoop2] at h
    split at h
    · split at h
      · simp at h
      · rename_i genes rng2 hg
        have hvalid := generateValidRandomGenes_sound fuel rng genes rng2 hg
        split at h
        · rename_i hnew
          refine ih _ _ _ _ _ h ?_ ?_
          · intro c hc
            simp only [List.mem_append, List.mem_singleton] at hc
            rcases hc with hc | rfl
            · exact ⟨(hv c hc).1, List.mem_cons_of_mem _ (hv c hc).2⟩
            · exact ⟨hvalid, List.mem_cons_self _ _⟩
          · simp only [List.map_append, List.map_cons, List.map_nil]
            refine List.Nodup.append hn (List.nodup_singleton _) ?_
            intro g hg1 hg2
            simp only [List.mem_singleton] at hg2
            subst hg2
            simp only [List.mem_map] at hg1
            obtain ⟨c, hc, hcg⟩ := hg1
            exact hnew (hcg ▸ (hv c hc).2)
        · exact ih _ _ _ _ _ h hv hn
    · simp only [Option.some.injEq, Prod.mk.injEq] at h
      obtain ⟨rfl, _⟩ := h
      exact ⟨fun c hc => (hv c hc).1, hn⟩

/-- C26: `generatePopulation(n)` returns at most `n` chromosomes, each of them valid, no
two with the same sequence of genes; and the string key used for deduplication is
injective on gene sequences, so that a key is in the set of keys seen exactly when its
gene sequence is among the sequences seen. -/
theorem generatePopulation_distinct (maxTries : Int) (fuel n : Nat) (rng : RNG)
    (out : List PlacementChromosome)
    (h : (generatePopulation maxTries fuel n rng).map Prod.fst = some out) :
    out.length ≤ n ∧ (∀ c ∈ out, c.isValid = true) ∧
    (out.map (fun c => c.genes)).Nodup ∧
    Function.Injective generateChromosomeKey ∧
    ∀ (genes : List Int) (seen : List (List Int)),
      generateChromosomeKey genes ∈ seen.map generateChromosomeKey ↔ genes ∈ seen := by
  have hinj : Function.Injective generateChromosomeKey :=
    fun a b hab => generateChromosomeKey_inj a b hab
  cases hg : generatePopulation maxTries fuel n rng with
  | none => rw [hg] at h; simp at h
  | some r =>
    obtain ⟨pop, rng1⟩ := r
    rw [hg] at h
    simp only [Option.map_some', Option.some.injEq] at h
    subst h
    refine ⟨generatePopulation_length maxTries fuel n rng _ rng1 hg, ?_, ?_, hinj,
      fun genes seen => List.mem_map_of_injective hinj⟩
    · unfold generatePopulation at hg
      split at hg
      · simp at hg
      · rename_i seen p rng2 h1
        obtain ⟨hv, hn⟩ := generatePopulationLoop1_distinct maxTries fuel n _ _ _ _ _ _ _ h1
          (by simp) (by simp)
        exact (generatePopulationLoop2_distinct fuel n _ _ _ _ _ _ hg hv hn).1
    · unfold generatePopulation at hg
      split at hg
      · simp at hg
      · rename_i seen p rng2 h1
        obtain ⟨hv, hn⟩ := generatePopulationLoop1_distinct maxTries fuel n _ _ _ _ _ _ _ h1
          (by simp) (by simp)
        exact (generatePopulationLoop2_distinct fuel n _ _ _ _ _ _ hg hv hn).2

set_option maxRecDepth 1000000 in
/-- Witness for C26: with `n = 2` and draws that generate `spacedExampleGenes` and then
`shiftedExampleGenes`, `generatePopulation` returns these two chromosomes. -/
theorem generatePopulation_distinct_witness :
    (generatePopulation 50 1 2
        ⟨tableDraws ([3] ++ spacedDraws ++ [3] ++ shiftedDraws), 0⟩).map Prod.fst
      = some [{ genes := spacedExampleGenes }, { genes := shiftedExampleGenes }] ∧
    [({ genes := spacedExampleGenes } : PlacementChromosome),
      { genes := shiftedExampleGenes }].length ≤ 2 ∧
    (∀ c ∈ [({ genes := spacedExampleGenes } : PlacementChromosome),
      { genes := shiftedExampleGenes }], c.isValid = true) ∧
    ([({ genes := spacedExampleGenes } : PlacementChromosome),
      { genes := shiftedExampleGenes }].map (fun c => c.genes)).Nodup :=
  ⟨by decide!,
    (generatePopulation_distinct 50 1 2
      ⟨tableDraws ([3] ++ spacedDraws ++ [3] ++ shiftedDraws), 0⟩ _ (by decide!)).1,
    (generatePopulation_distinct 50 1 2
      ⟨tableDraws ([3] ++ spacedDraws ++ [3] ++ shiftedDraws), 0⟩ _ (by decide!)).2.1,
    (generatePopulation_distinct 50 1 2
      ⟨tableDraws ([3] ++ spacedDraws ++ [3] ++ shiftedDraws), 0⟩ _ (by decide!)).2.2.1⟩

/-! ## Saved state of the weight GA -/

theorem loadGenes_save (genes : List Rat) (rest : List StateField) :
    loadGenes genes.length (genes.map (fun gene => StateField.int (castToInt gene)) ++ rest)
      = some (genes.map (fun gene => ((castToInt gene : Int) : Rat)), rest) := by
  induction genes with
  | nil => rfl
  | cons g l ih =>
    simp only [List.length_cons, List.map_cons, List.cons_append, loadGenes, List.append_eq, ih]

theorem loadChromosomes_save (population : List DecisionChromosome) (rest : List StateField)
    (h : ∀ c ∈ population, c.getGenes.length = DECISION_GENES) :
    loadChromosomes population.length ((population.map saveChromosome).flatten ++ rest)
      = some (population.map (fun c =>
          { DecisionChromosome.fresh with
            m_genes := c.getGenes.map (fun gene => ((castToInt gene : Int) : Rat)),
            m_fitness := c.m_fitness })) := by
  induction population with
  | nil => rfl
  | cons c l ih =>
    have hc : c.getGenes.length = DECISION_GENES := h c (by simp)
    have hl := ih (fun d hd => h d (by simp [hd]))
    simp only [List.length_cons, List.map_cons, List.flatten_cons, saveChromosome,
      List.append_assoc, List.singleton_append, List.cons_append, loadChromosomes,
      List.nil_append, List.append_eq]
    rw [loadGenes_save]
    simp only [DecisionChromosome.ofGenes, List.length_map, hc, ne_eq, not_true_eq_false,
      if_false, hl, DecisionChromosome.copy, DecisionChromosome.fresh]

/-- What `loadGAState` reads back from a file written by `saveGAState`: the generation,
the mutation rate, and for every chromosome its genes converted to `int` and its
fitness, all other members at their defaults. -/
theorem loadGAState_saveGAState (gen : Int) (population : List DecisionChromosome)
    (mutationRate : Rat) (h : ∀ c ∈ population, c.getGenes.length = DECISION_GENES) :
    loadGAState (saveGAState gen population mutationRate)
      = some (gen, mutationRate, population.map (fun c =>
          { DecisionChromosome.fresh with
            m_genes := c.getGenes.map (fun gene => ((castToInt gene : Int) : Rat)),
            m_fitness := c.m_fitness })) := by
  have hl := loadChromosomes_save population [] h
  rw [List.append_nil] at hl
  simp only [saveGAState, List.cons_append, List.nil_append, loadGAState, hl]

/-- C29 (the code at the failing input): a population of one weight genome whose twenty
genes are `1/2`, with fitness `-40`, saved at generation 7 with mutation rate `3/10` and
loaded again: the generation, the mutation rate, the population size and the fitness
are those saved, and every gene is `0`. -/
theorem saveGAState_truncates_genes :
    halfWeights.map (fun c => (c.getGenes, c.m_fitness))
      = some (List.replicate 20 (1 / 2), -40) ∧
    (halfWeights.bind (fun c => loadGAState (saveGAState 7 [c] (3 / 10)))).map
      (fun r => (r.1, r.2.1, r.2.2.map (fun c => (c.getGenes, c.m_fitness))))
      = some (7, 3 / 10, [(List.replicate 20 0, -40)]) := by
  refine ⟨by decide!, by decide!⟩

/-! ## Copies of weight genomes -/

/-- C31 (the code at the failing input): the copy constructor and the copy assignment
of `DecisionChromosome` copy the four private members only.  For a genome whose public
members hold the weights 1,...,1, fitness `-40`, mean 45 and deviation 3, the copy has
the public weights 0,...,0 and public statistics 0, and a default genome assigned from
it keeps its own public members; neither equals the source. -/
theorem copy_drops_public_fields :
    (DecisionChromosome.copy evaluatedWeights).weights = List.replicate 20 0 ∧
    (DecisionChromosome.copy evaluatedWeights).fitness = 0 ∧
    (DecisionChromosome.copy evaluatedWeights).meanShots = 0 ∧
    (DecisionChromosome.copy evaluatedWeights).stdDevShots = 0 ∧
    DecisionChromosome.copy evaluatedWeights ≠ evaluatedWeights ∧
    (DecisionChromosome.assign DecisionChromosome.fresh evaluatedWeights).weights
      = List.replicate 20 0 ∧
    (DecisionChromosome.assign DecisionChromosome.fresh evaluatedWeights).fitness = 0 ∧
    DecisionChromosome.assign DecisionChromosome.fresh evaluatedWeights ≠ evaluatedWeights ∧
    (DecisionChromosome.copy evaluatedWeights).getGenes = evaluatedWeights.getGenes ∧
    (DecisionChromosome.copy evaluatedWeights).m_fitness = evaluatedWeights.m_fitness := by
  refine ⟨by decide!, by decide!, by decide!, by decide!, by decide!, by decide!, by decide!,
    by decide!, by decide!, by decide!⟩

/-! ## The relocation step of `repair` -/

/-- C32 (the code at the failing input): `repair` starts from `field = {0}` and never
marks the ships of the genome on it.  On the example genome of the specification the
first pass picks ship 6 (one cell at `(0, 4)`), un-marks it, and the local search
accepts the candidate `(2, 2)`, which is a cell of ship 4 (cells `(2, 2)` and
`(3, 2)`). -/
theorem repair_accepts_occupied_cell :
    isValidGenes specExampleGenes = false ∧
    (repairLocalLoop 6 30 specExampleGenes (markShip specExampleGenes Grid.empty 6 (-1))
      ⟨tableDraws [6, 0, 4, 0], 1⟩).1 = true ∧
    (repairLoop { genes := specExampleGenes } 1 0 specExampleGenes Grid.empty
      ⟨tableDraws [6, 0, 4, 0], 0⟩).1 = setShipGenes specExampleGenes 6 2 2 false ∧
    (shipAt (setShipGenes specExampleGenes 6 2 2 false) 6).getAllCells = [⟨2, 2⟩] ∧
    (shipAt (setShipGenes specExampleGenes 6 2 2 false) 4).getAllCells = [⟨2, 2⟩, ⟨3, 2⟩] ∧
    (shipAt (setShipGenes specExampleGenes 6 2 2 false) 6).intersects
      (shipAt (setShipGenes specExampleGenes 6 2 2 false) 4) = true := by
  refine ⟨by decide!, by decide!, by decide!, by decide!, by decide!, by decide!⟩

/-! ## The score returned by the fitness function -/

set_option maxRecDepth 1000000 in
/-- C33 (the code at the failing input): the engine calls the fitness function and does
not use the value returned.  With the fitness lambda of `testPlacementDiversity`, which
returns a score of at least 40 for every valid chromosome and writes nothing, both
chromosomes stored by `initializePopulation` are valid and have the fitness 0. -/
theorem stored_fitness_is_not_score :
    (initializePopulation (discardScore diversityFitness) 1
        (exampleGA (tableDraws
          ([999] ++ [0, 3] ++ spacedDraws ++ [7] ++ [0, 3] ++ shiftedDraws ++ [12])))).map
      (fun ga => ga.population.map (fun c => (c.genes, c.fitness, c.isValid)))
      = some [(spacedExampleGenes, 0, true), (shiftedExampleGenes, 0, true)] ∧
    (diversityFitness { genes := spacedExampleGenes }
      ⟨tableDraws ([999] ++ [0, 3] ++ spacedDraws ++ [7]), 43⟩).1 = 47 ∧
    ∀ (c : PlacementChromosome) (rng : RNG), c.isValid = true →
      40 ≤ (diversityFitness c rng).1 := by
  refine ⟨by decide!, by decide!, ?_⟩
  intro c rng hc
  have h := uniformInt_range rng (-10) 9 (by decide)
  simp only [diversityFitness, hc, Bool.not_true, Bool.false_eq_true, if_false]
  omega

/-! ## The configuration after `evolveWithParams` -/

set_option maxRecDepth 1000000 in
/-- C40 (the code at the failing input): `evolveWithParams` stores the parameters it is
given without the checks of the constructor.  An engine built by
`PlacementGA(2, 0.8, 0.04, 1, 1)` has a consistent configuration; after
`evolveWithParams` with `crossoverP = 2.0` (and `maxGenerations = 0`) the call has
returned a chromosome and the engine holds the crossover probability 2.0. -/
theorem evolveWithParams_breaks_config :
    (PlacementGA.create 2 800 40 1 1 ⟨tableDraws ([0] ++ legacyDraws), 0⟩).map consistentConfig
      = some true ∧
    ((PlacementGA.create 2 800 40 1 1 ⟨tableDraws ([0] ++ legacyDraws), 0⟩).bind
        (evolveWithParams
          { popSize := 2, crossoverP := 2000, mutationP := 40, tournamentK := 1,
            eliteCount := 1 } rowFitness 1 10 0 0)).map
      (fun r => (r.1, r.2.crossoverRate, consistentConfig r.2))
      = some (shiftedChromosome, 2000, false) := by
  refine ⟨by decide!, by decide!⟩

/-! ## The board -/

theorem legacy_board_never_sunk (cells shots : List (Int × Int)) :
    ((Board.empty.placeShipCells cells).shootAll shots).allShipsSunk = false := by
  have key : ∀ b : Board, b.totalShipCells = 0 ∧ b.ships = [] → b.allShipsSunk = false := by
    intro b hb
    simp [Board.allShipsSunk, hb.1, hb.2]
  apply key
  have hplace : ∀ (l : List (Int × Int)) (b : Board), b.totalShipCells = 0 ∧ b.ships = [] →
      (b.placeShipCells l).totalShipCells = 0 ∧ (b.placeShipCells l).ships = [] := by
    intro l
    induction l with
    | nil => intro b hb; exact hb
    | cons c l ih =>
      intro b hb
      simp only [Board.placeShipCells, List.foldl_cons]
      apply ih
      simp only [Board.placeShipCell]
      split_ifs <;> exact hb
  have hsink : ∀ (x y : Int) (l : List Ship) (b : Board),
      b.totalShipCells = 0 ∧ b.ships = [] →
      (Board.sinkCheck x y l b).totalShipCells = 0 ∧ (Board.sinkCheck x y l b).ships = [] := by
    intro x y l
    induction l with
    | nil => intro b hb; exact hb
    | cons s l ih =>
      intro b hb
      simp only [Board.sinkCheck]
      split_ifs
      · exact hb
      · exact hb
      · exact ih b hb
  have hshoot : ∀ (l : List (Int × Int)) (b : Board), b.totalShipCells = 0 ∧ b.ships = [] →
      (b.shootAll l).totalShipCells = 0 ∧ (b.shootAll l).ships = [] := by
    intro l
    induction l with
    | nil => intro b hb; exact hb
    | cons c l ih =>
      intro b hb
      simp only [Board.shootAll, List.foldl_cons]
      apply ih
      simp only [Board.shoot]
      split_ifs
      · exact hb
      · split
        · exact hb
        · exact hb
        · exact hb
        · exact hsink _ _ _ _ hb
        · exact hb
  exact hshoot shots _ (hplace cells _ ⟨rfl, rfl⟩)

/-- C34 (the code at the failing input): in the scenario of `testBoard` the ship cells
`(2,3)`, `(3,3)`, `(4,3)` are placed with `placeShip(x, y)` and all three are shot; no
cell is left in state `SHIP`, three hits were counted, and `allShipsSunk()` is false,
because `placeShip(x, y)` leaves `m_totalShipCells` at 0 and `m_ships` empty. -/
theorem testBoard_not_sunk :
    testBoardFinal.getRemainingShipCells = [] ∧
    testBoardFinal.sunkShipCells = 3 ∧
    testBoardFinal.totalShipCells = 0 ∧
    testBoardFinal.allShipsSunk = false := by
  refine ⟨by decide!, by decide!, by decide!, by decide!⟩

/-- C35 (the code at the failing input): for the fleet of two one-cell ships on the
cell `(0, 0)` `Fleet::isValid` is false, yet `placeFleet` returns true: the check of
`placeShip` skips the cells of the ship being placed, so a ship lying on an earlier
one is accepted.  The board then counts two ship cells for the one cell in state
`SHIP`. -/
theorem placeFleet_accepts_stacked :
    Fleet.isValid stackedFleet 10 = false ∧
    (Board.empty.placeFleet stackedFleet).1 = true ∧
    (Board.empty.placeFleet stackedFleet).2.getRemainingShipCells = [(0, 0)] ∧
    (Board.empty.placeFleet stackedFleet).2.totalShipCells = 2 := by
  refine ⟨by decide!, by decide!, by decide!, by decide!⟩

/-! ## Counting the cells in state `SHIP` -/

theorem mem_boardCells (x y : Int) :
    (x, y) ∈ boardCells ↔ 0 ≤ x ∧ x < 10 ∧ 0 ≤ y ∧ y < 10 := by
  simp only [boardCells, List.mem_flatMap, List.mem_range, List.mem_map, Prod.mk.injEq]
  constructor
  · rintro ⟨b, hb, a, ha, rfl, rfl⟩
    omega
  · rintro ⟨h1, h2, h3, h4⟩
    exact ⟨y.toNat, by omega, x.toNat, by omega, by omega, by omega⟩

theorem boardCells_nodup : boardCells.Nodup := by decide!

theorem remaining_length (b : Board) :
    b.getRemainingShipCells.length
      = boardCells.countP (fun cell => decide (b.grid.state cell.2 cell.1 = CellState.SHIP)) := by
  unfold Board.getRemainingShipCells
  rw [← List.countP_eq_length_filter]
  apply List.countP_congr
  rintro ⟨x, y⟩ hc
  have h := (mem_boardCells x y).1 hc
  have hr : ¬ (x < 0 ∨ x ≥ BOARD_SIZE ∨ y < 0 ∨ y ≥ BOARD_SIZE) := by
    simp only [BOARD_SIZE]; omega
  simp only [Board.getCell, hr, if_false]

theorem countP_same {α : Type} (l : List α) (p q : α → Bool)
    (h : ∀ a ∈ l, p a = q a) : l.countP p = l.countP q := by
  apply List.countP_congr
  intro a ha
  rw [h a ha]

theorem countP_update {α : Type} (l : List α) (hl : l.Nodup) (a : α) (ha : a ∈ l)
    (p q : α → Bool) (hpq : ∀ b ∈ l, b ≠ a → q b = p b) (hp : p a = false) (hq : q a = true) :
    l.countP q = l.countP p + 1 := by
  induction l with
  | nil => simp at ha
  | cons b l ih =>
    rw [List.nodup_cons] at hl
    by_cases hba : b = a
    · subst hba
      have hrest : l.countP q = l.countP p :=
        countP_same l q p (fun c hc => hpq c (List.mem_cons_of_mem _ hc)
          (fun hcb => hl.1 (hcb ▸ hc)))
      rw [List.countP_cons_of_pos _ _ hq, List.countP_cons_of_neg _ _ (by simp [hp]), hrest]
    · have ha1 : a ∈ l := by
        rcases List.mem_cons.1 ha with h | h
        · exact absurd h.symm hba
        · exact h
      have ih1 := ih hl.2 ha1 (fun c hc hca => hpq c (List.mem_cons_of_mem _ hc) hca)
      have hb := hpq b (List.mem_cons_self _ _) hba
      simp only [List.countP_cons, ih1, hb]
      omega

theorem set_state (g : CellGrid) (y x : Int) (v : CellState) (yy xx : Int) :
    (g.set y x v).state yy xx = if yy = y ∧ xx = x then v else g.state yy xx := rfl

theorem foldl_set_state (v : CellState) (cells : List Cell) :
    ∀ (g : CellGrid) (y x : Int),
      (cells.foldl (fun g1 cell => g1.set cell.y cell.x v) g).state y x
        = if (⟨x, y⟩ : Cell) ∈ cells then v else g.state y x := by
  induction cells with
  | nil => intro g y x; simp
  | cons c rest ih =>
    intro g y x
    simp only [List.foldl_cons, ih, set_state, List.mem_cons]
    by_cases h1 : (⟨x, y⟩ : Cell) ∈ rest
    · simp [h1]
    · by_cases h2 : (⟨x, y⟩ : Cell) = c
      · subst h2; simp [h1]
      · have h3 : ¬ (y = c.y ∧ x = c.x) := by
          rintro ⟨rfl, rfl⟩
          exact h2 rfl
        simp [h1, h2, h3]

theorem count_set_ship (g : CellGrid) (x y : Int) (hb : 0 ≤ x ∧ x < 10 ∧ 0 ≤ y ∧ y < 10)
    (hs : g.state y x ≠ CellState.SHIP) :
    boardCells.countP (fun cell => decide ((g.set y x CellState.SHIP).state cell.2 cell.1
        = CellState.SHIP))
      = boardCells.countP (fun cell => decide (g.state cell.2 cell.1 = CellState.SHIP)) + 1 := by
  apply countP_update boardCells boardCells_nodup (x, y) ((mem_boardCells x y).2 hb)
  · rintro ⟨x1, y1⟩ _ hne
    have h3 : ¬ (y1 = y ∧ x1 = x) := by
      rintro ⟨rfl, rfl⟩
      exact hne rfl
    simp only [set_state, h3, if_false]
  · simpa using hs
  · simp [set_state]

theorem count_unset_ship (g : CellGrid) (x y : Int) (hb : 0 ≤ x ∧ x < 10 ∧ 0 ≤ y ∧ y < 10)
    (v : CellState) (hv : v ≠ CellState.SHIP) (hs : g.state y x = CellState.SHIP) :
    boardCells.countP (fun cell => decide (g.state cell.2 cell.1 = CellState.SHIP))
      = boardCells.countP (fun cell => decide ((g.set y x v).state cell.2 cell.1
          = CellState.SHIP)) + 1 := by
  apply countP_update boardCells boardCells_nodup (x, y) ((mem_boardCells x y).2 hb)
  · rintro ⟨x1, y1⟩ _ hne
    have h3 : ¬ (y1 = y ∧ x1 = x) := by
      rintro ⟨rfl, rfl⟩
      exact hne rfl
    simp only [set_state, h3, if_false]
  · simpa [set_state] using hv
  · simpa using hs

theorem getAllCells_nodup (s : Ship) : s.getAllCells.Nodup := by
  unfold Ship.getAllCells
  apply List.Nodup.map _ (List.nodup_range _)
  intro i j hij
  cases hh : s.horizontal <;> simp [hh] at hij <;> omega

theorem getAllCells_length (s : Ship) : s.getAllCells.length = s.length.toNat := by
  simp [Ship.getAllCells]

theorem count_place (cells : List Cell) :
    ∀ (g : CellGrid), cells.Nodup →
      (∀ c ∈ cells, (0 ≤ c.x ∧ c.x < 10 ∧ 0 ≤ c.y ∧ c.y < 10) ∧
        g.state c.y c.x ≠ CellState.SHIP) →
      boardCells.countP (fun cell => decide
          ((cells.foldl (fun g1 c => g1.set c.y c.x CellState.SHIP) g).state cell.2 cell.1
            = CellState.SHIP))
        = boardCells.countP (fun cell => decide (g.state cell.2 cell.1 = CellState.SHIP))
          + cells.length := by
  induction cells with
  | nil => intro g _ _; simp
  | cons c rest ih =>
    intro g hn h
    rw [List.nodup_cons] at hn
    simp only [List.foldl_cons, List.length_cons]
    rw [ih (g.set c.y c.x CellState.SHIP) hn.2, count_set_ship g c.x c.y
      (h c (List.mem_cons_self _ _)).1 (h c (List.mem_cons_self _ _)).2]
    · omega
    · intro d hd
      have hdc : d ≠ c := fun hdc => hn.1 (hdc ▸ hd)
      have h3 : ¬ (d.y = c.y ∧ d.x = c.x) := by
        rintro ⟨h1, h2⟩
        apply hdc
        cases d; cases c
        simp only [Cell.mk.injEq]
        exact ⟨h2, h1⟩
      refine ⟨(h d (List.mem_cons_of_mem _ hd)).1, ?_⟩
      simp only [set_state, h3, if_false]
      exact (h d (List.mem_cons_of_mem _ hd)).2

/-! ## Placing a valid fleet -/

theorem placeShip_ok (placed : List Ship) (b : Board) (s : Ship) (inv : PlacedInv placed b)
    (hb : s.isWithinBounds 10 = true) (hl : 0 ≤ s.length) (ha : ∀ p ∈ placed, p.apart s) :
    (b.placeShip s).1 = true ∧ PlacedInv (placed ++ [s]) (b.placeShip s).2 := by
  have hfree : ∀ c ∈ s.getAllCells, ∀ dx dy : Int, -1 ≤ dx → dx ≤ 1 → -1 ≤ dy → dy ≤ 1 →
      (0 ≤ c.x + dx ∧ c.x + dx < 10 ∧ 0 ≤ c.y + dy ∧ c.y + dy < 10) →
      b.grid.state (c.y + dy) (c.x + dx) = CellState.SEA := by
    intro c hc dx dy h1 h2 h3 h4 hr
    rcases inv.sea (c.x + dx) (c.y + dy) with h | h
    · obtain ⟨p, hp, hpc⟩ := (inv.cells _ _ hr).1 h
      have := ha p hp _ hpc c hc
      simp only [chebyshevDist] at this
      omega
    · exact h
  have hconf : s.getAllCells.any (b.neighbourConflict s) = false := by
    rw [List.any_eq_false]
    intro c hc
    simp only [Board.neighbourConflict, Bool.not_eq_true, List.any_eq_false, BOARD_SIZE]
    intro dy hdy dx hdx
    have hdy1 : -1 ≤ dy ∧ dy ≤ 1 := by
      simp only [List.mem_cons, List.mem_singleton, List.not_mem_nil, or_false] at hdy
      omega
    have hdx1 : -1 ≤ dx ∧ dx ≤ 1 := by
      simp only [List.mem_cons, List.mem_singleton, List.not_mem_nil, or_false] at hdx
      omega
    split_ifs with hr
    · have := hfree c hc dx dy hdx1.1 hdx1.2 hdy1.1 hdy1.2 ⟨by omega, by omega, by omega, by omega⟩
      simp [this]
    · rfl
  have hb1 : (!s.isWithinBounds BOARD_SIZE) = false := by simp [BOARD_SIZE, hb]
  simp only [Board.placeShip, hb1, hconf, Bool.false_eq_true, if_false]
  refine ⟨trivial, ?_⟩
  have hold : ∀ c ∈ s.getAllCells, b.grid.state c.y c.x = CellState.SEA := by
    intro c hc
    have := hfree c hc 0 0 (by omega) (by omega) (by omega) (by omega)
      (by have := cells_on_board s hb c hc; omega)
    simpa using this
  constructor
  · simp [inv.ships]
  · intro x y hr
    simp only [foldl_set_state, List.mem_append, List.mem_singleton]
    by_cases hm : (⟨x, y⟩ : Cell) ∈ s.getAllCells
    · simp only [hm, if_true, true_iff]
      exact ⟨s, Or.inr rfl, hm⟩
    · simp only [hm, if_false, inv.cells x y hr]
      constructor
      · rintro ⟨p, hp, hpc⟩
        exact ⟨p, Or.inl hp, hpc⟩
      · rintro ⟨p, hp | hp, hpc⟩
        · exact ⟨p, hp, hpc⟩
        · subst hp; exact absurd hpc hm
  · intro x y
    simp only [foldl_set_state]
    by_cases hm : (⟨x, y⟩ : Cell) ∈ s.getAllCells
    · simp [hm]
    · simp only [hm, if_false]
      exact inv.sea x y
  · exact inv.sunk
  · simp only []
    rw [count_place s.getAllCells b.grid (getAllCells_nodup s)
      (fun c hc => ⟨cells_on_board s hb c hc, by rw [hold c hc]; decide⟩)]
    rw [getAllCells_length]
    have := inv.count
    push_cast
    rw [this, Int.toNat_of_nonneg hl]
  · simp only [List.map_append, List.map_cons, List.map_nil, List.sum_append, List.sum_cons,
      List.sum_nil, add_zero]
    rw [← inv.total]

theorem placeFleetLoop_ok (rest : List Ship) :
    ∀ (placed : List Ship) (b : Board), PlacedInv placed b →
      (∀ s ∈ rest, s.isWithinBounds 10 = true ∧ 0 ≤ s.length ∧ ∀ p ∈ placed, p.apart s) →
      rest.Pairwise Ship.apart →
      (Board.placeFleetLoop rest b).1 = true ∧
      PlacedInv (placed ++ rest) (Board.placeFleetLoop rest b).2 := by
  induction rest with
  | nil =>
    intro placed b inv _ _
    simpa [Board.placeFleetLoop] using inv
  | cons s rest ih =>
    intro placed b inv h hp
    rw [List.pairwise_cons] at hp
    obtain ⟨h1, h2, h3⟩ := h s (List.mem_cons_self _ _)
    obtain ⟨hok, inv1⟩ := placeShip_ok placed b s inv h1 h2 h3
    simp only [Board.placeFleetLoop, hok, if_true]
    have := ih (placed ++ [s]) (b.placeShip s).2 inv1
      (fun t ht => ⟨(h t (List.mem_cons_of_mem _ ht)).1, (h t (List.mem_cons_of_mem _ ht)).2.1,
        fun p hp1 => by
          rcases List.mem_append.1 hp1 with hp2 | hp2
          · exact (h t (List.mem_cons_of_mem _ ht)).2.2 p hp2
          · simp only [List.mem_singleton] at hp2
            subst hp2
            exact hp.1 t ht⟩)
      hp.2
    simpa using this

theorem empty_placedInv : PlacedInv [] Board.empty := by
  constructor
  · rfl
  · intro x y _
    simp [Board.empty]
  · intro x y
    exact Or.inr rfl
  · rfl
  · simp [Board.empty]
  · rfl

theorem placeFleet_valid (b : Board) (fleet : List Ship)
    (hb : ∀ s ∈ fleet, s.isWithinBounds 10 = true) (hl : ∀ s ∈ fleet, 0 ≤ s.length)
    (hp : fleet.Pairwise Ship.apart) :
    (b.placeFleet fleet).1 = true ∧ PlacedInv fleet (b.placeFleet fleet).2 := by
  have := placeFleetLoop_ok fleet [] Board.empty empty_placedInv
    (fun s hs => ⟨hb s hs, hl s hs, fun p hp1 => by simp at hp1⟩) hp
  simpa [Board.placeFleet, Board.clear] using this

/-! ## Shots at a placed fleet -/

theorem markShipAsSunk_inv (fleet : List Ship) (total : Int) (b : Board) (s : Ship)
    (inv : BoardInv fleet total b) (hs : s ∈ fleet) (hk : b.isShipSunk s = true) :
    BoardInv fleet total (b.markShipAsSunk s) := by
  have hns : ∀ c ∈ s.getAllCells, b.grid.state c.y c.x ≠ CellState.SHIP := by
    simpa [Board.isShipSunk] using hk
  constructor
  · exact inv.ships
  · intro x y hr
    simp only [Board.markShipAsSunk, foldl_set_state]
    by_cases hm : (⟨x, y⟩ : Cell) ∈ s.getAllCells
    · simp only [hm, if_true]
      exact ⟨fun _ => by simp, fun _ => ⟨s, hs, hm⟩⟩
    · simp only [hm, if_false]
      exact inv.cells x y hr
  · have hc := inv.count
    have hsame : boardCells.countP (fun cell => decide
          ((b.markShipAsSunk s).grid.state cell.2 cell.1 = CellState.SHIP))
        = boardCells.countP (fun cell => decide (b.grid.state cell.2 cell.1 = CellState.SHIP)) := by
      apply countP_same
      rintro ⟨x, y⟩ _
      simp only [Board.markShipAsSunk, foldl_set_state]
      by_cases hm : (⟨x, y⟩ : Cell) ∈ s.getAllCells
      · have := hns _ hm
        simp only at this
        simp [hm, this]
      · simp [hm]
    rw [hsame]
    exact hc
  · exact inv.total

theorem sinkCheck_inv (fleet : List Ship) (total : Int) (x y : Int) (l : List Ship) :
    ∀ b : Board, BoardInv fleet total b → (∀ s ∈ l, s ∈ fleet) →
      BoardInv fleet total (Board.sinkCheck x y l b) := by
  induction l with
  | nil => intro b inv _; exact inv
  | cons s rest ih =>
    intro b inv hl
    simp only [Board.sinkCheck]
    split_ifs with h1 h2
    · exact markShipAsSunk_inv fleet total b s inv (hl s (List.mem_cons_self _ _)) h2
    · exact inv
    · exact ih b inv (fun t ht => hl t (List.mem_cons_of_mem _ ht))

theorem shoot_inv (fleet : List Ship) (total : Int) (b : Board) (x y : Int)
    (inv : BoardInv fleet total b) : BoardInv fleet total (b.shoot x y).2 := by
  unfold Board.shoot
  by_cases hr : x < 0 ∨ x ≥ BOARD_SIZE ∨ y < 0 ∨ y ≥ BOARD_SIZE
  · rw [if_pos hr]; exact inv
  · rw [if_neg hr]
    have hb : 0 ≤ x ∧ x < 10 ∧ 0 ≤ y ∧ y < 10 := by
      simp only [BOARD_SIZE] at hr; omega
    cases hst : b.grid.state y x with
    | HIT => exact inv
    | MISS => exact inv
    | SUNK => exact inv
    | SHIP =>
      simp only []
      apply sinkCheck_inv
      · constructor
        · exact inv.ships
        · intro x1 y1 hr1
          simp only [set_state]
          by_cases h3 : y1 = y ∧ x1 = x
          · obtain ⟨rfl, rfl⟩ := h3
            simp only [and_self, if_true]
            have := (inv.cells x1 y1 hr1).2 (Or.inl hst)
            exact ⟨fun _ => by simp, fun _ => this⟩
          · simp only [h3, if_false]
            exact inv.cells x1 y1 hr1
        · have hc := inv.count
          have := count_unset_ship b.grid x y hb CellState.HIT (by decide) hst
          simp only []
          rw [this] at hc
          push_cast at hc
          omega
        · exact inv.total
      · intro s hs
        simp only [inv.ships] at hs
        exact hs
    | SEA =>
      simp only []
      constructor
      · exact inv.ships
      · intro x1 y1 hr1
        simp only [set_state]
        by_cases h3 : y1 = y ∧ x1 = x
        · obtain ⟨rfl, rfl⟩ := h3
          simp only [and_self, if_true]
          have h := inv.cells x1 y1 hr1
          rw [hst] at h
          constructor
          · intro hx
            have := h.1 hx
            simp at this
          · intro hx
            simp at hx
        · simp only [h3, if_false]
          exact inv.cells x1 y1 hr1
      · have hc := inv.count
        have hsame : boardCells.countP (fun cell => decide
              ((b.grid.set y x CellState.MISS).state cell.2 cell.1 = CellState.SHIP))
            = boardCells.countP
                (fun cell => decide (b.grid.state cell.2 cell.1 = CellState.SHIP)) := by
          apply countP_same
          rintro ⟨x1, y1⟩ _
          simp only [set_state]
          by_cases h3 : y1 = y ∧ x1 = x
          · obtain ⟨rfl, rfl⟩ := h3
            simp [hst]
          · simp [h3]
        simp only []
        rw [hsame]
        exact hc
      · exact inv.total

theorem shootAll_inv (fleet : List Ship) (total : Int) (shots : List (Int × Int)) :
    ∀ b : Board, BoardInv fleet total b → BoardInv fleet total (b.shootAll shots) := by
  induction shots with
  | nil => intro b inv; exact inv
  | cons s rest ih =>
    intro b inv
    simp only [Board.shootAll, List.foldl_cons]
    exact ih _ (shoot_inv fleet total b s.1 s.2 inv)

theorem placedInv_boardInv (fleet : List Ship) (b : Board) (inv : PlacedInv fleet b) :
    BoardInv fleet (fleet.map Ship.length).sum b := by
  constructor
  · exact inv.ships
  · intro x y hr
    rw [← inv.cells x y hr]
    rcases inv.sea x y with h | h <;> simp [h]
  · rw [inv.sunk, zero_add]; exact inv.count
  · exact inv.total

theorem decodeLoop_lengths (genes : List Int) (sizes : List Int) :
    ∀ (k : Nat) (acc fleet : List Ship), decodeLoop genes sizes k acc = some fleet →
      fleet.map Ship.length = acc.map Ship.length ++ sizes := by
  induction sizes with
  | nil =>
    intro k acc fleet h
    simp only [decodeLoop, Option.some.injEq] at h
    simp [h]
  | cons size rest ih =>
    intro k acc fleet h
    simp only [decodeLoop] at h
    split_ifs at h
    have := ih _ _ _ h
    simpa using this

theorem remaining_nil_iff (fleet : List Ship) (total : Int) (b : Board)
    (inv : BoardInv fleet total b) (hb : ∀ s ∈ fleet, s.isWithinBounds 10 = true) :
    b.getRemainingShipCells = [] ↔
      ∀ s ∈ fleet, ∀ c ∈ s.getAllCells, b.isShot c.x c.y = true := by
  have hrem : b.getRemainingShipCells = [] ↔
      ∀ x y : Int, (0 ≤ x ∧ x < 10 ∧ 0 ≤ y ∧ y < 10) → b.grid.state y x ≠ CellState.SHIP := by
    unfold Board.getRemainingShipCells
    rw [List.filter_eq_nil_iff]
    constructor
    · intro h x y hr
      have := h (x, y) ((mem_boardCells x y).2 hr)
      have hr1 : ¬ (x < 0 ∨ x ≥ BOARD_SIZE ∨ y < 0 ∨ y ≥ BOARD_SIZE) := by
        simp only [BOARD_SIZE]; omega
      simpa [Board.getCell, hr1] using this
    · rintro h ⟨x, y⟩ hm
      have hr := (mem_boardCells x y).1 hm
      have hr1 : ¬ (x < 0 ∨ x ≥ BOARD_SIZE ∨ y < 0 ∨ y ≥ BOARD_SIZE) := by
        simp only [BOARD_SIZE]; omega
      simpa [Board.getCell, hr1] using h x y hr
  rw [hrem]
  constructor
  · intro h s hs c hc
    have hr := cells_on_board s (hb s hs) c hc
    have hr1 : ¬ (c.x < 0 ∨ c.x ≥ BOARD_SIZE ∨ c.y < 0 ∨ c.y ≥ BOARD_SIZE) := by
      simp only [BOARD_SIZE]; omega
    have h1 := (inv.cells c.x c.y hr).1 ⟨s, hs, hc⟩
    have h2 := h c.x c.y hr
    simp only [Board.isShot, hr1, if_false, decide_eq_true_eq]
    rcases h1 with h1 | h1 | h1
    · exact absurd h1 h2
    · exact Or.inl h1
    · exact Or.inr (Or.inr h1)
  · intro h x y hr hst
    obtain ⟨s, hs, hc⟩ := (inv.cells x y hr).2 (Or.inl hst)
    have := h s hs _ hc
    have hr1 : ¬ (x < 0 ∨ x ≥ BOARD_SIZE ∨ y < 0 ∨ y ≥ BOARD_SIZE) := by
      simp only [BOARD_SIZE]; omega
    simp only [Board.isShot, hr1, if_false, decide_eq_true_eq, hst] at this
    simp at this

/-! ## Which cells have been shot -/

theorem isShot_iff (b : Board) (x y : Int) (hr : 0 ≤ x ∧ x < 10 ∧ 0 ≤ y ∧ y < 10) :
    b.isShot x y = true ↔
      (b.grid.state y x = CellState.HIT ∨ b.grid.state y x = CellState.MISS ∨
        b.grid.state y x = CellState.SUNK) := by
  have hr1 : ¬ (x < 0 ∨ x ≥ BOARD_SIZE ∨ y < 0 ∨ y ≥ BOARD_SIZE) := by
    simp only [BOARD_SIZE]; omega
  simp only [Board.isShot, hr1, if_false, decide_eq_true_eq]

theorem sinkCheck_isShot (fleet : List Ship) (total : Int) (x0 y0 : Int) (l : List Ship) :
    ∀ b : Board, BoardInv fleet total b → (∀ s ∈ l, s ∈ fleet) →
      ∀ x y : Int, (0 ≤ x ∧ x < 10 ∧ 0 ≤ y ∧ y < 10) →
        ((Board.sinkCheck x0 y0 l b).isShot x y = true ↔ b.isShot x y = true) := by
  induction l with
  | nil => intro b _ _ x y _; rfl
  | cons s rest ih =>
    intro b inv hl x y hr
    simp only [Board.sinkCheck]
    split_ifs with h1 h2
    · rw [isShot_iff _ x y hr, isShot_iff _ x y hr]
      simp only [Board.markShipAsSunk, foldl_set_state]
      by_cases hm : (⟨x, y⟩ : Cell) ∈ s.getAllCells
      · have hns : b.grid.state y x ≠ CellState.SHIP := by
          have := (List.all_eq_true.1 h2) _ hm
          simpa using this
        have hin := (inv.cells x y hr).1 ⟨s, hl s (List.mem_cons_self _ _), hm⟩
        simp only [hm, if_true]
        constructor
        · intro _
          rcases hin with h | h | h
          · exact absurd h hns
          · exact Or.inl h
          · exact Or.inr (Or.inr h)
        · intro _
          simp
      · simp only [hm, if_false]
    · rfl
    · exact ih b inv (fun t ht => hl t (List.mem_cons_of_mem _ ht)) x y hr

theorem shoot_isShot (fleet : List Ship) (total : Int) (b : Board) (x0 y0 : Int)
    (inv : BoardInv fleet total b) (x y : Int) (hr : 0 ≤ x ∧ x < 10 ∧ 0 ≤ y ∧ y < 10) :
    (b.shoot x0 y0).2.isShot x y = true ↔ (b.isShot x y = true ∨ (x, y) = (x0, y0)) := by
  unfold Board.shoot
  by_cases hr0 : x0 < 0 ∨ x0 ≥ BOARD_SIZE ∨ y0 < 0 ∨ y0 ≥ BOARD_SIZE
  · rw [if_pos hr0]
    constructor
    · exact fun h => Or.inl h
    · rintro (h | h)
      · exact h
      · simp only [Prod.mk.injEq] at h
        simp only [BOARD_SIZE] at hr0
        omega
  · rw [if_neg hr0]
    have hb0 : 0 ≤ x0 ∧ x0 < 10 ∧ 0 ≤ y0 ∧ y0 < 10 := by
      simp only [BOARD_SIZE] at hr0; omega
    have hold : ∀ st : CellState,
        (b.grid.state y0 x0 = CellState.HIT ∨ b.grid.state y0 x0 = CellState.MISS ∨
          b.grid.state y0 x0 = CellState.SUNK) →
        (b.isShot x y = true ↔ (b.isShot x y = true ∨ (x, y) = (x0, y0))) := by
      intro _ hst
      constructor
      · exact fun h => Or.inl h
      · rintro (h | h)
        · exact h
        · simp only [Prod.mk.injEq] at h
          obtain ⟨rfl, rfl⟩ := h
          exact (isShot_iff b x y hr).2 hst
    have hset : ∀ v : CellState,
        (v = CellState.HIT ∨ v = CellState.MISS ∨ v = CellState.SUNK) →
        ∀ b1 : Board, b1.grid = b.grid.set y0 x0 v →
        (b1.isShot x y = true ↔ (b.isShot x y = true ∨ (x, y) = (x0, y0))) := by
      intro v hv b1 hb1
      rw [isShot_iff b1 x y hr, isShot_iff b x y hr, hb1]
      simp only [set_state, Prod.mk.injEq]
      by_cases h3 : y = y0 ∧ x = x0
      · simp only [h3, and_self, if_true, or_true, iff_true]
        exact hv
      · have h4 : ¬ (x = x0 ∧ y = y0) := fun h => h3 ⟨h.2, h.1⟩
        simp only [h3, if_false, h4, or_false]
    cases hst : b.grid.state y0 x0 with
    | HIT => exact hold CellState.HIT (Or.inl hst)
    | MISS => exact hold CellState.MISS (Or.inr (Or.inl hst))
    | SUNK => exact hold CellState.SUNK (Or.inr (Or.inr hst))
    | SHIP =>
      simp only []
      have inv1 : BoardInv fleet total
          { b with grid := b.grid.set y0 x0 CellState.HIT,
                   sunkShipCells := b.sunkShipCells + 1 } := by
        constructor
        · exact inv.ships
        · intro x1 y1 hr1
          simp only [set_state]
          by_cases h3 : y1 = y0 ∧ x1 = x0
          · obtain ⟨rfl, rfl⟩ := h3
            simp only [and_self, if_true]
            have := (inv.cells x1 y1 hr1).2 (Or.inl hst)
            exact ⟨fun _ => by simp, fun _ => this⟩
          · simp only [h3, if_false]
            exact inv.cells x1 y1 hr1
        · have hc := inv.count
          have := count_unset_ship b.grid x0 y0 hb0 CellState.HIT (by decide) hst
          simp only []
          rw [this] at hc
          push_cast at hc
          omega
        · exact inv.total
      rw [sinkCheck_isShot fleet total x0 y0 _ _ inv1
        (fun s hs => by simp only [inv.ships] at hs; exact hs) x y hr]
      exact hset CellState.HIT (Or.inl rfl) _ rfl
    | SEA =>
      simp only []
      exact hset CellState.MISS (Or.inr (Or.inl rfl)) _ rfl

theorem shootAll_isShot (fleet : List Ship) (total : Int) (shots : List (Int × Int)) :
    ∀ b : Board, BoardInv fleet total b →
      ∀ x y : Int, (0 ≤ x ∧ x < 10 ∧ 0 ≤ y ∧ y < 10) →
        ((b.shootAll shots).isShot x y = true ↔ (b.isShot x y = true ∨ (x, y) ∈ shots)) := by
  induction shots with
  | nil => intro b _ x y _; simp [Board.shootAll]
  | cons s rest ih =>
    intro b inv x y hr
    simp only [Board.shootAll, List.foldl_cons]
    have h1 := ih _ (shoot_inv fleet total b s.1 s.2 inv) x y hr
    simp only [Board.shootAll] at h1
    rw [h1, shoot_isShot fleet total b s.1 s.2 inv x y hr, List.mem_cons]
    constructor
    · rintro ((h | h) | h)
      · exact Or.inl h
      · exact Or.inr (Or.inl h)
      · exact Or.inr (Or.inr h)
    · rintro (h | h | h)
      · exact Or.inl (Or.inl h)
      · exact Or.inl (Or.inr h)
      · exact Or.inr h

theorem placed_not_shot (fleet : List Ship) (b : Board) (inv : PlacedInv fleet b)
    (x y : Int) : b.isShot x y = false := by
  unfold Board.isShot
  split_ifs
  · rfl
  · rcases inv.sea x y with h | h <;> simp [h]

theorem shoot_hit_iff (fleet : List Ship) (total : Int) (b : Board)
    (inv : BoardInv fleet total b) (x y : Int) :
    (b.shoot x y).1 = true ↔
      ((0 ≤ x ∧ x < 10 ∧ 0 ≤ y ∧ y < 10) ∧ b.isShot x y = false ∧
        ∃ s ∈ fleet, (⟨x, y⟩ : Cell) ∈ s.getAllCells) := by
  unfold Board.shoot
  by_cases hr0 : x < 0 ∨ x ≥ BOARD_SIZE ∨ y < 0 ∨ y ≥ BOARD_SIZE
  · rw [if_pos hr0]
    simp only [BOARD_SIZE] at hr0
    constructor
    · intro h; simp at h
    · rintro ⟨h, _⟩; omega
  · rw [if_neg hr0]
    have hb : 0 ≤ x ∧ x < 10 ∧ 0 ≤ y ∧ y < 10 := by
      simp only [BOARD_SIZE] at hr0; omega
    have hcell := inv.cells x y hb
    have hshot := isShot_iff b x y hb
    cases hst : b.grid.state y x with
    | HIT =>
      simp only [Bool.false_eq_true, false_iff, not_and]
      intro _ hn
      rw [hst] at hshot
      have := hshot.2 (Or.inl rfl)
      rw [hn] at this
      simp at this
    | MISS =>
      simp only [Bool.false_eq_true, false_iff, not_and]
      intro _ hn
      rw [hst] at hshot
      have := hshot.2 (Or.inr (Or.inl rfl))
      rw [hn] at this
      simp at this
    | SUNK =>
      simp only [Bool.false_eq_true, false_iff, not_and]
      intro _ hn
      rw [hst] at hshot
      have := hshot.2 (Or.inr (Or.inr rfl))
      rw [hn] at this
      simp at this
    | SHIP =>
      simp only [true_iff]
      refine ⟨hb, ?_, hcell.2 (Or.inl hst)⟩
      rw [hst] at hshot
      cases hs : b.isShot x y with
      | false => rfl
      | true =>
        have := hshot.1 hs
        simp at this
    | SEA =>
      simp only [Bool.false_eq_true, false_iff, not_and]
      intro _ _ hex
      have := hcell.1 hex
      rw [hst] at this
      simp at this

theorem mem_remaining (fleet : List Ship) (total : Int) (b : Board)
    (inv : BoardInv fleet total b) (x y : Int) :
    (x, y) ∈ b.getRemainingShipCells ↔
      ((∃ s ∈ fleet, (⟨x, y⟩ : Cell) ∈ s.getAllCells) ∧ (0 ≤ x ∧ x < 10 ∧ 0 ≤ y ∧ y < 10) ∧
        b.isShot x y = false) := by
  unfold Board.getRemainingShipCells
  simp only [List.mem_filter, mem_boardCells, decide_eq_true_eq]
  constructor
  · rintro ⟨hr, hst⟩
    have hr1 : ¬ (x < 0 ∨ x ≥ BOARD_SIZE ∨ y < 0 ∨ y ≥ BOARD_SIZE) := by
      simp only [BOARD_SIZE]; omega
    simp only [Board.getCell, hr1, if_false] at hst
    refine ⟨(inv.cells x y hr).2 (Or.inl hst), hr, ?_⟩
    cases hs : b.isShot x y with
    | false => rfl
    | true =>
      have := (isShot_iff b x y hr).1 hs
      rw [hst] at this
      simp at this
  · rintro ⟨hex, hr, hns⟩
    have hr1 : ¬ (x < 0 ∨ x ≥ BOARD_SIZE ∨ y < 0 ∨ y ≥ BOARD_SIZE) := by
      simp only [BOARD_SIZE]; omega
    refine ⟨hr, ?_⟩
    simp only [Board.getCell, hr1, if_false]
    rcases (inv.cells x y hr).1 hex with h | h | h
    · exact h
    · have := (isShot_iff b x y hr).2 (Or.inl h)
      rw [hns] at this
      simp at this
    · have := (isShot_iff b x y hr).2 (Or.inr (Or.inr h))
      rw [hns] at this
      simp at this

/-- C36: the decoded fleet of a valid genome is placed by `placeFleet`, with 20 cells
in state `SHIP` and no cell shot.  After any sequence of `shoot` calls a cell of the
board counts as shot exactly when it occurs in the sequence; the cells returned by
`getRemainingShipCells()` are the cells of the ships that do not occur in it;
`allShipsSunk()` is true exactly when `getRemainingShipCells()` is empty, which is the
case exactly when every cell of every ship has been shot, that is, occurs in the
sequence; a further shot is a hit exactly when it is the first shot at a cell of a ship;
and a shot outside the board or at a cell already shot returns false and leaves the
board as it is. -/
theorem sunk_detection (g : List Int) (fleet : List Ship) (shots : List (Int × Int))
    (hg : isValidGenes g = true) (hf : decodeFleet g = some fleet) :
    (Board.empty.placeFleet fleet).1 = true ∧
    (Board.empty.placeFleet fleet).2.getRemainingShipCells.length = 20 ∧
    (∀ x y : Int, (Board.empty.placeFleet fleet).2.isShot x y = false) ∧
    (∀ x y : Int, (0 ≤ x ∧ x < 10 ∧ 0 ≤ y ∧ y < 10) →
      (((Board.empty.placeFleet fleet).2.shootAll shots).isShot x y = true ↔
        (x, y) ∈ shots)) ∧
    (∀ x y : Int,
      (x, y) ∈ ((Board.empty.placeFleet fleet).2.shootAll shots).getRemainingShipCells ↔
        ((∃ s ∈ fleet, (⟨x, y⟩ : Cell) ∈ s.getAllCells) ∧ (x, y) ∉ shots)) ∧
    (((Board.empty.placeFleet fleet).2.shootAll shots).allShipsSunk = true ↔
      ((Board.empty.placeFleet fleet).2.shootAll shots).getRemainingShipCells = []) ∧
    (((Board.empty.placeFleet fleet).2.shootAll shots).getRemainingShipCells = [] ↔
      ∀ s ∈ fleet, ∀ c ∈ s.getAllCells,
        ((Board.empty.placeFleet fleet).2.shootAll shots).isShot c.x c.y = true) ∧
    (((Board.empty.placeFleet fleet).2.shootAll shots).allShipsSunk = true ↔
      ∀ s ∈ fleet, ∀ c ∈ s.getAllCells, (c.x, c.y) ∈ shots) ∧
    (∀ x y : Int,
      (((Board.empty.placeFleet fleet).2.shootAll shots).shoot x y).1 = true ↔
        ((0 ≤ x ∧ x < 10 ∧ 0 ≤ y ∧ y < 10) ∧ (x, y) ∉ shots ∧
          ∃ s ∈ fleet, (⟨x, y⟩ : Cell) ∈ s.getAllCells)) ∧
    (∀ x y : Int,
      ((x < 0 ∨ x ≥ 10 ∨ y < 0 ∨ y ≥ 10) ∨
        ((Board.empty.placeFleet fleet).2.shootAll shots).isShot x y = true) →
      ((Board.empty.placeFleet fleet).2.shootAll shots).shoot x y
        = (false, (Board.empty.placeFleet fleet).2.shootAll shots)) ∧
    ∀ x y : Int, ((x < 0 ∨ x ≥ 10 ∨ y < 0 ∨ y ≥ 10) ∨ (x, y) ∈ shots) →
      ((Board.empty.placeFleet fleet).2.shootAll shots).shoot x y
        = (false, (Board.empty.placeFleet fleet).2.shootAll shots) := by
  have hlen : fleet.map Ship.length = standardShipLengths := by
    have := decodeLoop_lengths g standardShipLengths 0 [] fleet hf
    simpa using this
  have hv : Fleet.isValid fleet 10 = true := by
    unfold isValidGenes at hg
    rw [hf] at hg
    simp only [] at hg
    split_ifs at hg
    simp only [Bool.and_eq_true] at hg
    exact hg.1
  have hne : fleet ≠ [] := by
    intro h
    rw [h] at hlen
    simp [standardShipLengths] at hlen
  have hbounds : ∀ s ∈ fleet, s.isWithinBounds 10 = true := by
    unfold Fleet.isValid at hv
    have he : fleet.isEmpty = false := by simpa [List.isEmpty_iff] using hne
    rw [he] at hv
    simp only [Bool.false_eq_true, if_false] at hv
    split_ifs at hv with h1
    simpa using h1
  have hapart : fleet.Pairwise Ship.apart := by
    apply (noConflicts_iff fleet).1
    unfold Fleet.isValid at hv
    have he : fleet.isEmpty = false := by simpa [List.isEmpty_iff] using hne
    rw [he] at hv
    simp only [Bool.false_eq_true, if_false] at hv
    split_ifs at hv
    exact hv
  have hpos : ∀ s ∈ fleet, 0 ≤ s.length := by
    intro s hs
    have : s.length ∈ fleet.map Ship.length := List.mem_map_of_mem _ hs
    rw [hlen] at this
    simp only [standardShipLengths, List.mem_cons, List.mem_singleton, List.not_mem_nil,
      or_false] at this
    omega
  have hsum : (fleet.map Ship.length).sum = 20 := by rw [hlen]; rfl
  obtain ⟨hok, pinv⟩ := placeFleet_valid Board.empty fleet hbounds hpos hapart
  have binv := placedInv_boardInv fleet _ pinv
  rw [hsum] at binv
  have sinv := shootAll_inv fleet 20 shots _ binv
  have hstart : ∀ x y : Int, (Board.empty.placeFleet fleet).2.isShot x y = false :=
    placed_not_shot fleet _ pinv
  have hshot : ∀ x y : Int, (0 ≤ x ∧ x < 10 ∧ 0 ≤ y ∧ y < 10) →
      (((Board.empty.placeFleet fleet).2.shootAll shots).isShot x y = true ↔
        (x, y) ∈ shots) := by
    intro x y hr
    rw [shootAll_isShot fleet 20 shots _ binv x y hr, hstart x y]
    simp
  have hnil := remaining_nil_iff fleet 20 _ sinv hbounds
  have hall : ((Board.empty.placeFleet fleet).2.shootAll shots).allShipsSunk = true ↔
      ((Board.empty.placeFleet fleet).2.shootAll shots).getRemainingShipCells = [] := by
    have hc := sinv.count
    have ht := sinv.total
    have hs := sinv.ships
    rw [← List.length_eq_zero, remaining_length]
    have he : ((Board.empty.placeFleet fleet).2.shootAll shots).ships.isEmpty = false := by
      rw [hs]; simpa [List.isEmpty_iff] using hne
    simp only [Board.allShipsSunk, ht, he, Bool.false_eq_true, and_false, if_false,
      decide_eq_true_eq]
    omega
  have hcells : (∀ s ∈ fleet, ∀ c ∈ s.getAllCells,
        ((Board.empty.placeFleet fleet).2.shootAll shots).isShot c.x c.y = true) ↔
      ∀ s ∈ fleet, ∀ c ∈ s.getAllCells, (c.x, c.y) ∈ shots := by
    constructor
    · intro h s hs c hc
      exact (hshot c.x c.y (cells_on_board s (hbounds s hs) c hc)).1 (h s hs c hc)
    · intro h s hs c hc
      exact (hshot c.x c.y (cells_on_board s (hbounds s hs) c hc)).2 (h s hs c hc)
  have hrepeat : ∀ x y : Int,
      ((x < 0 ∨ x ≥ 10 ∨ y < 0 ∨ y ≥ 10) ∨
        ((Board.empty.placeFleet fleet).2.shootAll shots).isShot x y = true) →
      ((Board.empty.placeFleet fleet).2.shootAll shots).shoot x y
        = (false, (Board.empty.placeFleet fleet).2.shootAll shots) := by
    intro x y h
    unfold Board.shoot
    rcases h with h | h
    · rw [if_pos (by simpa [BOARD_SIZE] using h)]
    · unfold Board.isShot at h
      split_ifs at h with hr
      rw [if_neg hr]
      simp only [decide_eq_true_eq] at h
      rcases h with h | h | h <;> rw [h]
  refine ⟨hok, ?_, hstart, hshot, ?_, hall, hnil, ?_, ?_, hrepeat, ?_⟩
  · rw [remaining_length]
    have h1 := pinv.count
    have h2 := pinv.total
    rw [hsum] at h2
    omega
  · intro x y
    rw [mem_remaining fleet 20 _ sinv x y]
    constructor
    · rintro ⟨hex, hr, hns⟩
      refine ⟨hex, fun hm => ?_⟩
      have := (hshot x y hr).2 hm
      rw [hns] at this
      simp at this
    · rintro ⟨hex, hns⟩
      obtain ⟨s, hs, hc⟩ := hex
      have hr := cells_on_board s (hbounds s hs) _ hc
      simp only at hr
      refine ⟨⟨s, hs, hc⟩, hr, ?_⟩
      cases hsh : ((Board.empty.placeFleet fleet).2.shootAll shots).isShot x y with
      | false => rfl
      | true => exact absurd ((hshot x y hr).1 hsh) hns
  · rw [hall, hnil, hcells]
  · intro x y
    rw [shoot_hit_iff fleet 20 _ sinv x y]
    constructor
    · rintro ⟨hr, hns, hex⟩
      refine ⟨hr, fun hm => ?_, hex⟩
      have := (hshot x y hr).2 hm
      rw [hns] at this
      simp at this
    · rintro ⟨hr, hns, hex⟩
      refine ⟨hr, ?_, hex⟩
      cases hsh : ((Board.empty.placeFleet fleet).2.shootAll shots).isShot x y with
      | false => rfl
      | true => exact absurd ((hshot x y hr).1 hsh) hns
  · intro x y h
    apply hrepeat
    rcases h with h | h
    · exact Or.inl h
    · by_cases hr : x < 0 ∨ x ≥ 10 ∨ y < 0 ∨ y ≥ 10
      · exact Or.inl hr
      · exact Or.inr ((hshot x y (by omega)).2 h)

set_option maxRecDepth 1000000 in
/-- Witness for C36: the fleet of `spacedExampleGenes` and the complete game
`spacedGameShots` (22 shots): every cell of every ship occurs among the shots, so all
ships are sunk and no ship cell remains; the cell `(9, 9)` counts as shot, the cell
`(8, 8)` does not; and the repeated shot at `(0, 0)` returns false and leaves the
board as it is. -/
theorem sunk_detection_witness :
    isValidGenes spacedExampleGenes = true ∧
    decodeFleet spacedExampleGenes = some ((List.range 10).map (shipAt spacedExampleGenes)) ∧
    spacedGameShots.length = 22 ∧
    (Board.empty.placeFleet ((List.range 10).map (shipAt spacedExampleGenes))).1 = true ∧
    (Board.empty.placeFleet
      ((List.range 10).map (shipAt spacedExampleGenes))).2.getRemainingShipCells.length = 20 ∧
    ((Board.empty.placeFleet ((List.range 10).map (shipAt spacedExampleGenes))).2.shootAll
      spacedGameShots).allShipsSunk = true ∧
    ((Board.empty.placeFleet ((List.range 10).map (shipAt spacedExampleGenes))).2.shootAll
      spacedGameShots).isShot 9 9 = true ∧
    ¬ ((Board.empty.placeFleet ((List.range 10).map (shipAt spacedExampleGenes))).2.shootAll
      spacedGameShots).isShot 8 8 = true ∧
    ((Board.empty.placeFleet ((List.range 10).map (shipAt spacedExampleGenes))).2.shootAll
      spacedGameShots).shoot 0 0
      = (false, (Board.empty.placeFleet
          ((List.range 10).map (shipAt spacedExampleGenes))).2.shootAll spacedGameShots) ∧
    ((Board.empty.placeFleet ((List.range 10).map (shipAt spacedExampleGenes))).2.shootAll
      [(0, 0), (9, 9), (0, 0)]).allShipsSunk = false :=
  ⟨by decide!, by decide!, by decide!,
    (sunk_detection spacedExampleGenes ((List.range 10).map (shipAt spacedExampleGenes))
      spacedGameShots (by decide!) (by decide!)).1,
    (sunk_detection spacedExampleGenes ((List.range 10).map (shipAt spacedExampleGenes))
      spacedGameShots (by decide!) (by decide!)).2.1,
    (sunk_detection spacedExampleGenes ((List.range 10).map (shipAt spacedExampleGenes))
      spacedGameShots (by decide!) (by decide!)).2.2.2.2.2.2.2.1.2 (by decide!),
    ((sunk_detection spacedExampleGenes ((List.range 10).map (shipAt spacedExampleGenes))
      spacedGameShots (by decide!) (by decide!)).2.2.2.1 9 9 (by decide)).2 (by decide!),
    fun h => absurd
      (((sunk_detection spacedExampleGenes ((List.range 10).map (shipAt spacedExampleGenes))
        spacedGameShots (by decide!) (by decide!)).2.2.2.1 8 8 (by decide)).1 h) (by decide!),
    (sunk_detection spacedExampleGenes ((List.range 10).map (shipAt spacedExampleGenes))
      spacedGameShots (by decide!) (by decide!)).2.2.2.2.2.2.2.2.2.2 0 0
      (Or.inr (by decide!)),
    by
      have h := (sunk_detection spacedExampleGenes
        ((List.range 10).map (shipAt spacedExampleGenes))
        [(0, 0), (9, 9), (0, 0)] (by decide!) (by decide!)).2.2.2.2.2.2.2.1
      cases hs : ((Board.empty.placeFleet
          ((List.range 10).map (shipAt spacedExampleGenes))).2.shootAll
          [(0, 0), (9, 9), (0, 0)]).allShipsSunk with
      | false => rfl
      | true =>
        have h1 := h.1 hs
        exact absurd h1 (by decide!)⟩

/-! ## Fleet text format -/

/-- C37 (the code at the failing input): `serialize` writes the bit `getIsVertical()`
and `deserialize` passes `coords[3] == 1` to the constructor parameter `horizontal`.  The
fleet of a horizontal ship of length 4 at `(0, 0)` and a vertical ship of length 2 at
`(5, 5)` is written as `0,0,4,0;5,5,2,1` and read back with the first ship vertical and
the second horizontal; origins, lengths and order are kept. -/
theorem deserialize_flips_orientation :
    Fleet.serialize twoShipFleet
      = ['0', ',', '0', ',', '4', ',', '0', ';', '5', ',', '5', ',', '2', ',', '1'] ∧
    Fleet.deserialize (Fleet.serialize twoShipFleet)
      = some [⟨⟨0, 0⟩, 4, false⟩, ⟨⟨5, 5⟩, 2, true⟩] ∧
    Fleet.deserialize (Fleet.serialize twoShipFleet) ≠ some twoShipFleet := by
  refine ⟨by decide!, by decide!, by decide!⟩

/-! ## Shooting features and the board -/

/-- C38 (the code at the failing input): the empty board and the board with an unshot
ship cell at `(0, 0)` show the same shots (none), yet for the cell `(0, 0)` the values of
`getFeatures` without the noise component differ: `getRowFree` reads the board through
`isCellFree`, for which a cell in state `SHIP` is not free, and is 1 on the first
board and `9/10` on the second. -/
theorem features_see_hidden_ship :
    sameShots Board.empty hiddenShipBoard ∧
    Features.getRowFree ⟨Board.empty, [], PlacementPool.default, 0⟩ ⟨0, 0⟩ = 1 ∧
    Features.getRowFree ⟨hiddenShipBoard, [], PlacementPool.default, 0⟩ ⟨0, 0⟩ = 9 / 10 ∧
    withoutNoise (Features.getFeatures zeroMath 0
        ⟨Board.empty, [], PlacementPool.default, 0⟩ ⟨0, 0⟩)
      ≠ withoutNoise (Features.getFeatures zeroMath 0
        ⟨hiddenShipBoard, [], PlacementPool.default, 0⟩ ⟨0, 0⟩) := by
  refine ⟨?_, by decide!, by decide!, by decide!⟩
  intro x y _
  simp only [Board.empty, hiddenShipBoard, Board.placeShipCell, BOARD_SIZE, CellGrid.set]
  norm_num
  by_cases h : y = 0 ∧ x = 0 <;> simp [h]

theorem isCellFree_sameSea (b1 b2 : Board) (h : sameSea b1 b2) (x y : Int) :
    b1.isCellFree x y = b2.isCellFree x y := by
  unfold Board.isCellFree
  by_cases hr : x < 0 ∨ x ≥ BOARD_SIZE ∨ y < 0 ∨ y ≥ BOARD_SIZE
  · simp only [hr, if_true]
  · simp only [hr, if_false]
    have := h x y (by simp only [BOARD_SIZE] at hr; omega)
    simp only [this]

/-- Which components read the board: for two boards with the same cells in state `SEA`,
and the same history, pool and iteration, `getFeatures` returns the same twenty values
(for the same noise); and for any two boards whatever, all components other than
RowFree, ColFree and the four Fit components (indices 6, 7, 11, 12, 13, 14) are the
same. -/
theorem features_same_sea (m : MathLib) (noise : Rat) (b1 b2 : Board)
    (history : List (Cell × ShotResult)) (pool : PlacementPool) (iteration : Int) (cell : Cell)
    (h : sameSea b1 b2) :
    Features.getFeatures m noise ⟨b1, history, pool, iteration⟩ cell
      = Features.getFeatures m noise ⟨b2, history, pool, iteration⟩ cell ∧
    ∀ (c1 c2 : Board) (i : Nat), i ∉ [6, 7, 11, 12, 13, 14] →
      (Features.getFeatures m noise ⟨c1, history, pool, iteration⟩ cell).get? i
        = (Features.getFeatures m noise ⟨c2, history, pool, iteration⟩ cell).get? i := by
  have hfree := isCellFree_sameSea b1 b2 h
  constructor
  · simp only [Features.getFeatures, Features.getRowFree, Features.getColFree,
      Features.canFitShip, hfree]
    rfl
  · intro c1 c2 i hi
    simp only [List.mem_cons, List.mem_singleton, List.not_mem_nil, or_false, not_or] at hi
    obtain ⟨h6, h7, h11, h12, h13, h14⟩ := hi
    have hcases : i < 6 ∨ (8 ≤ i ∧ i < 11) ∨ 15 ≤ i := by omega
    rcases hcases with hlt | ⟨h8, hlt⟩ | hge
    · interval_cases i <;> rfl
    · interval_cases i <;> rfl
    · by_cases h20 : i < 20
      · interval_cases i <;> rfl
      · have hl1 : (Features.getFeatures m noise ⟨c1, history, pool, iteration⟩ cell).length
            ≤ i := by simp [Features.getFeatures]; omega
        have hl2 : (Features.getFeatures m noise ⟨c2, history, pool, iteration⟩ cell).length
            ≤ i := by simp [Features.getFeatures]; omega
        rw [List.get?_eq_none.2 hl1, List.get?_eq_none.2 hl2]

/-! ## The pool of the feature-based shooter -/

theorem run_pool (m : MathLib) (calls : List StrategyCall) :
    ∀ s : FeatureBasedStrategy, (s.run m calls).pool = s.pool := by
  induction calls with
  | nil => intro s; rfl
  | cons c rest ih =>
    intro s
    simp only [FeatureBasedStrategy.run, List.foldl_cons]
    have := ih (FeatureBasedStrategy.step m s c)
    simp only [FeatureBasedStrategy.run] at this
    rw [this]
    cases c with
    | notify x y hit sunk => rfl
    | reset => rfl
    | nextShot board noise rng =>
      simp only [FeatureBasedStrategy.step, FeatureBasedStrategy.getNextShot]
      split <;> rfl

/-- C39 (the code in every reachable state): a `FeatureBasedStrategy` is built with a
default-constructed pool and no operation of the class changes `m_pool`, so after any
sequence of calls the number of best placements, the divisor of `calculateHeat`, is 0;
with a non-empty shot history the Heat feature is then the result of a division by
zero and the score of every cell is not a number. -/
theorem heat_divisor_is_zero (m : MathLib) (noise : Rat) (weights : List Rat)
    (s0 : FeatureBasedStrategy) (calls : List StrategyCall) (board : Board) (cell : Cell)
    (h : FeatureBasedStrategy.create weights = some s0)
    (hh : (s0.run m calls).shotHistory ≠ []) :
    ((s0.run m calls).features board).heatDivisor = 0 ∧
    ((s0.run m calls).features board).calculateHeat cell = none ∧
    (s0.run m calls).scoreCell m noise cell board = none := by
  have hp : (s0.run m calls).pool = PlacementPool.default := by
    rw [run_pool]
    unfold FeatureBasedStrategy.create at h
    split_ifs at h
    simp only [Option.some.injEq] at h
    rw [← h]
  have hd : ((s0.run m calls).features board).heatDivisor = 0 := by
    simp [Features.heatDivisor, FeatureBasedStrategy.features, hp, PlacementPool.default]
  have hheat : ((s0.run m calls).features board).calculateHeat cell = none := by
    have he : ((s0.run m calls).features board).history.isEmpty = false := by
      simpa [FeatureBasedStrategy.features, List.isEmpty_iff] using hh
    simp only [Features.calculateHeat, he, Bool.false_eq_true, if_false, hd, divide,
      Nat.cast_zero, if_true]
  refine ⟨hd, hheat, ?_⟩
  have hfold : ∀ (l : List (Option Rat × Rat)),
      l.foldl (fun score fw =>
        match score, fw.1 with
        | some sc, some v => some (sc + v * fw.2)
        | _, _ => none) (none : Option Rat) = none := by
    intro l
    induction l with
    | nil => rfl
    | cons a l ih => simpa using ih
  unfold FeatureBasedStrategy.scoreCell
  cases hw : (s0.run m calls).weights with
  | nil =>
    exfalso
    have : ∀ (l : List StrategyCall) (s : FeatureBasedStrategy),
        (s.run m l).weights = s.weights := by
      intro l
      induction l with
      | nil => intro s; rfl
      | cons c rest ih =>
        intro s
        simp only [FeatureBasedStrategy.run, List.foldl_cons]
        have := ih (FeatureBasedStrategy.step m s c)
        simp only [FeatureBasedStrategy.run] at this
        rw [this]
        cases c with
        | notify x y hit sunk => rfl
        | reset => rfl
        | nextShot board noise rng =>
          simp only [FeatureBasedStrategy.step, FeatureBasedStrategy.getNextShot]
          split <;> rfl
    rw [this] at hw
    unfold FeatureBasedStrategy.create at h
    split_ifs at h with hlen
    simp only [Option.some.injEq] at h
    rw [← h] at hw
    simp only at hw
    rw [hw] at hlen
    simp at hlen
  | cons w ws =>
    simp only [Features.getFeatures, hheat, List.zip_cons_cons, List.foldl_cons]
    exact hfold _

/-- Witness for C39: twenty weights 1 and one reported miss. -/
theorem heat_divisor_is_zero_witness :
    FeatureBasedStrategy.create (List.replicate 20 1)
      = some ⟨List.replicate 20 1, [], 0, PlacementPool.default⟩ ∧
    (((⟨List.replicate 20 1, [], 0, PlacementPool.default⟩ : FeatureBasedStrategy).run zeroMath
      [StrategyCall.notify 0 0 false false]).features Board.empty).heatDivisor = 0 :=
  ⟨rfl,
    (heat_divisor_is_zero zeroMath 0 (List.replicate 20 1)
      ⟨List.replicate 20 1, [], 0, PlacementPool.default⟩
      [StrategyCall.notify 0 0 false false] Board.empty ⟨0, 0⟩ rfl (by decide)).1⟩

end Battleship
